import Mathlib

/-!
# NTFS reader core of Syslinux (`core/fs/ntfs/ntfs.c`): a shallow embedding

The C code works on raw byte buffers through pointers.  The embedding keeps that
shape: memory is a total map from byte addresses to bytes, pointers are natural
numbers (addresses), multi-byte fields are read little-endian (the code targets
x86), and fixed-width integers are natural numbers reduced modulo `2 ^ w`
where the C type wraps.  Loops that the C code does not bound are given a fuel
argument and return `none` when the fuel runs out.
-/

namespace NTFS

/-! ## Byte-addressed memory -/

/-- Byte-addressed memory: the byte stored at each address. -/
abbrev Mem := Nat → Nat

/-- Read of a `uint8_t`. -/
def rd8 (m : Mem) (a : Nat) : Nat := m a % 256

/-- Read of a little-endian `uint16_t`. -/
def rd16 (m : Mem) (a : Nat) : Nat := rd8 m a + 256 * rd8 m (a + 1)

/-- Read of a little-endian `uint32_t`. -/
def rd32 (m : Mem) (a : Nat) : Nat := rd16 m a + 65536 * rd16 m (a + 2)

/-- Store of a `uint8_t`. -/
def wr8 (m : Mem) (a v : Nat) : Mem := fun x => if x = a then v % 256 else m x

/-- Store of a little-endian `uint16_t`. -/
def wr16 (m : Mem) (a v : Nat) : Mem := wr8 (wr8 m a v) (a + 1) (v / 256)

/-- Memory holding the bytes of `l` from address `base` on, and zero elsewhere. -/
def memOfList (base : Nat) (l : List Nat) : Mem :=
  fun a => if base ≤ a then l.getD (a - base) 0 else 0

/-! ## Host structures and on-disk layout (declared in headers outside `ntfs.c`) -/

/-- The fields of `struct fs_info` that the NTFS code reads through the macros
`SECTOR_SHIFT`, `SECTOR_SIZE`, `BLOCK_SHIFT` and `BLOCK_SIZE`. -/
structure FsInfo where
  sector_shift : Nat
  sector_size : Nat
  block_shift : Nat
  block_size : Nat

/-- Modelled from the spec: `ntfs.h` is not part of the sources; the magic of an MFT
record is the four bytes `"FILE"` read as a little-endian 32-bit word. -/
def NTFS_MAGIC_FILE : Nat := 0x454C4946

/-- Modelled from the spec: `ntfs.h` is not part of the sources; the magic of an index
block is the four bytes `"INDX"` read as a little-endian 32-bit word. -/
def NTFS_MAGIC_INDX : Nat := 0x58444E49

/-- Modelled from the spec: `ntfs.h` is not part of the sources; `NTFS_RECORD` is the
multi-sector header that declares the magic and the offset and count of the update
sequence array, laid out as on disk: the packed
`{ uint32_t magic; uint16_t usa_ofs; uint16_t usa_count; }`, so `magic` is at byte 0. -/
def nrec_magic (m : Mem) (nrec : Nat) : Nat := rd32 m nrec

/-- Field `usa_ofs` of `NTFS_RECORD`, at byte 4 (see `nrec_magic`). -/
def nrec_usa_ofs (m : Mem) (nrec : Nat) : Nat := rd16 m (nrec + 4)

/-- Field `usa_count` of `NTFS_RECORD`, at byte 6 (see `nrec_magic`). -/
def nrec_usa_count (m : Mem) (nrec : Nat) : Nat := rd16 m (nrec + 6)

/-! ## `fixups_copyback` -/

/-- The variables of `fixups_copyback` that change in its `do ... while` loop. -/
structure FixState where
  mem : Mem
  offset : Nat
  usa_start : Nat

/-- One pass through the body of the `do ... while` loop of `fixups_copyback`.

`offset += SECTOR_SIZE(fs) - 2` is a 64-bit unsigned addition.  When the word at
`buf + offset` equals `usa_no` and two more bytes are left before `usa_end`, the code
runs `*val = *usa_start++;` (the word becomes one byte of the array) and then
`*val <<= byte_shift | *usa_start++;` (the word is shifted left by `8 | next byte`
and cut to 16 bits; C leaves shift counts of 32 and more undefined, the model
shifts exactly and then truncates). -/
def fixups_body (fs : FsInfo) (buf usa_no usa_end : Nat) (st : FixState) : FixState :=
  let offset := (st.offset + fs.sector_size + (2 ^ 64 - 2)) % 2 ^ 64
  let val := buf + offset
  if rd16 st.mem val = usa_no then
    if st.usa_start < usa_end ∧ st.usa_start + 1 < usa_end then
      let m1 := wr16 st.mem val (rd8 st.mem st.usa_start)
      let k := 8 ||| rd8 m1 (st.usa_start + 1)
      let m2 := wr16 m1 val ((rd16 m1 val <<< k) % 65536)
      { mem := m2, offset := offset, usa_start := st.usa_start + 2 }
    else
      { mem := st.mem, offset := offset, usa_start := st.usa_start }
  else
    { mem := st.mem, offset := offset, usa_start := st.usa_start }

/-- The `do ... while ((offset + SECTOR_SIZE(fs)) >> SECTOR_SHIFT(fs) < sectors)` loop
of `fixups_copyback`; `none` when the fuel is used up before the loop ends. -/
def fixups_loop (fs : FsInfo) (buf usa_no usa_end sectors : Nat) :
    Nat → FixState → Option FixState
  | 0, _ => none
  | fuel + 1, st =>
    let st1 := fixups_body fs buf usa_no usa_end st
    if ((st1.offset + fs.sector_size) % 2 ^ 64) >>> fs.sector_shift < sectors then
      fixups_loop fs buf usa_no usa_end sectors fuel st1
    else
      some st1

/-- The function `fixups_copyback(fs, buf, nrec, size)`: the returned `int` and the
memory it leaves; `none` when the fuel is used up. -/
def fixups_copyback (fuel : Nat) (fs : FsInfo) (m : Mem) (buf nrec size : Nat) :
    Option (Int × Mem) :=
  if nrec_magic m nrec ≠ NTFS_MAGIC_FILE ∧ nrec_magic m nrec ≠ NTFS_MAGIC_INDX then
    some (-1, m)
  else
    let sectors := (size >>> fs.sector_shift) % 2 ^ 32
    let usa_start := nrec + nrec_usa_ofs m nrec
    let usa_no := rd16 m usa_start
    let usa_end := usa_start + nrec_usa_count m nrec + 1
    match fixups_loop fs buf usa_no usa_end sectors fuel
        { mem := m, offset := 0, usa_start := usa_start } with
    | none => none
    | some st => some (0, st.mem)

/-- A file system with 512-byte sectors and 4096-byte blocks. -/
def fs512 : FsInfo :=
  { sector_shift := 9, sector_size := 512, block_shift := 12, block_size := 4096 }

/-- A one-sector `FILE` record: `usa_ofs = 0x30`, `usa_count = 2`, update sequence
number `0x0001`, saved word `0xABCD`, and the sector ends with the word `tail`. -/
def fileRecord (tail : Nat) : List Nat :=
  [0x46, 0x49, 0x4C, 0x45, 0x30, 0x00, 0x02, 0x00] ++ List.replicate 40 0 ++
  [0x01, 0x00, 0xCD, 0xAB] ++ List.replicate 458 0 ++ [tail % 256, tail / 256]

/-! ## The runlist decoder `parse_data_run` -/

/-- Flag `MAP_START` of the anonymous `enum` above `struct mapping_chunk`. -/
def MAP_START : Nat := 1

/-- Flag `MAP_END`. -/
def MAP_END : Nat := 2

/-- Flag `MAP_ALLOCATED`. -/
def MAP_ALLOCATED : Nat := 4

/-- Flag `MAP_UNALLOCATED`. -/
def MAP_UNALLOCATED : Nat := 8

/-- The constant `MAP_MASK`. -/
def MAP_MASK : Nat := 0x0000000F

/-- The C `struct mapping_chunk`.  `cur_vcn` and `next_vcn` are `uint64_t`; `cur_lcn`
is an `int64_t`, kept as its 64-bit two's-complement pattern; `flags` is a
`uint32_t`; `vcn_len` and `lcn_len` are `uint8_t`. -/
structure mapping_chunk where
  cur_vcn : Nat
  vcn_len : Nat
  next_vcn : Nat
  lcn_len : Nat
  cur_lcn : Nat
  flags : Nat
deriving DecidableEq, Repr

/-- The first `while (count--)` loop of `parse_data_run`, which reads the run length:
`val = *byte--; mask = val >> (byte_shift - 1);
 res = (res << byte_shift) | ((val + mask) ^ mask);`
with `res` an `int64_t` kept as its 64-bit pattern. -/
def vcn_loop (m : Mem) : Nat → Nat → Nat → Nat
  | 0, _, res => res
  | count + 1, byte, res =>
    let val := rd8 m byte
    let mask := val >>> (8 - 1)
    vcn_loop m count (byte - 1) (((res <<< 8) % 2 ^ 64) ||| ((val + mask) ^^^ mask))

/-- The second `while (count--)` loop of `parse_data_run`, which reads the LCN delta:
`res = (res << byte_shift) | *byte--;` with `res` kept as its 64-bit pattern. -/
def lcn_loop (m : Mem) : Nat → Nat → Nat → Nat
  | 0, _, res => res
  | count + 1, byte, res =>
    lcn_loop m count (byte - 1) (((res <<< 8) % 2 ^ 64) ||| rd8 m byte)

/-- What one call of `parse_data_run` leaves: the returned `int`, the value of
`*offset` and the chunk. -/
structure RunResult where
  ret : Int
  offset : Nat
  chunk : mapping_chunk
deriving DecidableEq

/-- The function `parse_data_run(stream, offset, attr_len, chunk)`.  `stream` and
`attr_len` are addresses, `offset` is the value of the `uint32_t` that the
pointer argument refers to. -/
def parse_data_run (m : Mem) (stream offset attr_len : Nat) (chunk : mapping_chunk) :
    RunResult :=
  let flags0 := chunk.flags &&& (0xFFFFFFFF - MAP_MASK)
  let buf := stream + offset
  if buf > attr_len ∨ rd8 m buf = 0 then
    { ret := 0, offset := offset, chunk := { chunk with flags := flags0 ||| MAP_END } }
  else
    let flags1 := if offset = 0 then flags0 ||| MAP_START else flags0
    let cur_vcn := chunk.next_vcn
    let count := rd8 m buf
    let v := count &&& 0x0F
    let l := count >>> 4
    if v > 8 ∨ l > 8 then
      { ret := -1, offset := offset,
        chunk := { chunk with flags := flags1, cur_vcn := cur_vcn } }
    else
      let next_vcn := (chunk.next_vcn + vcn_loop m v (buf + v) 0) % 2 ^ 64
      let byte := buf + v + l
      let res0 := if rd8 m byte &&& 0x80 ≠ 0 then 2 ^ 64 - 1 else 0
      let cur_lcn := (chunk.cur_lcn + lcn_loop m l byte res0) % 2 ^ 64
      let flags2 :=
        if cur_lcn = 0 then flags1 ||| MAP_UNALLOCATED else flags1 ||| MAP_ALLOCATED
      { ret := 0, offset := (offset + (v + l + 1)) % 2 ^ 32,
        chunk := { cur_vcn := cur_vcn, vcn_len := v, next_vcn := next_vcn,
                   lcn_len := l, cur_lcn := cur_lcn, flags := flags2 } }

/-- The unsigned little-endian value of the `n` bytes stored from address `a` on. -/
def le_unsigned (m : Mem) (a : Nat) : Nat → Nat
  | 0 => 0
  | n + 1 => rd8 m a + 256 * le_unsigned m (a + 1) n

/-- The two's-complement little-endian value of the `n` bytes stored from address `a`
on: the sign is bit 7 of the last of them. -/
def le_signed (m : Mem) (a n : Nat) : Int :=
  if 128 ≤ rd8 m (a + n - 1) then (le_unsigned m a n : Int) - 2 ^ (8 * n)
  else (le_unsigned m a n : Int)

/-- The chunk as both callers of the decoder prepare it:
`memset(&chunk, 0, sizeof(chunk)); chunk.cur_vcn = lowest_vcn; chunk.cur_lcn = 0LL;`. -/
def seed_chunk (lowest_vcn : Nat) : mapping_chunk :=
  { cur_vcn := lowest_vcn, vcn_len := 0, next_vcn := 0, lcn_len := 0, cur_lcn := 0,
    flags := 0 }

/-- The chunks that successive calls of `parse_data_run` emit, from the given offset
and chunk on, up to the first call that fails or reports `MAP_END` (at most `fuel`
calls). -/
def decode_chunks (m : Mem) (stream attr_len : Nat) :
    Nat → Nat → mapping_chunk → List mapping_chunk
  | 0, _, _ => []
  | fuel + 1, offset, chunk =>
    let r := parse_data_run m stream offset attr_len chunk
    if r.ret ≠ 0 ∨ r.chunk.flags &&& MAP_END ≠ 0 then []
    else r.chunk :: decode_chunks m stream attr_len fuel r.offset r.chunk

/-- The runlist decoded from a freshly seeded chunk and `droffset = 0`, as in
`index_inode_setup` and `index_lookup`. -/
def decode_runlist (fuel : Nat) (m : Mem) (stream attr_len lowest_vcn : Nat) :
    List mapping_chunk :=
  decode_chunks m stream attr_len fuel 0 (seed_chunk lowest_vcn)

/-- The header (count) byte that a call of `parse_data_run` looks at: `*buf` with
`buf = stream + *offset`. -/
def run_header (m : Mem) (stream offset : Nat) : Nat := rd8 m (stream + offset)

/-- The low nibble `v = count & 0x0F` of the header byte. -/
def run_v (m : Mem) (stream offset : Nat) : Nat := run_header m stream offset &&& 0x0F

/-- The high nibble `l = count >> 4` of the header byte. -/
def run_l (m : Mem) (stream offset : Nat) : Nat := run_header m stream offset >>> 4

/-- The test `buf > attr_len || !*buf` with which `parse_data_run` ends a runlist. -/
def run_at_end (m : Mem) (stream offset attr_len : Nat) : Prop :=
  attr_len < stream + offset ∨ run_header m stream offset = 0

instance (m : Mem) (stream offset attr_len : Nat) :
    Decidable (run_at_end m stream offset attr_len) := by
  unfold run_at_end; infer_instance

/-- The runlist of example E2 of the specification: one run of `0x18` clusters at
LCN `0x5634`. -/
def runlistE2 : List Nat := [0x21, 0x18, 0x34, 0x56, 0x00]

/-- A runlist whose only run has the length byte `0x81`. -/
def runlistLen81 : List Nat := [0x11, 0x81, 0x01, 0x00]

/-- The run of `runlistE2` followed by a run of 5 clusters with LCN width 0. -/
def runlistHole : List Nat := [0x21, 0x18, 0x34, 0x56, 0x01, 0x05, 0x00]

/-! ## The attribute walker `attr_lookup` -/

/-- Modelled from the spec: `ntfs.h` is not part of the sources; `NTFS_AT_END` is the
type code of the sentinel that ends the attribute list of an MFT record. -/
def NTFS_AT_END : Nat := 0xFFFFFFFF

/-- Modelled from the spec: `ntfs.h` is not part of the sources; field `attrs_offset`
(`uint16_t`) of the packed `MFT_RECORD`, at byte `0x14`. -/
def MFT_RECORD_attrs_offset (m : Mem) (mrec : Nat) : Nat := rd16 m (mrec + 0x14)

/-- Modelled from the spec: `ntfs.h` is not part of the sources; field `type`
(`uint32_t`) of the packed `ATTR_RECORD`, at byte 0. -/
def ATTR_RECORD_type (m : Mem) (attr : Nat) : Nat := rd32 m attr

/-- Modelled from the spec: `ntfs.h` is not part of the sources; field `len`
(`uint32_t`) of the packed `ATTR_RECORD`, at byte 4. -/
def ATTR_RECORD_len (m : Mem) (attr : Nat) : Nat := rd32 m (attr + 4)

/-- Modelled from the spec: `ntfs.h` is not part of the sources; field
`data.resident.value_offset` (`uint16_t`) of the packed `ATTR_RECORD`, at byte
`0x14`. -/
def ATTR_RECORD_value_offset (m : Mem) (attr : Nat) : Nat := rd16 m (attr + 0x14)

/-- The `for (;; attr = (ATTR_RECORD *)((uint8_t *)attr + attr->len))` loop of
`attr_lookup`, started at `attr`: `some none` for `return NULL`, `some (some a)`
when the loop is left at the attribute at address `a`, and `none` when the fuel
is used up. -/
def attr_walk (m : Mem) (type : Nat) : Nat → Nat → Option (Option Nat)
  | 0, _ => none
  | fuel + 1, attr =>
    if ATTR_RECORD_type m attr = NTFS_AT_END then some none
    else if ATTR_RECORD_type m attr = type then some (some attr)
    else attr_walk m type fuel (attr + ATTR_RECORD_len m attr)

/-- The function `attr_lookup(type, mrec)`; `mrec = none` is the null pointer. -/
def attr_lookup (fuel : Nat) (m : Mem) (type : Nat) (mrec : Option Nat) :
    Option (Option Nat) :=
  match mrec with
  | none => some none
  | some p =>
    if type = NTFS_AT_END then some none
    else attr_walk m type fuel (p + MFT_RECORD_attrs_offset m p)

/-- The addresses of the first `k` attribute records of the list that starts at
`attr`, each found by adding the `len` of the one before. -/
def attr_addrs (m : Mem) : Nat → Nat → List Nat
  | 0, _ => []
  | k + 1, attr => attr :: attr_addrs m k (attr + ATTR_RECORD_len m attr)

/-- The address of the record that follows the first `k` attribute records of the
list that starts at `attr`. -/
def attr_nth (m : Mem) : Nat → Nat → Nat
  | 0, attr => attr
  | k + 1, attr => attr_nth m k (attr + ATTR_RECORD_len m attr)

/-! ## The name matcher `ntfs_match_longname` -/

/-- Modelled from the spec: `ntfs.h` is not part of the sources; field `file_name_len`
(`uint8_t`) of the packed `FILE_NAME_ATTR`, at byte `0x40`. -/
def FILE_NAME_ATTR_file_name_len (m : Mem) (fn : Nat) : Nat := rd8 m (fn + 0x40)

/-- Modelled from the spec: `ntfs.h` is not part of the sources; address of the array
`file_name` (`uint16_t[]`) of the packed `FILE_NAME_ATTR`, at byte `0x42`. -/
def FILE_NAME_ATTR_file_name (fn : Nat) : Nat := fn + 0x42

/-- The first loop of `ntfs_match_longname`,
`while (len) { cp = *match++; len--; if (!cp) break; c = *str++;
   if (cp != codepage.uni[0][c] && cp != codepage.uni[1][c]) goto out; }`.
The table `codepage.uni` is the argument `uni`.  `none` stands for `goto out`;
otherwise the values of `len`, `match` and `str` after the loop. -/
def match_loop (uni : Nat → Nat → Nat) (m : Mem) : Nat → Nat → Nat → Option (Nat × Nat × Nat)
  | 0, mt, str => some (0, mt, str)
  | len + 1, mt, str =>
    let cp := rd16 m mt
    if cp = 0 then some (len, mt + 2, str)
    else
      let c := rd8 m str
      if cp ≠ uni 0 c ∧ cp ≠ uni 1 c then none
      else match_loop uni m len (mt + 2) (str + 1)

/-- The last loop of `ntfs_match_longname`,
`while (len--) if (*match++ != 0xffff) goto out;`: `false` stands for `goto out`. -/
def pad_loop (m : Mem) : Nat → Nat → Bool
  | 0, _ => true
  | len + 1, mt => if rd16 m mt ≠ 0xffff then false else pad_loop m len (mt + 2)

/-- The function `ntfs_match_longname(str, mft_no, fs)` from the point where the
candidate's record and `FILE_NAME` attribute have been looked up: `attr` is the
attribute that `mft_record_lookup` and `attr_lookup` deliver, `none` when either of
them fails. -/
def ntfs_match_longname (uni : Nat → Nat → Nat) (m : Mem) (str : Nat)
    (attr : Option Nat) : Bool :=
  match attr with
  | none => false
  | some attr =>
    let fn := attr + ATTR_RECORD_value_offset m attr
    let len := FILE_NAME_ATTR_file_name_len m fn
    match match_loop uni m len (FILE_NAME_ATTR_file_name fn) str with
    | none => false
    | some (len1, mt, str1) =>
      if rd8 m str1 ≠ 0 then false else pad_loop m len1 mt

/-- The lower-case form of an ASCII byte. -/
def ascii_lower (c : Nat) : Nat := if 0x41 ≤ c ∧ c ≤ 0x5A then c + 0x20 else c

/-- The upper-case form of an ASCII byte. -/
def ascii_upper (c : Nat) : Nat := if 0x61 ≤ c ∧ c ≤ 0x7A then c - 0x20 else c

/-- Modelled from the spec: the codepage tables are not part of the sources; an ASCII
codepage has `uni[0][c]` the lower-case and `uni[1][c]` the upper-case form of `c`
as a UTF-16 code unit. -/
def ascii_uni (row c : Nat) : Nat := if row = 0 then ascii_lower c else ascii_upper c

/-- The string at `str` has exactly `n` bytes before its NUL. -/
def str_length (m : Mem) (str n : Nat) : Prop :=
  (∀ i, i < n → rd8 m (str + i) ≠ 0) ∧ rd8 m (str + n) = 0

/-- The strings at `s1` and `s2` differ only in letter case: they have the same
length and at each position the same lower-case form. -/
def differ_only_in_case (m : Mem) (s1 s2 : Nat) : Prop :=
  ∃ n, str_length m s1 n ∧ str_length m s2 n ∧
    ∀ i, i < n → ascii_lower (rd8 m (s1 + i)) = ascii_lower (rd8 m (s2 + i))

/-- A resident `FILE_NAME` attribute record (`value_offset = 0x18`) whose name has
the given code units, followed by the bytes of a NUL-terminated string; the
string starts `0x18 + 0x42 + 2 * units.length` bytes after the record. -/
def nameRecord (units : List Nat) (str : List Nat) : List Nat :=
  List.replicate 0x14 0 ++ [0x18, 0x00, 0x00, 0x00] ++ List.replicate 0x40 0 ++
  [units.length, 0x01] ++ units.flatMap (fun u => [u % 256, u / 256]) ++ str ++ [0]

/-- The declared length `file_name_len` of the name stored in the resident
`FILE_NAME` attribute record at `attr`. -/
def stored_name_len (m : Mem) (attr : Nat) : Nat :=
  FILE_NAME_ATTR_file_name_len m (attr + ATTR_RECORD_value_offset m attr)

/-- The `i`-th UTF-16 code unit `file_name[i]` of the name stored in the resident
`FILE_NAME` attribute record at `attr`. -/
def stored_name_unit (m : Mem) (attr i : Nat) : Nat :=
  rd16 m (FILE_NAME_ATTR_file_name (attr + ATTR_RECORD_value_offset m attr) + 2 * i)

/-- An MFT record with `attrs_offset = 0x38` whose attribute list is a
`$STANDARD_INFORMATION` (type `0x10`) and a `$FILE_NAME` (type `0x30`) record of
`0x18` bytes each, followed by the `END` sentinel. -/
def twoAttrRecord : List Nat :=
  List.replicate 0x14 0 ++ [0x38, 0x00] ++ List.replicate 0x22 0 ++
  ([0x10, 0, 0, 0, 0x18, 0, 0, 0] ++ List.replicate 16 0) ++
  ([0x30, 0, 0, 0, 0x18, 0, 0, 0] ++ List.replicate 16 0) ++
  [0xFF, 0xFF, 0xFF, 0xFF]

/-- The stored name `a`, NUL, `0xFFFF` (declared length 3) and the input `a`. -/
def paddedName : List Nat := nameRecord [0x61, 0x0000, 0xFFFF] [0x61]

/-- The stored name `abC` and the input `ABc`. -/
def mixedCaseName : List Nat := nameRecord [0x61, 0x62, 0x43] [0x41, 0x42, 0x63]

/-- The stored name `abC` and the input `AB`. -/
def shortInputName : List Nat := nameRecord [0x61, 0x62, 0x43] [0x41, 0x42]

/-! ## `get_inode_mode` -/

/-- Modelled from the spec: `ntfs.h` is not part of the sources; `NTFS_AT_FILENAME` is
the type code of the `$FILE_NAME` attribute. -/
def NTFS_AT_FILENAME : Nat := 0x30

/-- Modelled from the spec: `ntfs.h` is not part of the sources; the file attribute
flag `READONLY`. -/
def NTFS_FILE_ATTR_READONLY : Nat := 0x00000001

/-- Modelled from the spec: `ntfs.h` is not part of the sources; the file attribute
flag `HIDDEN`. -/
def NTFS_FILE_ATTR_HIDDEN : Nat := 0x00000002

/-- Modelled from the spec: `ntfs.h` is not part of the sources; the file attribute
flag `SYSTEM`. -/
def NTFS_FILE_ATTR_SYSTEM : Nat := 0x00000004

/-- Modelled from the spec: `ntfs.h` is not part of the sources; the file attribute
flag `ARCHIVE`. -/
def NTFS_FILE_ATTR_ARCHIVE : Nat := 0x00000020

/-- Modelled from the spec: `ntfs.h` is not part of the sources; the file attribute
flag `DUP_FILE_NAME_INDEX_PRESENT`. -/
def NTFS_FILE_ATTR_DUP_FILE_NAME_INDEX_PRESENT : Nat := 0x10000000

/-- Modelled from the spec: `ntfs.h` is not part of the sources; field `file_attrs`
(`uint32_t`) of the packed `FILE_NAME_ATTR`, at byte `0x38`. -/
def FILE_NAME_ATTR_file_attrs (m : Mem) (fn : Nat) : Nat := rd32 m (fn + 0x38)

/-- The values of `enum dirent_type` that the NTFS code uses. -/
inductive dirent_type where
  | DT_UNKNOWN
  | DT_REG
  | DT_DIR
deriving DecidableEq, Repr

/-- The part of `get_inode_mode` that follows the attribute lookup: the three masks,
the three masked values and the test
`if (((!dir && root) || (!dir && !root)) && !file) infile = true;`, all on
`uint32_t`. -/
def mode_of_file_attrs (file_attrs : Nat) : dirent_type :=
  let dir_mask := NTFS_FILE_ATTR_ARCHIVE ||| NTFS_FILE_ATTR_DUP_FILE_NAME_INDEX_PRESENT
  let root_mask := NTFS_FILE_ATTR_READONLY ||| NTFS_FILE_ATTR_HIDDEN |||
    NTFS_FILE_ATTR_SYSTEM ||| NTFS_FILE_ATTR_DUP_FILE_NAME_INDEX_PRESENT
  let file_mask := NTFS_FILE_ATTR_ARCHIVE
  let dir := file_attrs &&& (0xFFFFFFFF - dir_mask)
  let root := file_attrs &&& (0xFFFFFFFF - root_mask)
  let file := file_attrs &&& (0xFFFFFFFF - file_mask)
  let infile : Bool :=
    if ((dir = 0 ∧ root ≠ 0) ∨ (dir = 0 ∧ root = 0)) ∧ file = 0 then true else false
  if infile then dirent_type.DT_REG else dirent_type.DT_DIR

/-- The function `get_inode_mode(mrec)`; `none` when the attribute walk uses up the
fuel. -/
def get_inode_mode (fuel : Nat) (m : Mem) (mrec : Nat) : Option dirent_type :=
  match attr_lookup fuel m NTFS_AT_FILENAME (some mrec) with
  | none => none
  | some none => some dirent_type.DT_UNKNOWN
  | some (some attr) =>
    some (mode_of_file_attrs
      (FILE_NAME_ATTR_file_attrs m (attr + ATTR_RECORD_value_offset m attr)))

/-- The four bytes of a little-endian `uint32_t`. -/
def le32 (v : Nat) : List Nat :=
  [v % 256, v / 256 % 256, v / 65536 % 256, v / 16777216 % 256]

/-- The 56 bytes of an MFT record header: magic `FILE`, `usa_ofs = 0x30`,
`usa_count = 3`, `attrs_offset = 0x38`, the given `mft_record_no` at byte `0x2C`,
and the update sequence number `0x0001` at byte `0x30`. -/
def recordHeader (mft_no : Nat) : List Nat :=
  [0x46, 0x49, 0x4C, 0x45, 0x30, 0x00, 0x03, 0x00] ++ List.replicate 12 0 ++
  [0x38, 0x00] ++ List.replicate 22 0 ++ le32 mft_no ++
  [0x01, 0x00] ++ List.replicate 6 0

/-- A resident `$FILE_NAME` attribute record (`value_offset = 0x18`) with the given
`file_attrs` and name, the name followed by one zero code unit. -/
def fileNameAttr (file_attrs : Nat) (units : List Nat) : List Nat :=
  [0x30, 0, 0, 0] ++ le32 (0x18 + 0x42 + 2 * units.length + 2) ++ List.replicate 12 0 ++
  [0x18, 0, 0, 0] ++
  List.replicate 0x38 0 ++ le32 file_attrs ++ List.replicate 4 0 ++
  [units.length, 0x01] ++ units.flatMap (fun u => [u % 256, u / 256]) ++ [0, 0]

/-- An MFT record with number 5 whose only attribute is a `$FILE_NAME` with the
given `file_attrs` and the name `dir`. -/
def modeRecord (file_attrs : Nat) : List Nat :=
  recordHeader 5 ++ fileNameAttr file_attrs [0x64, 0x69, 0x72] ++ [0xFF, 0xFF, 0xFF, 0xFF]

/-! ## `ntfs_getfssec` -/

/-- Modelled from the spec: `ntfs.h` is not part of the sources; `NTFS_AT_DATA` is the
type code of the `$DATA` attribute. -/
def NTFS_AT_DATA : Nat := 0x80

/-- The library calls `memcpy(dst, src, n)` and `memmove(dst, src, n)`: the `n` bytes
from `dst` on become the bytes that were stored from `src` on. -/
def memmove (m : Mem) (dst src n : Nat) : Mem :=
  fun a => if dst ≤ a ∧ a < dst + n then m (src + (a - dst)) else m a

/-- The function `ntfs_getfssec(file, buf, sectors, have_more)` from the point where
`generic_getfssec` has returned `generic_ret`, in the memory `m` it leaves.
`non_resident` and `size` are the fields of the inode; `mrec` is the record that
`mft_record_lookup` delivers (`none` when it fails).  The result is the returned
`uint32_t` and the memory; `none` when a loop uses up the fuel. -/
def ntfs_getfssec (fuel : Nat) (fs : FsInfo) (m : Mem) (buf non_resident size : Nat)
    (generic_ret : Nat) (mrec : Option Nat) : Option (Nat × Mem) :=
  if generic_ret = 0 then some (generic_ret, m)
  else if non_resident = 0 then
    match mrec with
    | none => some (0, m)
    | some mrec =>
      match attr_lookup fuel m NTFS_AT_DATA (some mrec) with
      | none => none
      | some none => some (0, m)
      | some (some attr) =>
        let p := attr + ATTR_RECORD_value_offset m attr
        let m1 := memmove m buf p size
        match fixups_copyback fuel fs m1 buf mrec size with
        | none => none
        | some (err, m2) => if err ≠ 0 then some (0, m2) else some (size, m2)
  else some (generic_ret, m)

/-- An MFT record with number 5 whose only attribute is a resident unnamed `$DATA`
with the given value (`value_offset = 0x18`). -/
def residentRecord (value : List Nat) : List Nat :=
  recordHeader 5 ++
  ([0x80, 0, 0, 0] ++ le32 (0x18 + value.length) ++ List.replicate 8 0 ++
    le32 value.length ++ [0x18, 0, 0, 0] ++ value) ++
  [0xFF, 0xFF, 0xFF, 0xFF]

/-- A resident value of 512 bytes: 510 bytes `A` followed by the bytes `01 00`. -/
def value512 : List Nat := List.replicate 510 0x41 ++ [0x01, 0x00]

/-- The 17 bytes of the resident value of example E4 of the specification:
`hello world`, a line feed and five more bytes. -/
def value17 : List Nat :=
  [0x68, 0x65, 0x6C, 0x6C, 0x6F, 0x20, 0x77, 0x6F, 0x72, 0x6C, 0x64, 0x0A,
   0x2E, 0x2E, 0x2E, 0x2E, 0x2E]

/-- The bytes stored at `a`, `a + 1`, ..., `a + n - 1`. -/
def bytes_at (m : Mem) (a : Nat) : Nat → List Nat
  | 0 => []
  | n + 1 => rd8 m a :: bytes_at m (a + 1) n

/-! ## `ntfs_cvt_longname` and `ntfs_readdir` -/

/-- The `for (c = 0; c < 512; c++)` search of `ntfs_cvt_longname` for a `c` with
`codepage.uni[0][c] == cp`, from `c` on with `n` candidates left. -/
def cvt_search (uni : Nat → Nat → Nat) (cp : Nat) : Nat → Nat → Option Nat
  | 0, _ => none
  | n + 1, c => if uni 0 c = cp then some c else cvt_search uni cp n (c + 1)

/-- What `ntfs_cvt_longname` leaves: the returned `int`, the bytes it has stored
through `p` (in order, from `entry_name` on) and the static `unicache`, a table
of pairs `(utf16, cp)`. -/
structure CvtResult where
  ret : Int
  written : List Nat
  unicache : Nat → Nat × Nat

/-- The `do ... while (cp)` loop of `ntfs_cvt_longname(entry_name, long_name)`, with
`long_name` the address of the next code unit and `out` the bytes stored so far;
`none` when the fuel is used up. -/
def ntfs_cvt_longname (uni : Nat → Nat → Nat) (m : Mem) :
    Nat → Nat → (Nat → Nat × Nat) → List Nat → Option CvtResult
  | 0, _, _, _ => none
  | fuel + 1, long_name, unicache, out =>
    let cp := rd16 m long_name
    let uc := unicache (cp % 256)
    if uc.1 = cp then
      let out1 := out ++ [uc.2]
      if cp ≠ 0 then ntfs_cvt_longname uni m fuel (long_name + 2) unicache out1
      else some { ret := (out1.length : Int) - 1, written := out1, unicache := unicache }
    else
      match cvt_search uni cp 512 0 with
      | none => some { ret := -1, written := out, unicache := unicache }
      | some c =>
        let unicache1 := fun i => if i = cp % 256 then (cp, c % 256) else unicache i
        let out1 := out ++ [c % 256]
        if cp ≠ 0 then ntfs_cvt_longname uni m fuel (long_name + 2) unicache1 out1
        else some { ret := (out1.length : Int) - 1, written := out1, unicache := unicache1 }

/-- The fields of `struct dirent` that `ntfs_readdir` fills; `d_name` holds the
`len + 1` bytes copied into it. -/
structure dirent where
  d_ino : Nat
  d_off : Nat
  d_reclen : Nat
  d_type : dirent_type
  d_name : List Nat
deriving DecidableEq, Repr

/-- What `ntfs_readdir` leaves: the returned `int`, the dirent when it has been
filled, and the static `unicache`. -/
structure ReaddirResult where
  ret : Int
  dirent : Option dirent
  unicache : Nat → Nat × Nat

/-- The function `ntfs_readdir(file, dirent)` from the point where
`mft_record_lookup(NTFS_PVT(inode)->mft_no, ...)` has delivered the record `mrec`
(`none` when it fails).  `mft_no` is the field of the inode of the open file,
`file_offset` is `file->offset`, and `d_name_offset` is
`offsetof(struct dirent, d_name)`.  `none` when a loop uses up the fuel. -/
def ntfs_readdir (fuel : Nat) (uni : Nat → Nat → Nat) (m : Mem)
    (unicache : Nat → Nat × Nat) (mft_no file_offset d_name_offset : Nat)
    (mrec : Option Nat) : Option ReaddirResult :=
  match mrec with
  | none => some { ret := -1, dirent := none, unicache := unicache }
  | some mrec =>
    match attr_lookup fuel m NTFS_AT_FILENAME (some mrec) with
    | none => none
    | some none => some { ret := -1, dirent := none, unicache := unicache }
    | some (some attr) =>
      let fn := attr + ATTR_RECORD_value_offset m attr
      match ntfs_cvt_longname uni m fuel (FILE_NAME_ATTR_file_name fn) unicache [] with
      | none => none
      | some r =>
        if r.ret < 0 ∨ r.ret ≠ (FILE_NAME_ATTR_file_name_len m fn : Int) then
          some { ret := -1, dirent := none, unicache := r.unicache }
        else
          match get_inode_mode fuel m mrec with
          | none => none
          | some d_type =>
            some { ret := 0,
                   dirent := some { d_ino := mft_no, d_off := file_offset,
                                    d_reclen := d_name_offset + r.ret.toNat + 1,
                                    d_type := d_type,
                                    d_name := r.written.take (r.ret.toNat + 1) },
                   unicache := r.unicache }

/-- Modelled from the spec: `ntfs.h` is not part of the sources; `NTFS_AT_INDEX_ROOT`
is the type code of the `$INDEX_ROOT` attribute. -/
def NTFS_AT_INDEX_ROOT : Nat := 0x90

/-- Read of a little-endian `uint64_t`. -/
def rd64 (m : Mem) (a : Nat) : Nat := rd32 m a + 4294967296 * rd32 m (a + 4)

/-- Modelled from the spec: `ntfs.h` is not part of the sources; address of the field
`index` (an `INDEX_HEADER`) of the packed `INDEX_ROOT`, at byte `0x10`. -/
def INDEX_ROOT_index (ir : Nat) : Nat := ir + 0x10

/-- Modelled from the spec: `ntfs.h` is not part of the sources; field
`entries_offset` (`uint32_t`) of the packed `INDEX_HEADER`, at byte 0. -/
def INDEX_HEADER_entries_offset (m : Mem) (ih : Nat) : Nat := rd32 m ih

/-- Modelled from the spec: `ntfs.h` is not part of the sources; field `index_len`
(`uint32_t`) of the packed `INDEX_HEADER`, at byte 4. -/
def INDEX_HEADER_index_len (m : Mem) (ih : Nat) : Nat := rd32 m (ih + 4)

/-- Modelled from the spec: `ntfs.h` is not part of the sources; field
`data.dir.indexed_file` (`uint64_t`) of the packed `INDEX_ENTRY`, at byte 0. -/
def INDEX_ENTRY_indexed_file (m : Mem) (ie : Nat) : Nat := rd64 m ie

/-- Modelled from the spec: `ntfs.h` is not part of the sources; field `len`
(`uint16_t`) of the packed `INDEX_ENTRY`, at byte 8. -/
def INDEX_ENTRY_len (m : Mem) (ie : Nat) : Nat := rd16 m (ie + 8)

/-- Modelled from the spec: `ntfs.h` is not part of the sources; field `flags`
(`uint16_t`) of the packed `INDEX_ENTRY`, at byte `0xC`. -/
def INDEX_ENTRY_flags (m : Mem) (ie : Nat) : Nat := rd16 m (ie + 0xC)

/-- Modelled from the spec: `ntfs.h` is not part of the sources; address of the key
(a `FILE_NAME_ATTR`) of the packed `INDEX_ENTRY`, at byte `0x10`. -/
def INDEX_ENTRY_key (ie : Nat) : Nat := ie + 0x10

/-- The two bytes of a little-endian `uint16_t`. -/
def le16 (v : Nat) : List Nat := [v % 256, v / 256 % 256]

/-- The body of a `FILE_NAME_ATTR` with the given `file_attrs` and name. -/
def fileNameBody (file_attrs : Nat) (units : List Nat) : List Nat :=
  List.replicate 0x38 0 ++ le32 file_attrs ++ List.replicate 4 0 ++
  [units.length, 0x01] ++ units.flatMap (fun u => [u % 256, u / 256])

/-- A resident `$INDEX_ROOT` attribute record (`value_offset = 0x18`) whose entry list
holds one entry, for the file with MFT number `mft_no` and the given name,
followed by the entry with the `END` flag. -/
def indexRootAttr (mft_no : Nat) (units : List Nat) : List Nat :=
  [0x90, 0, 0, 0] ++ le32 (0x18 + 0x20 + (0x10 + 0x42 + 2 * units.length) + 0x10) ++
  List.replicate 8 0 ++ le32 (0x20 + (0x10 + 0x42 + 2 * units.length) + 0x10) ++
  [0x18, 0, 0, 0] ++
  (le32 0x30 ++ le32 1 ++ le32 4096 ++ [1, 0, 0, 0]) ++
  (le32 0x10 ++ le32 (0x10 + (0x10 + 0x42 + 2 * units.length) + 0x10) ++
    le32 (0x10 + (0x10 + 0x42 + 2 * units.length) + 0x10) ++ [0, 0, 0, 0]) ++
  (le32 mft_no ++ le32 0 ++ le16 (0x10 + 0x42 + 2 * units.length) ++
    le16 (0x42 + 2 * units.length) ++ le16 0 ++ le16 0 ++ fileNameBody 0x20 units) ++
  (le32 0 ++ le32 0 ++ le16 0x10 ++ le16 0 ++ le16 2 ++ le16 0)

/-- The MFT record of a directory with number 5 and the name `.`, whose index root
holds one entry: the file with MFT number 40 and the name `a`. -/
def dirRecord : List Nat :=
  recordHeader 5 ++ fileNameAttr 0x10000000 [0x2E] ++ indexRootAttr 40 [0x61] ++
  [0xFF, 0xFF, 0xFF, 0xFF]

/-- The `unicache` of `ntfs_cvt_longname` before its first use: all zero. -/
def unicache0 : Nat → Nat × Nat := fun _ => (0, 0)

/-! ## `ntfs_next_extent` -/

/-- Modelled from the spec: `ntfs.h` is not part of the sources; the fields of
`struct ntfs_sb_info`, the superblock that `ntfs_fs_init` publishes. -/
structure ntfs_sb_info where
  mft_block : Nat
  mft_size : Nat
  mft_record_size : Nat
  clusters : Nat
  clust_shift : Nat
  clust_byte_shift : Nat
  clust_mask : Nat
  clust_size : Nat
deriving DecidableEq, Repr

/-- The fields of `struct inode` and of its NTFS private part that
`ntfs_next_extent` reads or writes: `size` (`uint32_t`), `non_resident`, `here`,
`data.non_resident.lcn` (as its 64-bit pattern) and the two fields of
`next_extent`. -/
structure inode where
  size : Nat
  non_resident : Nat
  here : Nat
  lcn : Nat
  next_extent_pstart : Nat
  next_extent_len : Nat
deriving DecidableEq, Repr

/-- The function `ntfs_next_extent(inode, lstart)`: the returned `int` and the inode
it leaves.  `lstart`, `mcluster`, `tcluster`, `cluster_bytes`, `sec_size` and
`sec_shift` are `uint32_t`; `pstart` is a 64-bit `sector_t`. -/
def ntfs_next_extent (fs : FsInfo) (sbi : ntfs_sb_info) (ino : inode) (lstart : Nat) :
    Int × inode :=
  let mcluster := lstart >>> sbi.clust_shift
  let cluster_bytes := (1 <<< sbi.clust_byte_shift) % 2 ^ 32
  let sec_size := fs.sector_size % 2 ^ 32
  let sec_shift := fs.sector_shift % 2 ^ 32
  let tcluster := ((ino.size + cluster_bytes + (2 ^ 32 - 1)) % 2 ^ 32) >>> sbi.clust_byte_shift
  if mcluster ≥ tcluster then (-1, ino)
  else
    let pstart :=
      if ino.non_resident = 0 then
        (((sbi.mft_block + ino.here) % 2 ^ 64) <<< (fs.block_shift >>> sec_shift)) % 2 ^ 64
      else
        (ino.lcn <<< sbi.clust_shift) % 2 ^ 64
    (0, { ino with
            next_extent_len := ((ino.size + sec_size + (2 ^ 32 - 1)) % 2 ^ 32) >>> sec_shift,
            next_extent_pstart := pstart })

/-- The superblock of a volume with 8 sectors of 512 bytes per cluster and 1 KiB MFT
records, whose MFT starts at block 4 (with blocks of 4096 bytes). -/
def sbi4096 : ntfs_sb_info :=
  { mft_block := 4, mft_size := 1280, mft_record_size := 1024, clusters := 1000,
    clust_shift := 3, clust_byte_shift := 12, clust_mask := 7, clust_size := 4096 }

/-- An inode with 17 bytes of resident `$DATA`, found in the first block of the MFT. -/
def inode17 : inode :=
  { size := 17, non_resident := 0, here := 0, lcn := 0, next_extent_pstart := 0,
    next_extent_len := 0 }

/-! ## The volume binder `ntfs_fs_init` -/

/-- Modelled from the spec: `ntfs.h` is not part of the sources; the fields of the
boot sector `struct ntfs_bpb` that the sanity check and `ntfs_fs_init` read.
`oem_name` is the 8-byte OEM identifier, `zero_0` an array of three bytes,
`sec_per_clust` a `uint8_t`, `clust_per_mft_record` a signed byte, `mft_lclust`
and `total_sectors` are `uint64_t`. -/
structure ntfs_bpb where
  oem_name : List Nat
  sec_per_clust : Nat
  res_sectors : Nat
  zero_0 : List Nat
  zero_1 : Nat
  zero_2 : Nat
  zero_3 : Nat
  total_sectors : Nat
  mft_lclust : Nat
  clust_per_mft_record : Int
deriving DecidableEq, Repr

/-- The function `ntfs_check_zero_fields(sb)`. -/
def ntfs_check_zero_fields (sb : ntfs_bpb) : Bool :=
  decide (sb.res_sectors = 0 ∧
    (sb.zero_0.getD 0 0 = 0 ∧ sb.zero_0.getD 1 0 = 0 ∧ sb.zero_0.getD 2 0 = 0) ∧
    sb.zero_1 = 0 ∧ sb.zero_2 = 0 ∧ sb.zero_3 = 0)

/-- The eight bytes of the string `"NTFS    "`. -/
def oem_NTFS : List Nat := [0x4E, 0x54, 0x46, 0x53, 0x20, 0x20, 0x20, 0x20]

/-- The eight bytes of the string `"MSWIN4.0"`. -/
def oem_MSWIN40 : List Nat := [0x4D, 0x53, 0x57, 0x49, 0x4E, 0x34, 0x2E, 0x30]

/-- The eight bytes of the string `"MSWIN4.1"`. -/
def oem_MSWIN41 : List Nat := [0x4D, 0x53, 0x57, 0x49, 0x4E, 0x34, 0x2E, 0x31]

/-- The function `ntfs_check_sb_fields(sb)`; `!memcmp(sb->oem_name, s, 8)` compares
the eight bytes of the identifier with those of `s`. -/
def ntfs_check_sb_fields (sb : ntfs_bpb) : Bool :=
  ntfs_check_zero_fields sb &&
    (decide (sb.oem_name.take 8 = oem_NTFS) ||
     decide (sb.oem_name.take 8 = oem_MSWIN40) ||
     decide (sb.oem_name.take 8 = oem_MSWIN41))

/-- The halving loop behind `ilog2_model`, with at most `fuel` halvings. -/
def ilog2_aux : Nat → Nat → Nat
  | 0, _ => 0
  | fuel + 1, n => if 2 ≤ n then ilog2_aux fuel (n / 2) + 1 else 0

/-- Modelled from the spec: `ilog2.h` is not part of the sources; `ilog2(v)` is the
position of the highest set bit of the `uint32_t` `v`, and 0 for `v = 0`. -/
def ilog2_model (v : Nat) : Nat := ilog2_aux 32 (v % 2 ^ 32)

/-- What `ntfs_fs_init` leaves: the returned `int`, the geometry fields of `fs`, the
superblock published in `fs->fs_info` (if any) and the block shift handed to
`cache_init` (if it was called). -/
structure FsInitResult where
  ret : Int
  fs : FsInfo
  sbi : Option ntfs_sb_info
  cache_shift : Option Nat

/-- The function `ntfs_fs_init(fs)`, given the boot sector `ntfs` that
`disk->rdwr_sectors` reads and the sector shift of the disk.  An `int` expression
`1 << n` is kept as its 32-bit pattern `2 ^ n mod 2 ^ 32` (for `n ≥ 31` C leaves
the value undefined); `mft_block` and `clusters` are 64-bit. -/
def ntfs_fs_init (fs : FsInfo) (disk_sector_shift : Nat) (ntfs : ntfs_bpb) :
    FsInitResult :=
  if ntfs_check_sb_fields ntfs = false then
    { ret := -1, fs := fs, sbi := none, cache_shift := none }
  else
    let clust_per_mft_record : Nat :=
      (if ntfs.clust_per_mft_record < 0 then -ntfs.clust_per_mft_record
        else ntfs.clust_per_mft_record).toNat % 256
    let sector_shift := disk_sector_shift
    let block_shift0 := ilog2_model ntfs.sec_per_clust + sector_shift
    let block_shift := if block_shift0 < clust_per_mft_record then clust_per_mft_record
      else block_shift0
    let clust_shift := ilog2_model ntfs.sec_per_clust
    let clusters0 := ((ntfs.total_sectors <<< sector_shift) % 2 ^ 64) >>> clust_shift
    { ret := (block_shift : Int),
      fs := { sector_shift := sector_shift,
              sector_size := (1 <<< sector_shift) % 2 ^ 32,
              block_shift := block_shift,
              block_size := (1 <<< block_shift) % 2 ^ 32 },
      sbi := some
        { clust_shift := clust_shift,
          clust_byte_shift := clust_shift + sector_shift,
          clust_mask := (ntfs.sec_per_clust + (2 ^ 32 - 1)) % 2 ^ 32,
          clust_size := (ntfs.sec_per_clust <<< sector_shift) % 2 ^ 32,
          mft_record_size := (1 <<< clust_per_mft_record) % 2 ^ 32,
          mft_block := ((((ntfs.mft_lclust <<< clust_shift) % 2 ^ 64) <<< sector_shift)
            % 2 ^ 64) >>> block_shift,
          mft_size := (((clust_per_mft_record <<< clust_shift) % 2 ^ 32) <<< 4) % 2 ^ 32,
          clusters := if clusters0 > 0xFFFFFFFFFFF4 then 0xFFFFFFFFFFF4 else clusters0 },
      cache_shift := some block_shift }

/-- A boot sector with the OEM identifier `"NTFS    "`, all the zero fields zero, and
the given `sec_per_clust` and `clust_per_mft_record`; the MFT starts at cluster 4. -/
def bootSector (sec_per_clust : Nat) (clust_per_mft_record : Int) : ntfs_bpb :=
  { oem_name := oem_NTFS, sec_per_clust := sec_per_clust, res_sectors := 0,
    zero_0 := [0, 0, 0], zero_1 := 0, zero_2 := 0, zero_3 := 0,
    total_sectors := 8000, mft_lclust := 4,
    clust_per_mft_record := clust_per_mft_record }

/-- The geometry fields of a `struct fs_info` before `ntfs_fs_init` has run. -/
def fs0 : FsInfo := { sector_shift := 0, sector_size := 0, block_shift := 0, block_size := 0 }

/-! ## The index descent of `index_lookup` -/

/-- The C expression `x >> n` on an `int64_t` kept as its 64-bit pattern: an
arithmetic shift, which for a negative `x` is the complement of the shifted
complement. -/
def sar64 (x n : Nat) : Nat :=
  if x < 2 ^ 63 then x >>> n else (2 ^ 64 - 1) - (((2 ^ 64 - 1) - x) >>> n)

/-- The block number that the descent of `index_lookup` computes for one VCN,
`((chunk.cur_lcn + vcn) << NTFS_SB(fs)->clust_shift) << SECTOR_SHIFT(fs) >>
BLOCK_SHIFT(fs)`, on 64-bit signed operands. -/
def index_block (fs : FsInfo) (sbi : ntfs_sb_info) (cur_lcn vcn : Nat) : Nat :=
  sar64 ((((((cur_lcn + vcn) % 2 ^ 64) <<< sbi.clust_shift) % 2 ^ 64)
    <<< fs.sector_shift) % 2 ^ 64) fs.block_shift

/-- The `while (vcn_count++ < chunk.vcn_len)` loop of the descent, with `n` rounds
left: the block numbers handed to `get_cache`, one per round, when every fetch
and fixup succeeds, every block is a valid `INDX` record and no entry matches
(so that the loop runs to its end).  The loop ends each round with `++vcn`. -/
def descent_loop (fs : FsInfo) (sbi : ntfs_sb_info) (cur_lcn : Nat) : Nat → Nat → List Nat
  | 0, _ => []
  | n + 1, vcn =>
    index_block fs sbi cur_lcn vcn :: descent_loop fs sbi cur_lcn n ((vcn + 1) % 2 ^ 64)

/-- The body of `if (chunk.flags & MAP_ALLOCATED)` in the descent of `index_lookup`
for the chunk that `parse_data_run` has just left: the statement
`chunk.cur_lcn = 0x24de8;`, then `vcn_count = 0; vcn = chunk.cur_vcn;` and the
loop over `chunk.vcn_len` rounds. -/
def descend_chunk (fs : FsInfo) (sbi : ntfs_sb_info) (chunk : mapping_chunk) : List Nat :=
  let chunk1 := { chunk with cur_lcn := 0x24de8 }
  descent_loop fs sbi chunk1.cur_lcn chunk1.vcn_len chunk1.cur_vcn

/-- A runlist with one run of `0x18` clusters at LCN `0x1000`. -/
def runlistLcn1000 : List Nat := [0x21, 0x18, 0x00, 0x10, 0x00]

/-- A runlist with one run of 1 cluster at LCN `0x5634`, the length written in two
bytes. -/
def runlistWide : List Nat := [0x22, 0x01, 0x00, 0x34, 0x56, 0x00]

/-- The run of `runlistE2` followed by a run with LCN width 0 whose one length byte
is `0x85`. -/
def runlistHole85 : List Nat := [0x21, 0x18, 0x34, 0x56, 0x01, 0x85, 0x00]

/-! ## Records with a zero or overlong advance -/

/-- Modelled from the spec: `ntfs.h` is not part of the sources; field
`bytes_allocated` (`uint32_t`) of the packed `MFT_RECORD`, at byte `0x1C`. -/
def MFT_RECORD_bytes_allocated (m : Mem) (mrec : Nat) : Nat := rd32 m (mrec + 0x1C)

/-- Modelled from the spec: `ntfs.h` is not part of the sources; field
`mft_record_no` (`uint32_t`) of the packed `MFT_RECORD`, at byte `0x2C`. -/
def MFT_RECORD_mft_record_no (m : Mem) (mrec : Nat) : Nat := rd32 m (mrec + 0x2C)

/-- The 56 bytes of an MFT record header like `recordHeader`, with the given
`bytes_allocated` at byte `0x1C`. -/
def recordHeaderAlloc (mft_no bytes_allocated : Nat) : List Nat :=
  [0x46, 0x49, 0x4C, 0x45, 0x30, 0x00, 0x03, 0x00] ++ List.replicate 12 0 ++
  [0x38, 0x00] ++ List.replicate 6 0 ++ le32 bytes_allocated ++ List.replicate 12 0 ++
  le32 mft_no ++ [0x01, 0x00] ++ List.replicate 6 0

/-- An MFT record of 1024 allocated bytes whose first attribute has type `0x10` and
`len = 0`; a `$FILE_NAME` attribute follows it. -/
def zeroLenAttrRecord : List Nat :=
  recordHeaderAlloc 5 0x400 ++ ([0x10, 0, 0, 0, 0, 0, 0, 0] ++ List.replicate 16 0) ++
  fileNameAttr 0x20 [0x61] ++ [0xFF, 0xFF, 0xFF, 0xFF]

/-- An MFT record of 1024 allocated bytes whose first attribute has type `0x10` and
`len = 0x1000`, in memory that holds a record of type `0x30` at the place this
length leads to, `0x1038` bytes after the start of the MFT record. -/
def overlongAttrRecord : List Nat :=
  recordHeaderAlloc 5 0x400 ++ ([0x10, 0, 0, 0, 0x00, 0x10, 0, 0] ++ List.replicate 16 0) ++
  List.replicate (0x1000 - 24) 0 ++ fileNameAttr 0x20 [0x61]

/-! ## The entry walk of `index_lookup` -/

/-- Modelled from the spec: `ntfs.h` is not part of the sources; the index entry flag
`NODE`: the entry points to a child node. -/
def INDEX_ENTRY_NODE : Nat := 1

/-- Modelled from the spec: `ntfs.h` is not part of the sources; the index entry flag
`END`: the entry is the last of its list. -/
def INDEX_ENTRY_END : Nat := 2

/-- Modelled from the spec: `ntfs.h` is not part of the sources;
`sizeof(INDEX_ENTRY_HEADER)`, the 16 bytes of an index entry before its key. -/
def sizeof_INDEX_ENTRY_HEADER : Nat := 16

/-- How a walk over an entry list of `index_lookup` ends: at an entry that matches
(`goto found`), at the entry with the `END` flag (`break`), or at a failed bounds
check (`goto index_err`). -/
inductive WalkResult where
  | found (ie : Nat)
  | last (ie : Nat)
  | index_err
deriving DecidableEq, Repr

/-- The loop `for (;; ie = (INDEX_ENTRY *)((uint8_t *)ie + ie->len))` that
`index_lookup` runs over the entry list of the index root and of each index
block.  `lower` is the address the entry must not lie below (`mrec` or `iblock`),
`index` the address of the `INDEX_HEADER`, and `matcher` the name matcher applied
to the indexed file of an entry (an `unsigned long`).  `none` when the fuel is
used up. -/
def index_walk (m : Mem) (matcher : Nat → Bool) (lower index : Nat) :
    Nat → Nat → Option WalkResult
  | 0, _ => none
  | fuel + 1, ie =>
    if ie < lower ∨
        ie + sizeof_INDEX_ENTRY_HEADER > index + INDEX_HEADER_index_len m index ∨
        ie + INDEX_ENTRY_len m ie > index + INDEX_HEADER_index_len m index then
      some WalkResult.index_err
    else if INDEX_ENTRY_flags m ie &&& INDEX_ENTRY_END ≠ 0 then some (WalkResult.last ie)
    else if matcher (INDEX_ENTRY_indexed_file m ie % 2 ^ 32) = true then
      some (WalkResult.found ie)
    else index_walk m matcher lower index fuel (ie + INDEX_ENTRY_len m ie)

/-- A resident `$INDEX_ROOT` attribute record like `indexRootAttr`, in which the field
`len` of the first entry holds `entry_len`. -/
def indexRootAttrLen (mft_no : Nat) (units : List Nat) (entry_len : Nat) : List Nat :=
  [0x90, 0, 0, 0] ++ le32 (0x18 + 0x20 + (0x10 + 0x42 + 2 * units.length) + 0x10) ++
  List.replicate 8 0 ++ le32 (0x20 + (0x10 + 0x42 + 2 * units.length) + 0x10) ++
  [0x18, 0, 0, 0] ++
  (le32 0x30 ++ le32 1 ++ le32 4096 ++ [1, 0, 0, 0]) ++
  (le32 0x10 ++ le32 (0x10 + (0x10 + 0x42 + 2 * units.length) + 0x10) ++
    le32 (0x10 + (0x10 + 0x42 + 2 * units.length) + 0x10) ++ [0, 0, 0, 0]) ++
  (le32 mft_no ++ le32 0 ++ le16 entry_len ++
    le16 (0x42 + 2 * units.length) ++ le16 0 ++ le16 0 ++ fileNameBody 0x20 units) ++
  (le32 0 ++ le32 0 ++ le16 0x10 ++ le16 0 ++ le16 2 ++ le16 0)

/-- The MFT record of a directory like `dirRecord`, in which the first entry of the
index root has `len = 0`. -/
def zeroLenDirRecord : List Nat :=
  recordHeader 5 ++ fileNameAttr 0x10000000 [0x2E] ++ indexRootAttrLen 40 [0x61] 0 ++
  [0xFF, 0xFF, 0xFF, 0xFF]

/-! ## `mft_record_lookup` -/

/-- The variables of `mft_record_lookup` that change in its loop: the memory (the
staging buffer `data` lives in it), `offset` and `*block`. -/
structure MftState where
  mem : Mem
  offset : Nat
  block : Nat

/-- The statements at the label `jump_in` of `mft_record_lookup`:
`ret = get_right_block(fs, *block); if (!ret) break; memcpy(data, ret, blk_size);`.
`get_cache` gives the address of the cached block, `none` for a null pointer;
the result is `none` when the block cannot be fetched. -/
def mft_fetch (fs : FsInfo) (sbi : ntfs_sb_info) (get_cache : Nat → Option Nat)
    (data : Nat) (st : MftState) : Option MftState :=
  match get_cache ((sbi.mft_block + st.block) % 2 ^ 64) with
  | none => none
  | some ret =>
    some { st with mem := memmove st.mem data ret ((1 <<< fs.block_shift) % 2 ^ 64) }

/-- The `for (;;)` loop of `mft_record_lookup`, entered at its top: the returned
`int64_t` and the final state; `none` when the fuel is used up.  `fixfuel` is the
fuel of each call of `fixups_copyback`. -/
def mft_loop (fixfuel : Nat) (fs : FsInfo) (sbi : ntfs_sb_info)
    (get_cache : Nat → Option Nat) (data file : Nat) :
    Nat → MftState → Option (Int × MftState)
  | 0, _ => none
  | fuel + 1, st =>
    match fixups_copyback fixfuel fs st.mem (data + st.offset) data sbi.mft_record_size with
    | none => none
    | some (err, m1) =>
      if err ≠ 0 then some (-1, { st with mem := m1 })
      else if MFT_RECORD_mft_record_no m1 (data + st.offset) = file then
        some ((st.offset : Int), { st with mem := m1 })
      else
        let offset1 := st.offset + MFT_RECORD_bytes_allocated m1 (data + st.offset)
        if offset1 ≥ fs.block_size then
          match mft_fetch fs sbi get_cache data
              { mem := m1, offset := offset1 - fs.block_size,
                block := (st.block + 1) % 2 ^ 64 } with
          | none =>
            some (-1, { mem := m1, offset := offset1 - fs.block_size,
                        block := (st.block + 1) % 2 ^ 64 })
          | some st2 => mft_loop fixfuel fs sbi get_cache data file fuel st2
        else
          mft_loop fixfuel fs sbi get_cache data file fuel
            { mem := m1, offset := offset1, block := st.block }

/-- The function `mft_record_lookup(file, fs, block, data)`: it starts with
`offset = 0` at the label `jump_in`. -/
def mft_record_lookup (fuel fixfuel : Nat) (fs : FsInfo) (sbi : ntfs_sb_info)
    (get_cache : Nat → Option Nat) (m : Mem) (data file block : Nat) :
    Option (Int × MftState) :=
  match mft_fetch fs sbi get_cache data { mem := m, offset := 0, block := block } with
  | none => some (-1, { mem := m, offset := 0, block := block })
  | some st => mft_loop fixfuel fs sbi get_cache data file fuel st

/-- A file system with 512-byte sectors and 1024-byte blocks. -/
def fs1024 : FsInfo :=
  { sector_shift := 9, sector_size := 512, block_shift := 10, block_size := 1024 }

/-- The superblock of a volume with 512-byte clusters and 1 KiB MFT records whose MFT
starts at block 4 (with blocks of 1024 bytes). -/
def sbi1024 : ntfs_sb_info :=
  { mft_block := 4, mft_size := 16, mft_record_size := 1024, clusters := 1000,
    clust_shift := 0, clust_byte_shift := 9, clust_mask := 0, clust_size := 512 }

/-- A cache that holds the blocks 4 and 5 of the device at the addresses 16384 and
17408. -/
def twoBlockCache (b : Nat) : Option Nat :=
  if b = 4 then some 16384 else if b = 5 then some 17408 else none

/-- Memory whose cached block 4 (at 16384) is an MFT record with number 5 and the
given `bytes_allocated`, whose cached block 5 (at 17408) is an MFT record with
number 6, and which holds an MFT record header with number 7 at address 10240. -/
def lookupMem (bytes_allocated : Nat) : Mem :=
  fun a =>
    if 17408 ≤ a then (recordHeaderAlloc 6 0x400).getD (a - 17408) 0
    else if 16384 ≤ a then (recordHeaderAlloc 5 bytes_allocated).getD (a - 16384) 0
    else if 10240 ≤ a then (recordHeaderAlloc 7 0x400).getD (a - 10240) 0
    else 0

/-! ## `index_inode_setup` -/

/-- Modelled from the spec: `ntfs.h` is not part of the sources; field `seq_no`
(`uint16_t`) of the packed `MFT_RECORD`, at byte `0x10`. -/
def MFT_RECORD_seq_no (m : Mem) (mrec : Nat) : Nat := rd16 m (mrec + 0x10)

/-- Modelled from the spec: `ntfs.h` is not part of the sources; field `non_resident`
(`uint8_t`) of the packed `ATTR_RECORD`, at byte 8. -/
def ATTR_RECORD_non_resident (m : Mem) (attr : Nat) : Nat := rd8 m (attr + 8)

/-- Modelled from the spec: `ntfs.h` is not part of the sources; field
`data.resident.value_len` (`uint32_t`) of the packed `ATTR_RECORD`, at byte
`0x10`. -/
def ATTR_RECORD_value_len (m : Mem) (attr : Nat) : Nat := rd32 m (attr + 0x10)

/-- Modelled from the spec: `ntfs.h` is not part of the sources; field
`data.non_resident.lowest_vcn` (`uint64_t`) of the packed `ATTR_RECORD`, at byte
`0x10`. -/
def ATTR_RECORD_lowest_vcn (m : Mem) (attr : Nat) : Nat := rd64 m (attr + 0x10)

/-- Modelled from the spec: `ntfs.h` is not part of the sources; field
`data.non_resident.mapping_pairs_offset` (`uint16_t`) of the packed
`ATTR_RECORD`, at byte `0x20`. -/
def ATTR_RECORD_mapping_pairs_offset (m : Mem) (attr : Nat) : Nat := rd16 m (attr + 0x20)

/-- Modelled from the spec: `ntfs.h` is not part of the sources; field
`data.non_resident.initialized_size` (`int64_t`, as its 64-bit pattern) of the
packed `ATTR_RECORD`, at byte `0x38`. -/
def ATTR_RECORD_initialized_size (m : Mem) (attr : Nat) : Nat := rd64 m (attr + 0x38)

/-- Modelled from the spec: `ntfs.h` is not part of the sources; field
`collation_rule` (`uint32_t`) of the packed `INDEX_ROOT`, at byte 4. -/
def INDEX_ROOT_collation_rule (m : Mem) (ir : Nat) : Nat := rd32 m (ir + 4)

/-- Modelled from the spec: `ntfs.h` is not part of the sources; field
`index_block_size` (`uint32_t`) of the packed `INDEX_ROOT`, at byte 8. -/
def INDEX_ROOT_index_block_size (m : Mem) (ir : Nat) : Nat := rd32 m (ir + 8)

/-- Modelled from the spec: `ntfs.h` is not part of the sources; the fields of
`struct inode` and of its NTFS private part (`NTFS_PVT(inode)`) that
`index_inode_setup` writes: `mft_no`, `seq_no`, `start_cluster`, `here`, the
fields of `itype.index`, `non_resident`, `type`, `data.resident.offset`, the
fields of `data.non_resident`, and `size` and `mode` of the inode itself.  Each
field holds the value assigned to it. -/
structure ntfs_inode where
  mft_no : Nat
  seq_no : Nat
  start_cluster : Nat
  here : Nat
  collation_rule : Nat
  block_size : Nat
  block_size_shift : Nat
  vcn_size : Nat
  vcn_size_shift : Nat
  non_resident : Nat
  type : Nat
  resident_offset : Nat
  start_vcn : Nat
  next_vcn : Nat
  vcn_no : Nat
  lcn : Nat
  size : Nat
  mode : dirent_type
deriving DecidableEq, Repr

/-- The `for (;;)` loop of the non-resident branch of `index_inode_setup`: it calls
`parse_data_run` until a call fails (`-1`, for `goto out`) or leaves a chunk with
`MAP_ALLOCATED` or `MAP_END` and without `MAP_UNALLOCATED` (`0`); `none` when the
fuel is used up. -/
def first_run_loop (m : Mem) (stream attr_len : Nat) :
    Nat → Nat → mapping_chunk → Option (Int × mapping_chunk)
  | 0, _, _ => none
  | fuel + 1, droffset, chunk =>
    let r := parse_data_run m stream droffset attr_len chunk
    if r.ret ≠ 0 then some (-1, r.chunk)
    else if r.chunk.flags &&& MAP_UNALLOCATED ≠ 0 then
      first_run_loop m stream attr_len fuel r.offset r.chunk
    else if r.chunk.flags &&& (MAP_ALLOCATED ||| MAP_END) ≠ 0 then some (0, r.chunk)
    else first_run_loop m stream attr_len fuel r.offset r.chunk

/-- The function `index_inode_setup(fs, mft_no, inode)`: the returned `int` and the
inode it leaves; `none` when a loop uses up its fuel.  `data` is the address of
the local staging buffer, `m` the memory at the call. -/
def index_inode_setup (fuel fixfuel : Nat) (fs : FsInfo) (sbi : ntfs_sb_info)
    (get_cache : Nat → Option Nat) (m : Mem) (data mft_no : Nat) (ino : ntfs_inode) :
    Option (Int × ntfs_inode) :=
  match mft_record_lookup fuel fixfuel fs sbi get_cache m data (mft_no % 2 ^ 32) 0 with
  | none => none
  | some (offset, st) =>
    if offset < 0 then some (-1, ino)
    else
      let mrec := data + offset.toNat
      let ino1 := { ino with mft_no := mft_no, seq_no := MFT_RECORD_seq_no st.mem mrec,
                             start_cluster := st.block >>> sbi.clust_shift,
                             here := st.block }
      match get_inode_mode fuel st.mem mrec with
      | none => none
      | some d_type =>
        if d_type = dirent_type.DT_UNKNOWN then some (-1, ino1)
        else if d_type = dirent_type.DT_DIR then
          match attr_lookup fuel st.mem NTFS_AT_INDEX_ROOT (some mrec) with
          | none => none
          | some none => some (-1, ino1)
          | some (some attr) =>
            let ir := attr + ATTR_RECORD_value_offset st.mem attr
            let len := ATTR_RECORD_value_len st.mem attr
            if ir + len > mrec + sbi.mft_record_size then some (-1, ino1)
            else
              let ino2 := { ino1 with
                collation_rule := INDEX_ROOT_collation_rule st.mem ir,
                block_size := INDEX_ROOT_index_block_size st.mem ir,
                block_size_shift := ilog2_model (INDEX_ROOT_index_block_size st.mem ir) }
              let clust_size := ino2.block_size
              let ino3 :=
                if sbi.clust_size ≤ clust_size then
                  { ino2 with vcn_size := sbi.clust_size, vcn_size_shift := sbi.clust_shift }
                else
                  { ino2 with vcn_size := fs.block_size, vcn_size_shift := fs.block_shift }
              some (0, { ino3 with mode := d_type })
        else if d_type = dirent_type.DT_REG then
          match attr_lookup fuel st.mem NTFS_AT_DATA (some mrec) with
          | none => none
          | some none => some (-1, ino1)
          | some (some attr) =>
            let ino2 := { ino1 with non_resident := ATTR_RECORD_non_resident st.mem attr,
                                    type := ATTR_RECORD_type st.mem attr }
            if ATTR_RECORD_non_resident st.mem attr = 0 then
              some (0, { ino2 with
                resident_offset := (attr + ATTR_RECORD_value_offset st.mem attr) % 2 ^ 32,
                size := ATTR_RECORD_value_len st.mem attr,
                mode := d_type })
            else
              let attr_len := attr + ATTR_RECORD_len st.mem attr
              let stream := attr + ATTR_RECORD_mapping_pairs_offset st.mem attr
              match first_run_loop st.mem stream attr_len fuel 0
                  (seed_chunk (ATTR_RECORD_lowest_vcn st.mem attr)) with
              | none => none
              | some (err, chunk) =>
                if err ≠ 0 then some (-1, ino2)
                else if chunk.flags &&& MAP_END ≠ 0 then some (-1, ino2)
                else
                  some (0, { ino2 with
                    start_vcn := chunk.cur_vcn, next_vcn := chunk.next_vcn,
                    vcn_no := chunk.vcn_len, lcn := chunk.cur_lcn,
                    size := ATTR_RECORD_initialized_size st.mem attr % 2 ^ 32,
                    mode := d_type })
        else some (0, { ino1 with mode := d_type })

/-- An inode before `index_inode_setup`: all fields zero. -/
def inode0 : ntfs_inode :=
  { mft_no := 0, seq_no := 0, start_cluster := 0, here := 0, collation_rule := 0,
    block_size := 0, block_size_shift := 0, vcn_size := 0, vcn_size_shift := 0,
    non_resident := 0, type := 0, resident_offset := 0, start_vcn := 0, next_vcn := 0,
    vcn_no := 0, lcn := 0, size := 0, mode := dirent_type.DT_UNKNOWN }

/-- A file system with 512-byte sectors and 8192-byte blocks. -/
def fs8192 : FsInfo :=
  { sector_shift := 9, sector_size := 512, block_shift := 13, block_size := 8192 }

/-- The superblock of a volume with 8192-byte clusters (16 sectors) and 1 KiB MFT
records whose MFT starts at block 4 (with blocks of 8192 bytes). -/
def sbi8192 : ntfs_sb_info :=
  { mft_block := 4, mft_size := 2560, mft_record_size := 1024, clusters := 256000,
    clust_shift := 4, clust_byte_shift := 13, clust_mask := 15, clust_size := 8192 }

/-- A cache that holds block 4 of the device at the address 16384. -/
def oneBlockCache (b : Nat) : Option Nat := if b = 4 then some 16384 else none


/-- The inode that `index_inode_setup` leaves for the directory `dirRecord` on the
volume with 8192-byte clusters. -/
def dirInode8192 : ntfs_inode :=
  { inode0 with mft_no := 5, collation_rule := 1, block_size := 4096,
                block_size_shift := 12, vcn_size := 8192, vcn_size_shift := 13,
                mode := dirent_type.DT_DIR }

end NTFS

/-!
# The auxiliary data vector of the installer (`libinstaller/setadv.c`)
-/

namespace ADV

open NTFS

/-- Modelled from the spec: `syslxint.h` is not part of the sources; `ADV_SIZE` is the
size in bytes of one copy of the auxiliary data vector. -/
def ADV_SIZE : Nat := 512

/-- Modelled from the spec: `syslxint.h` is not part of the sources; `ADV_LEN` is the
size of the data area of a copy, the copy without its three 32-bit words of head
signature, checksum and tail signature. -/
def ADV_LEN : Nat := ADV_SIZE - 3 * 4

/-- Modelled from the spec: `syslxint.h` is not part of the sources; `ADV_END` is the
tag that ends the list of items. -/
def ADV_END : Nat := 0

/-- The constant `ADV_MAGIC1`, the head signature. -/
def ADV_MAGIC1 : Nat := 0x5a2d2fa5

/-- The constant `ADV_MAGIC2`, the total checksum. -/
def ADV_MAGIC2 : Nat := 0xa3041767

/-- The constant `ADV_MAGIC3`, the tail signature. -/
def ADV_MAGIC3 : Nat := 0xdd28bf64

/-- Modelled from the spec: `syslxint.h` is not part of the sources; `get_32(p)` reads
a little-endian 32-bit word. -/
def get_32 (m : Mem) (p : Nat) : Nat := rd32 m p

/-- Modelled from the spec: `syslxint.h` is not part of the sources; `set_32(p, v)`
stores a little-endian 32-bit word. -/
def set_32 (m : Mem) (p v : Nat) : Mem := wr16 (wr16 m p v) (p + 2) (v / 65536)

/-- The library call `memset(p, v, n)`. -/
def memset (m : Mem) (p v n : Nat) : Mem :=
  fun a => if p ≤ a ∧ a < p + n then v % 256 else m a

/-- The loop `for (i = 8; i < ADV_SIZE - 4; i += 4) csum -= get_32(advbuf + i);` of
`cleanup_adv`, from `i` on, on a `uint32_t` checksum (at most `fuel` rounds). -/
def cleanup_csum (m : Mem) (advbuf : Nat) : Nat → Nat → Nat → Nat
  | 0, _, csum => csum
  | fuel + 1, i, csum =>
    if i < ADV_SIZE - 4 then
      cleanup_csum m advbuf fuel (i + 4) ((csum + (2 ^ 32 - get_32 m (advbuf + i))) % 2 ^ 32)
    else csum

/-- The function `cleanup_adv(advbuf)`. -/
def cleanup_adv (m : Mem) (advbuf : Nat) : Mem :=
  let m1 := set_32 m advbuf ADV_MAGIC1
  let csum := cleanup_csum m1 advbuf ADV_SIZE 8 ADV_MAGIC2
  let m2 := set_32 m1 (advbuf + 4) csum
  let m3 := set_32 m2 (advbuf + ADV_SIZE - 4) ADV_MAGIC3
  memmove m3 (advbuf + ADV_SIZE) advbuf ADV_SIZE

/-- The variables of `syslinux_setadv` that change in its scan loop: the memory (the
working copy `advtmp` lives in it), `p` and `left`. -/
structure ScanState where
  mem : Mem
  p : Nat
  left : Nat

/-- The `while (left >= 2)` loop of `syslinux_setadv`, which deletes the items with
the given tag from the working copy and skips the others; `none` when the fuel
is used up. -/
def setadv_scan (tag : Int) : Nat → ScanState → Option ScanState
  | 0, _ => none
  | fuel + 1, st =>
    if st.left ≥ 2 then
      let ptag := rd8 st.mem st.p
      let plen := rd8 st.mem (st.p + 1) + 2
      if ptag = ADV_END then some st
      else if (ptag : Int) = tag then
        if plen ≥ st.left then some st
        else
          setadv_scan tag fuel
            { st with mem := memmove st.mem st.p (st.p + plen) (st.left - plen) }
      else
        if plen > st.left then some st
        else setadv_scan tag fuel { st with left := st.left - plen, p := st.p + plen }
    else some st

/-- The function `syslinux_setadv(tag, size, data)`: the returned `int` and the
memory it leaves; `none` when the scan loop uses up the fuel.  `adv` is the
address of the global `syslinux_adv`, `advtmp` the address of the local working
copy, `data` the address of the `size` bytes of data.  The value stored in
`errno` is left out. -/
def syslinux_setadv (fuel : Nat) (m : Mem) (adv advtmp : Nat) (tag : Int)
    (size data : Nat) : Option (Int × Mem) :=
  if (tag - 1) % 2 ^ 32 > 254 then some (-1, m)
  else if size > 255 then some (-1, m)
  else
    let m1 := memmove m advtmp (adv + 2 * 4) ADV_LEN
    match setadv_scan tag fuel { mem := m1, p := advtmp, left := ADV_LEN } with
    | none => none
    | some st =>
      if size ≠ 0 ∧ st.left < size + 2 then some (-1, st.mem)
      else
        let st1 : ScanState :=
          if size ≠ 0 then
            { mem := memmove (wr8 (wr8 st.mem st.p tag.toNat) (st.p + 1) size)
                (st.p + 2) data size,
              p := st.p + 2 + size,
              left := st.left - (size + 2) }
          else st
        let m2 := memset st1.mem st1.p 0 st1.left
        let m3 := memmove m2 (adv + 2 * 4) advtmp ADV_LEN
        some (0, cleanup_adv m3 adv)

/-- The function `syslinux_reset_adv(advbuf)`. -/
def syslinux_reset_adv (m : Mem) (advbuf : Nat) : Mem :=
  cleanup_adv (memset m (advbuf + 2 * 4) 0 ADV_LEN) advbuf

/-- The items found by walking a tag list of `left` bytes at `p`: each item is a tag
byte, a length byte and that many data bytes; the walk ends at the tag `ADV_END`,
when fewer than two bytes are left, or at an item that would overrun the area. -/
def adv_items (m : Mem) : Nat → Nat → Nat → List (Nat × List Nat)
  | 0, _, _ => []
  | fuel + 1, p, left =>
    if left < 2 then []
    else if rd8 m p = ADV_END then []
    else if rd8 m (p + 1) + 2 > left then []
    else (rd8 m p, bytes_at m (p + 2) (rd8 m (p + 1))) ::
      adv_items m fuel (p + (rd8 m (p + 1) + 2)) (left - (rd8 m (p + 1) + 2))

/-- The items of the first copy of the auxiliary data vector at `adv`. -/
def adv_list (m : Mem) (adv : Nat) : List (Nat × List Nat) :=
  adv_items m ADV_LEN (adv + 2 * 4) ADV_LEN

/-- Memory in which the 248 bytes from address 16384 on are `0xAA` and the 248
bytes from address 20480 on are `0xBB`, and all other bytes are zero. -/
def twoData : Mem :=
  fun a => if 16384 ≤ a ∧ a < 16384 + 248 then 0xAA
    else if 20480 ≤ a ∧ a < 20480 + 248 then 0xBB else 0

/-- The auxiliary data vector after `syslinux_reset_adv` and the two calls
`syslinux_setadv(1, 248, a)` and `syslinux_setadv(2, 248, b)`, with `a` 248 bytes
`0xAA` and `b` 248 bytes `0xBB`: the global `syslinux_adv` is at address 4096, the
working copy at 8192. -/
def fillTwoItems : Option (Int × Mem) :=
  (syslinux_setadv 10 (syslinux_reset_adv twoData 4096) 4096 8192 1 248 16384).bind
    (fun r => syslinux_setadv 10 r.2 4096 8192 2 248 20480)


/-- Memory in which the data area of the auxiliary data vector at address 4096 (the
500 bytes from 4104 on) is filled with 250 items of tag 5 and length 0, that is
with the bytes `5, 0, 5, 0, ...`; all other bytes are zero. -/
def zeroLenItems : Mem :=
  fun a => if 4104 ≤ a ∧ a < 4604 then (if (a - 4104) % 2 = 0 then 5 else 0) else 0


/-! ## Consistency of the two copies -/

/-- The loop `for (i = 4; i < ADV_SIZE - 4; i += 4) csum += get_32(p + i);` of
`adv_consistent`, from `i` on with checksum `csum` (a `uint32_t`). -/
def consistent_csum (m : Mem) (p : Nat) : Nat → Nat → Nat → Nat
  | 0, _, csum => csum
  | fuel + 1, i, csum =>
    if i < ADV_SIZE - 4 then
      consistent_csum m p fuel (i + 4) ((csum + get_32 m (p + i)) % 2 ^ 32)
    else csum

/-- The function `adv_consistent(p)`; `true` for a nonzero result. -/
def adv_consistent (m : Mem) (p : Nat) : Bool :=
  if get_32 m p ≠ ADV_MAGIC1 ∨ get_32 m (p + ADV_SIZE - 4) ≠ ADV_MAGIC3 then false
  else decide (consistent_csum m p ADV_SIZE 4 0 = ADV_MAGIC2)

/-- The function `syslinux_validate_adv(advbuf)`: the returned `int` and the memory it
leaves. -/
def syslinux_validate_adv (m : Mem) (advbuf : Nat) : Int × Mem :=
  if adv_consistent m (advbuf + 0 * ADV_SIZE) = true then
    (0, memmove m (advbuf + ADV_SIZE) advbuf ADV_SIZE)
  else if adv_consistent m (advbuf + 1 * ADV_SIZE) = true then
    (0, memmove m advbuf (advbuf + ADV_SIZE) ADV_SIZE)
  else (-1, syslinux_reset_adv m advbuf)

/-- The sum of the `n` little-endian 32-bit words stored from address `q` on. -/
def word_sum (m : Mem) : Nat → Nat → Nat
  | _, 0 => 0
  | q, n + 1 => get_32 m q + word_sum m (q + 4) n

/-- Consistency of the copy at `p` in the words of the specification: the head word is
`ADV_MAGIC1`, the tail word is `ADV_MAGIC3`, and the 126 words from offset 4 up
to the tail sum to `ADV_MAGIC2` modulo `2 ^ 32`. -/
def adv_ok (m : Mem) (p : Nat) : Prop :=
  get_32 m p = ADV_MAGIC1 ∧ get_32 m (p + 508) = ADV_MAGIC3 ∧
  word_sum m (p + 4) 126 % 2 ^ 32 = ADV_MAGIC2

instance (m : Mem) (p : Nat) : Decidable (adv_ok m p) := by
  unfold adv_ok
  infer_instance

/-- The two copies at `advbuf` and `advbuf + ADV_SIZE` hold the same bytes. -/
def copies_identical (m : Mem) (advbuf : Nat) : Prop :=
  ∀ k, k < ADV_SIZE → rd8 m (advbuf + k) = rd8 m (advbuf + ADV_SIZE + k)

instance (m : Mem) (advbuf : Nat) : Decidable (copies_identical m advbuf) := by
  unfold copies_identical
  infer_instance

end ADV

namespace NTFS

/-! ## Facts about `fixups_copyback` -/

theorem fixups_body_offset (fs : FsInfo) (buf usa_no usa_end : Nat) (st : FixState) :
    (fixups_body fs buf usa_no usa_end st).offset =
      (st.offset + fs.sector_size + (2 ^ 64 - 2)) % 2 ^ 64 := by
  simp only [fixups_body]
  split_ifs <;> rfl

/-- The loop of `fixups_copyback` ends: with sectors of `2 ^ s` bytes, `2 ≤ s ≤ 31`,
and `sectors * 2 ^ s < 2 ^ 32`, fuel above `sectors * 2 ^ s - offset` is enough. -/
theorem fixups_loop_terminates (fs : FsInfo) (buf usa_no usa_end sectors : Nat)
    (hsize : fs.sector_size = 2 ^ fs.sector_shift) (hlo : 2 ≤ fs.sector_shift)
    (hhi : fs.sector_shift ≤ 31) (hT : sectors * fs.sector_size < 2 ^ 32) :
    ∀ (fuel : Nat) (st : FixState), st.offset ≤ sectors * fs.sector_size →
      sectors * fs.sector_size < fuel + st.offset →
      ∃ st1, fixups_loop fs buf usa_no usa_end sectors fuel st = some st1 := by
  have hS4 : 4 ≤ fs.sector_size := by
    rw [hsize]
    calc 4 = 2 ^ 2 := by norm_num
      _ ≤ 2 ^ fs.sector_shift := Nat.pow_le_pow_right (by norm_num) hlo
  have hS31 : fs.sector_size ≤ 2 ^ 31 := by
    rw [hsize]; exact Nat.pow_le_pow_right (by norm_num) hhi
  intro fuel
  induction fuel with
  | zero => intro st h1 h2; omega
  | succ fuel ih =>
    intro st h1 h2
    unfold fixups_loop
    simp only
    have ho : (fixups_body fs buf usa_no usa_end st).offset =
        st.offset + fs.sector_size - 2 := by
      rw [fixups_body_offset]
      norm_num at hT hS31 ⊢
      omega
    split
    · rename_i hc
      rw [ho] at hc
      have hlt : st.offset + fs.sector_size - 2 + fs.sector_size < 2 ^ 64 := by
        norm_num at hT hS31 ⊢
        omega
      rw [Nat.mod_eq_of_lt hlt, Nat.shiftRight_eq_div_pow, ← hsize,
        Nat.div_lt_iff_lt_mul (by omega)] at hc
      apply ih
      · rw [ho]; omega
      · rw [ho]; omega
    · exact ⟨_, rfl⟩

set_option maxRecDepth 100000 in
/-- C1 (the code departs from the claim).  The record `fileRecord 1` is one 512-byte
sector with magic `FILE`, its update sequence array at `usa_ofs = 0x30`, update
sequence number `0x0001`, saved word `0xABCD`, and the sector's last word equal to
the update sequence number.  `fixups_copyback` succeeds on it, but the last word
of the sector is then `0x0100` (the low byte of the update sequence number shifted
left by eight), not the saved word `0xABCD`. -/
theorem fixups_copyback_tail_not_restored :
    nrec_magic (memOfList 4096 (fileRecord 1)) 4096 = NTFS_MAGIC_FILE ∧
    nrec_usa_ofs (memOfList 4096 (fileRecord 1)) 4096 = 0x30 ∧
    rd16 (memOfList 4096 (fileRecord 1)) (4096 + 0x30) = 0x0001 ∧
    rd16 (memOfList 4096 (fileRecord 1)) (4096 + 512 - 2) = 0x0001 ∧
    rd16 (memOfList 4096 (fileRecord 1)) (4096 + 0x30 + 2 * (0 + 1)) = 0xABCD ∧
    (fixups_copyback 2 fs512 (memOfList 4096 (fileRecord 1)) 4096 4096 512).map
      (fun r => (r.1, rd16 r.2 (4096 + 512 - 2))) = some (0, 0x0100) := by
  decide

set_option maxRecDepth 100000 in
/-- C2 (counterexample).  The record `fileRecord 2` has magic `FILE` and its only
sector ends with the word `0x0002`, which differs from the update sequence number
`0x0001`; `fixups_copyback` still returns 0 and leaves that word as it was. -/
theorem fixups_copyback_accepts_usa_mismatch :
    nrec_magic (memOfList 4096 (fileRecord 2)) 4096 = NTFS_MAGIC_FILE ∧
    rd16 (memOfList 4096 (fileRecord 2)) (4096 + 512 - 2) ≠
      rd16 (memOfList 4096 (fileRecord 2))
        (4096 + nrec_usa_ofs (memOfList 4096 (fileRecord 2)) 4096) ∧
    (fixups_copyback 2 fs512 (memOfList 4096 (fileRecord 2)) 4096 4096 512).map
      (fun r => (r.1, rd16 r.2 (4096 + 512 - 2))) = some (0, 0x0002) := by
  decide

/-- C2 (amended).  With sectors of `2 ^ sector_shift` bytes, `2 ≤ sector_shift ≤ 31`,
a record size below `2 ^ 32` and fuel above the record size, `fixups_copyback`
returns (the loop ends), the returned value is 0 or -1, and it is -1 exactly when
the magic is neither `FILE` nor `INDX`; so for every memory, whatever the last
words of the sectors are, a record whose magic is `FILE` or `INDX` gets the
return value 0. -/
theorem fixups_copyback_fails_iff_bad_magic (fuel : Nat) (fs : FsInfo) (m : Mem)
    (buf nrec size : Nat) (hsize : fs.sector_size = 2 ^ fs.sector_shift)
    (hlo : 2 ≤ fs.sector_shift) (hhi : fs.sector_shift ≤ 31) (hsz : size < 2 ^ 32)
    (hfuel : size < fuel) :
    ∃ ret m1, fixups_copyback fuel fs m buf nrec size = some (ret, m1) ∧
      (ret = 0 ∨ ret = -1) ∧
      (ret = -1 ↔
        (nrec_magic m nrec ≠ NTFS_MAGIC_FILE ∧ nrec_magic m nrec ≠ NTFS_MAGIC_INDX)) ∧
      ((nrec_magic m nrec = NTFS_MAGIC_FILE ∨ nrec_magic m nrec = NTFS_MAGIC_INDX) →
        ret = 0) := by
  unfold fixups_copyback
  split
  · rename_i hbad
    exact ⟨-1, m, rfl, Or.inr rfl, ⟨fun _ => hbad, fun _ => rfl⟩,
      fun h => h.elim (fun h1 => absurd h1 hbad.1) (fun h2 => absurd h2 hbad.2)⟩
  · rename_i hgood
    have hle : (size >>> fs.sector_shift) % 2 ^ 32 * fs.sector_size ≤ size := by
      rw [Nat.shiftRight_eq_div_pow, ← hsize]
      calc size / fs.sector_size % 2 ^ 32 * fs.sector_size
          ≤ size / fs.sector_size * fs.sector_size :=
            Nat.mul_le_mul_right _ (Nat.mod_le _ _)
        _ ≤ size := Nat.div_mul_le_self _ _
    obtain ⟨st1, hst1⟩ := fixups_loop_terminates fs buf
      (rd16 m (nrec + nrec_usa_ofs m nrec))
      (nrec + nrec_usa_ofs m nrec + nrec_usa_count m nrec + 1)
      ((size >>> fs.sector_shift) % 2 ^ 32) hsize hlo hhi (lt_of_le_of_lt hle hsz) fuel
      { mem := m, offset := 0, usa_start := nrec + nrec_usa_ofs m nrec }
      (Nat.zero_le _) (by simpa using lt_of_le_of_lt hle hfuel)
    simp only [hst1]
    exact ⟨0, st1.mem, rfl, Or.inl rfl, ⟨fun h => absurd h (by decide),
      fun h => absurd h hgood⟩, fun _ => rfl⟩

set_option maxRecDepth 100000 in
/-- The amended C2 at the one-sector record `fileRecord 2` with 512-byte sectors, whose
magic is `FILE` and whose last word differs from the update sequence number. -/
theorem fixups_copyback_fails_iff_bad_magic_witness :
    (fs512.sector_size = 2 ^ fs512.sector_shift ∧ 2 ≤ fs512.sector_shift ∧
      fs512.sector_shift ≤ 31 ∧ 512 < 2 ^ 32 ∧ 512 < 513) ∧
    (nrec_magic (memOfList 4096 (fileRecord 2)) 4096 = NTFS_MAGIC_FILE ∧
      rd16 (memOfList 4096 (fileRecord 2)) (4096 + 512 - 2) ≠
        rd16 (memOfList 4096 (fileRecord 2))
          (4096 + nrec_usa_ofs (memOfList 4096 (fileRecord 2)) 4096)) ∧
    ∃ ret m1, fixups_copyback 513 fs512 (memOfList 4096 (fileRecord 2)) 4096 4096 512
        = some (ret, m1) ∧ (ret = 0 ∨ ret = -1) ∧
      (ret = -1 ↔
        (nrec_magic (memOfList 4096 (fileRecord 2)) 4096 ≠ NTFS_MAGIC_FILE ∧
         nrec_magic (memOfList 4096 (fileRecord 2)) 4096 ≠ NTFS_MAGIC_INDX)) ∧
      ((nrec_magic (memOfList 4096 (fileRecord 2)) 4096 = NTFS_MAGIC_FILE ∨
        nrec_magic (memOfList 4096 (fileRecord 2)) 4096 = NTFS_MAGIC_INDX) → ret = 0) :=
  ⟨⟨rfl, by decide, by decide, by decide, by decide⟩, ⟨by decide, by decide⟩,
   fixups_copyback_fails_iff_bad_magic 513 fs512 (memOfList 4096 (fileRecord 2)) 4096
    4096 512 rfl (by decide) (by decide) (by decide) (by decide)⟩

/-! ## Facts about `parse_data_run` -/

theorem parse_data_run_at_end (m : Mem) (stream offset attr_len : Nat)
    (chunk : mapping_chunk) (h : run_at_end m stream offset attr_len) :
    parse_data_run m stream offset attr_len chunk =
      { ret := 0, offset := offset,
        chunk := { chunk with
          flags := (chunk.flags &&& (0xFFFFFFFF - MAP_MASK)) ||| MAP_END } } := by
  have h1 : stream + offset > attr_len ∨ rd8 m (stream + offset) = 0 := h
  simp only [parse_data_run, if_pos h1]

theorem parse_data_run_corrupt (m : Mem) (stream offset attr_len : Nat)
    (chunk : mapping_chunk) (h : ¬ run_at_end m stream offset attr_len)
    (hbad : 8 < run_v m stream offset ∨ 8 < run_l m stream offset) :
    (parse_data_run m stream offset attr_len chunk).ret = -1 := by
  have h1 : ¬ (stream + offset > attr_len ∨ rd8 m (stream + offset) = 0) := h
  have h2 : rd8 m (stream + offset) &&& 0x0F > 8 ∨ rd8 m (stream + offset) >>> 4 > 8 :=
    hbad
  simp only [parse_data_run, if_neg h1, if_pos h2]

theorem parse_data_run_step (m : Mem) (stream offset attr_len : Nat)
    (chunk : mapping_chunk) (h : ¬ run_at_end m stream offset attr_len)
    (hok : ¬ (8 < run_v m stream offset ∨ 8 < run_l m stream offset)) :
    parse_data_run m stream offset attr_len chunk =
      { ret := 0,
        offset := (offset + (run_v m stream offset + run_l m stream offset + 1)) % 2 ^ 32,
        chunk :=
          { cur_vcn := chunk.next_vcn,
            vcn_len := run_v m stream offset,
            next_vcn := (chunk.next_vcn + vcn_loop m (run_v m stream offset)
              (stream + offset + run_v m stream offset) 0) % 2 ^ 64,
            lcn_len := run_l m stream offset,
            cur_lcn := (chunk.cur_lcn + lcn_loop m (run_l m stream offset)
              (stream + offset + run_v m stream offset + run_l m stream offset)
              (if rd8 m (stream + offset + run_v m stream offset + run_l m stream offset)
                  &&& 0x80 ≠ 0 then 2 ^ 64 - 1 else 0)) % 2 ^ 64,
            flags :=
              if (chunk.cur_lcn + lcn_loop m (run_l m stream offset)
                  (stream + offset + run_v m stream offset + run_l m stream offset)
                  (if rd8 m (stream + offset + run_v m stream offset
                      + run_l m stream offset) &&& 0x80 ≠ 0 then 2 ^ 64 - 1 else 0))
                  % 2 ^ 64 = 0 then
                (if offset = 0 then
                  (chunk.flags &&& (0xFFFFFFFF - MAP_MASK)) ||| MAP_START
                 else chunk.flags &&& (0xFFFFFFFF - MAP_MASK)) ||| MAP_UNALLOCATED
              else
                (if offset = 0 then
                  (chunk.flags &&& (0xFFFFFFFF - MAP_MASK)) ||| MAP_START
                 else chunk.flags &&& (0xFFFFFFFF - MAP_MASK)) ||| MAP_ALLOCATED } } := by
  have h1 : ¬ (stream + offset > attr_len ∨ rd8 m (stream + offset) = 0) := h
  have h2 : ¬ (rd8 m (stream + offset) &&& 0x0F > 8 ∨ rd8 m (stream + offset) >>> 4 > 8) :=
    hok
  simp only [parse_data_run, if_neg h1, if_neg h2, run_v, run_l, run_header]

/-! ### The flag bits -/

theorem land_two_pow_ne_zero (x i : Nat) : x &&& 2 ^ i ≠ 0 ↔ x.testBit i = true := by
  constructor
  · intro h
    obtain ⟨j, hj⟩ := Nat.ne_zero_implies_bit_true h
    rw [Nat.testBit_and, Nat.testBit_two_pow] at hj
    simp only [Bool.and_eq_true, decide_eq_true_eq] at hj
    rw [hj.2]; exact hj.1
  · intro h h0
    have : (x &&& 2 ^ i).testBit i = true := by
      rw [Nat.testBit_and, Nat.testBit_two_pow]; simp [h]
    rw [h0] at this
    simp at this

theorem testBit_of_lt_16 (x i : Nat) (hi : 4 ≤ i) (hx : x < 16) : x.testBit i = false :=
  Nat.testBit_lt_two_pow (lt_of_lt_of_le hx (by
    calc 16 = 2 ^ 4 := by norm_num
      _ ≤ 2 ^ i := Nat.pow_le_pow_right (by norm_num) hi))

/-- The statement `chunk->flags &= ~MAP_MASK` clears the four flag bits. -/
theorem testBit_flags_cleared (f i : Nat) (hi : i < 4) :
    (f &&& (0xFFFFFFFF - MAP_MASK)).testBit i = false := by
  rw [Nat.testBit_and]
  have h2 : Nat.testBit (0xFFFFFFFF - MAP_MASK) i = false := by
    interval_cases i <;> decide
  rw [h2, Bool.and_false]

/-- After the optional `MAP_START`, bits 1, 2 and 3 of the flags are still clear. -/
theorem testBit_flags_start (f offset i : Nat) (hlo : 1 ≤ i) (hi : i < 4) :
    (if offset = 0 then (f &&& (0xFFFFFFFF - MAP_MASK)) ||| MAP_START
      else f &&& (0xFFFFFFFF - MAP_MASK)).testBit i = false := by
  split
  · rw [Nat.testBit_or, testBit_flags_cleared f i hi]
    interval_cases i <;> decide
  · exact testBit_flags_cleared f i hi

theorem flags_end_masked (f : Nat) :
    ((f &&& (0xFFFFFFFF - MAP_MASK)) ||| MAP_END) &&& MAP_MASK = MAP_END := by
  apply Nat.eq_of_testBit_eq
  intro i
  rw [Nat.testBit_and, Nat.testBit_or]
  by_cases hi : i < 4
  · rw [testBit_flags_cleared f i hi]
    interval_cases i <;> decide
  · rw [testBit_of_lt_16 MAP_MASK i (by omega) (by decide),
      testBit_of_lt_16 MAP_END i (by omega) (by decide)]
    simp

theorem flags_end_exact (f : Nat) (hf : f ≤ MAP_MASK) :
    (f &&& (0xFFFFFFFF - MAP_MASK)) ||| MAP_END = MAP_END := by
  have hf16 : f < 16 := lt_of_le_of_lt hf (by decide)
  apply Nat.eq_of_testBit_eq
  intro i
  rw [Nat.testBit_or]
  by_cases hi : i < 4
  · rw [testBit_flags_cleared f i hi, Bool.false_or]
  · rw [Nat.testBit_and, testBit_of_lt_16 f i (by omega) hf16]
    simp

/-- The flags a successful run step leaves: whether bit 2 (`MAP_ALLOCATED`) and
bit 3 (`MAP_UNALLOCATED`) are set depends only on which of the two was or-ed in. -/
theorem flags_step_bits (f offset : Nat) (z : Prop) [Decidable z] :
    ((if z then
        (if offset = 0 then (f &&& (0xFFFFFFFF - MAP_MASK)) ||| MAP_START
          else f &&& (0xFFFFFFFF - MAP_MASK)) ||| MAP_UNALLOCATED
      else
        (if offset = 0 then (f &&& (0xFFFFFFFF - MAP_MASK)) ||| MAP_START
          else f &&& (0xFFFFFFFF - MAP_MASK)) ||| MAP_ALLOCATED).testBit 3 = true ↔ z) ∧
    ((if z then
        (if offset = 0 then (f &&& (0xFFFFFFFF - MAP_MASK)) ||| MAP_START
          else f &&& (0xFFFFFFFF - MAP_MASK)) ||| MAP_UNALLOCATED
      else
        (if offset = 0 then (f &&& (0xFFFFFFFF - MAP_MASK)) ||| MAP_START
          else f &&& (0xFFFFFFFF - MAP_MASK)) ||| MAP_ALLOCATED).testBit 2 = true ↔ ¬ z) := by
  have h2 := testBit_flags_start f offset 2 (by decide) (by decide)
  have h3 := testBit_flags_start f offset 3 (by decide) (by decide)
  have a2 : Nat.testBit MAP_ALLOCATED 2 = true := by decide
  have a3 : Nat.testBit MAP_ALLOCATED 3 = false := by decide
  have u2 : Nat.testBit MAP_UNALLOCATED 2 = false := by decide
  have u3 : Nat.testBit MAP_UNALLOCATED 3 = true := by decide
  by_cases hz : z
  · simp only [if_pos hz, Nat.testBit_or, h2, h3, u2, u3]
    simp [hz]
  · simp only [if_neg hz, Nat.testBit_or, h2, h3, a2, a3]
    simp [hz]

theorem parse_data_run_step_bits (m : Mem) (stream offset attr_len : Nat)
    (chunk : mapping_chunk) (h : ¬ run_at_end m stream offset attr_len)
    (hok : ¬ (8 < run_v m stream offset ∨ 8 < run_l m stream offset)) :
    ((parse_data_run m stream offset attr_len chunk).chunk.flags.testBit 3 = true ↔
      (parse_data_run m stream offset attr_len chunk).chunk.cur_lcn = 0) ∧
    ((parse_data_run m stream offset attr_len chunk).chunk.flags.testBit 2 = true ↔
      (parse_data_run m stream offset attr_len chunk).chunk.cur_lcn ≠ 0) := by
  rw [parse_data_run_step m stream offset attr_len chunk h hok]
  exact flags_step_bits chunk.flags offset _

/-- C3 (the code departs from the claim).  On the runlist `11 81 01 00` the header
has `v = 1` and `l = 1`, and the unsigned value of the one length byte is `0x81`;
the step succeeds but raises `next_vcn` from 0 to `0x83`. -/
theorem parse_data_run_length_byte_0x81 :
    run_v (memOfList 4096 runlistLen81) 4096 0 = 1 ∧
    run_l (memOfList 4096 runlistLen81) 4096 0 = 1 ∧
    le_unsigned (memOfList 4096 runlistLen81) (4096 + 0 + 1) 1 = 0x81 ∧
    (parse_data_run (memOfList 4096 runlistLen81) 4096 0 4100 (seed_chunk 0)).ret = 0 ∧
    (parse_data_run (memOfList 4096 runlistLen81) 4096 0 4100 (seed_chunk 0)).chunk.next_vcn
      = 0x83 := by
  decide

/-- C5 (counterexample).  On the runlist `21 18 34 56 01 05 00` the second step is
a successful non-terminator step with LCN width `l = 0` that follows an allocated
run; its flags contain `MAP_ALLOCATED` and do not contain `MAP_UNALLOCATED`. -/
theorem parse_data_run_zero_width_reported_allocated :
    (parse_data_run (memOfList 4096 runlistHole) 4096 0 4103 (seed_chunk 0)).offset = 4 ∧
    ¬ run_at_end (memOfList 4096 runlistHole) 4096 4 4103 ∧
    run_l (memOfList 4096 runlistHole) 4096 4 = 0 ∧
    (parse_data_run (memOfList 4096 runlistHole) 4096 4 4103
      (parse_data_run (memOfList 4096 runlistHole) 4096 0 4103 (seed_chunk 0)).chunk).ret
      = 0 ∧
    (parse_data_run (memOfList 4096 runlistHole) 4096 4 4103
      (parse_data_run (memOfList 4096 runlistHole) 4096 0 4103
        (seed_chunk 0)).chunk).chunk.flags &&& MAP_UNALLOCATED = 0 ∧
    (parse_data_run (memOfList 4096 runlistHole) 4096 4 4103
      (parse_data_run (memOfList 4096 runlistHole) 4096 0 4103
        (seed_chunk 0)).chunk).chunk.flags &&& MAP_ALLOCATED ≠ 0 := by
  decide

/-- C5 (amended).  For every successful non-terminator step of `parse_data_run`, the
resulting flags contain `MAP_UNALLOCATED` if and only if `cur_lcn` is 0 after the
accumulation, and contain `MAP_ALLOCATED` if and only if it is not 0. -/
theorem parse_data_run_flags_follow_cur_lcn (m : Mem) (stream offset attr_len : Nat)
    (chunk : mapping_chunk) (hend : ¬ run_at_end m stream offset attr_len)
    (hret : (parse_data_run m stream offset attr_len chunk).ret = 0) :
    ((parse_data_run m stream offset attr_len chunk).chunk.flags &&& MAP_UNALLOCATED ≠ 0 ↔
      (parse_data_run m stream offset attr_len chunk).chunk.cur_lcn = 0) ∧
    ((parse_data_run m stream offset attr_len chunk).chunk.flags &&& MAP_ALLOCATED ≠ 0 ↔
      (parse_data_run m stream offset attr_len chunk).chunk.cur_lcn ≠ 0) := by
  have hok : ¬ (8 < run_v m stream offset ∨ 8 < run_l m stream offset) := by
    intro hbad
    rw [parse_data_run_corrupt m stream offset attr_len chunk hend hbad] at hret
    exact absurd hret (by decide)
  have hb := parse_data_run_step_bits m stream offset attr_len chunk hend hok
  have e3 : MAP_UNALLOCATED = 2 ^ 3 := by decide
  have e2 : MAP_ALLOCATED = 2 ^ 2 := by decide
  rw [e3, e2, land_two_pow_ne_zero, land_two_pow_ne_zero]
  exact hb

/-- The amended C5 at the zero-width second run of `runlistHole`, entered with the
chunk that the first run leaves (`next_vcn = 0x18`, `cur_lcn = 0x5634`). -/
theorem parse_data_run_flags_follow_cur_lcn_witness :
    (¬ run_at_end (memOfList 4096 runlistHole) 4096 4 4103 ∧
      (parse_data_run (memOfList 4096 runlistHole) 4096 4 4103
        { seed_chunk 0 with next_vcn := 0x18, cur_lcn := 0x5634 }).ret = 0) ∧
    ((parse_data_run (memOfList 4096 runlistHole) 4096 4 4103
        { seed_chunk 0 with next_vcn := 0x18, cur_lcn := 0x5634 }).chunk.flags
        &&& MAP_UNALLOCATED ≠ 0 ↔
      (parse_data_run (memOfList 4096 runlistHole) 4096 4 4103
        { seed_chunk 0 with next_vcn := 0x18, cur_lcn := 0x5634 }).chunk.cur_lcn = 0) ∧
    ((parse_data_run (memOfList 4096 runlistHole) 4096 4 4103
        { seed_chunk 0 with next_vcn := 0x18, cur_lcn := 0x5634 }).chunk.flags
        &&& MAP_ALLOCATED ≠ 0 ↔
      (parse_data_run (memOfList 4096 runlistHole) 4096 4 4103
        { seed_chunk 0 with next_vcn := 0x18, cur_lcn := 0x5634 }).chunk.cur_lcn ≠ 0) :=
  ⟨⟨by decide, by decide⟩,
   parse_data_run_flags_follow_cur_lcn (memOfList 4096 runlistHole) 4096 4 4103
    { seed_chunk 0 with next_vcn := 0x18, cur_lcn := 0x5634 } (by decide) (by decide)⟩

/-- C6 (the code departs from the claim).  With the chunk seeded as the callers seed
it for `lowest_vcn = 5` and the runlist `21 18 34 56 00`, the decoder emits one
chunk, and its `cur_vcn` is 0, not 5: the step overwrites `cur_vcn` with the
zero-filled `next_vcn`. -/
theorem decode_runlist_ignores_lowest_vcn :
    (seed_chunk 5).cur_vcn = 5 ∧
    decode_runlist 5 (memOfList 4096 runlistE2) 4096 4101 5 =
      [{ cur_vcn := 0, vcn_len := 1, next_vcn := 0x18, lcn_len := 2, cur_lcn := 0x5634,
         flags := MAP_START ||| MAP_ALLOCATED }] := by
  decide

/-- C7.  The outcome of one call of `parse_data_run`, for every memory, stream,
offset, end pointer and chunk.  The call returns 0 or -1.  It returns -1 exactly
when the position is not past the end, the header byte is not zero and `v` or `l`
exceeds 8.  It returns 0 with, of the four flag bits, exactly `MAP_END` set and
with the offset, `cur_vcn`, `next_vcn` and `cur_lcn` unchanged exactly when the
position is past the end or the header byte is zero (the flags word is then
`MAP_END` itself whenever the incoming flags have no bit outside `MAP_MASK`, as
with the zero-filled chunks of both callers).  In every other case it returns 0
and the new offset is the old one plus `v + l + 1`, as a `uint32_t`. -/
theorem parse_data_run_outcome (m : Mem) (stream offset attr_len : Nat)
    (chunk : mapping_chunk) :
    ((parse_data_run m stream offset attr_len chunk).ret = 0 ∨
      (parse_data_run m stream offset attr_len chunk).ret = -1) ∧
    ((parse_data_run m stream offset attr_len chunk).ret = -1 ↔
      (¬ attr_len < stream + offset ∧ run_header m stream offset ≠ 0 ∧
        (8 < run_v m stream offset ∨ 8 < run_l m stream offset))) ∧
    (((parse_data_run m stream offset attr_len chunk).ret = 0 ∧
      (parse_data_run m stream offset attr_len chunk).chunk.flags &&& MAP_MASK = MAP_END ∧
      (parse_data_run m stream offset attr_len chunk).offset = offset ∧
      (parse_data_run m stream offset attr_len chunk).chunk.cur_vcn = chunk.cur_vcn ∧
      (parse_data_run m stream offset attr_len chunk).chunk.next_vcn = chunk.next_vcn ∧
      (parse_data_run m stream offset attr_len chunk).chunk.cur_lcn = chunk.cur_lcn) ↔
      (attr_len < stream + offset ∨ run_header m stream offset = 0)) ∧
    ((attr_len < stream + offset ∨ run_header m stream offset = 0) →
      chunk.flags ≤ MAP_MASK →
      (parse_data_run m stream offset attr_len chunk).chunk.flags = MAP_END) ∧
    (¬ (attr_len < stream + offset ∨ run_header m stream offset = 0) →
      ¬ (8 < run_v m stream offset ∨ 8 < run_l m stream offset) →
      (parse_data_run m stream offset attr_len chunk).ret = 0 ∧
      (parse_data_run m stream offset attr_len chunk).offset =
        (offset + (run_v m stream offset + run_l m stream offset + 1)) % 2 ^ 32) := by
  by_cases hend : run_at_end m stream offset attr_len
  · have hend1 : attr_len < stream + offset ∨ run_header m stream offset = 0 := hend
    rw [parse_data_run_at_end m stream offset attr_len chunk hend]
    refine ⟨Or.inl rfl, ⟨fun h => absurd (show (0 : Int) = -1 from h) (by decide),
        fun h => ?_⟩,
      ⟨fun _ => hend1, fun _ => ⟨rfl, flags_end_masked chunk.flags, rfl, rfl, rfl, rfl⟩⟩,
      fun _ hf => flags_end_exact chunk.flags hf, fun h => absurd hend1 h⟩
    rcases hend1 with h1 | h1
    · exact absurd h1 h.1
    · exact absurd h1 h.2.1
  · have hend1 : ¬ (attr_len < stream + offset ∨ run_header m stream offset = 0) := hend
    by_cases hbad : 8 < run_v m stream offset ∨ 8 < run_l m stream offset
    · have hr := parse_data_run_corrupt m stream offset attr_len chunk hend hbad
      rw [hr]
      refine ⟨Or.inr rfl, ⟨fun _ => ⟨fun h => hend1 (Or.inl h),
        fun h => hend1 (Or.inr h), hbad⟩, fun _ => rfl⟩,
        ⟨fun h => absurd h.1 (by decide), fun h => absurd h hend1⟩,
        fun h => absurd h hend1, fun _ h => absurd hbad h⟩
    · have hb := parse_data_run_step_bits m stream offset attr_len chunk hend hbad
      have hs := parse_data_run_step m stream offset attr_len chunk hend hbad
      have hret : (parse_data_run m stream offset attr_len chunk).ret = 0 := by rw [hs]
      have hoff : (parse_data_run m stream offset attr_len chunk).offset =
          (offset + (run_v m stream offset + run_l m stream offset + 1)) % 2 ^ 32 := by
        rw [hs]
      refine ⟨Or.inl hret, ⟨fun h => ?_, fun h => absurd h.2.2 hbad⟩,
        ⟨fun h => ?_, fun h => absurd h hend1⟩, fun h => absurd h hend1,
        fun _ _ => ⟨hret, hoff⟩⟩
      · rw [hret] at h; exact absurd h (by decide)
      · exfalso
        have hm := h.2.1
        have t2 : ((parse_data_run m stream offset attr_len chunk).chunk.flags
            &&& MAP_MASK).testBit 2 = false := by rw [hm]; decide
        have t3 : ((parse_data_run m stream offset attr_len chunk).chunk.flags
            &&& MAP_MASK).testBit 3 = false := by rw [hm]; decide
        rw [Nat.testBit_and] at t2 t3
        have m2 : Nat.testBit MAP_MASK 2 = true := by decide
        have m3 : Nat.testBit MAP_MASK 3 = true := by decide
        rw [m2, Bool.and_true] at t2
        rw [m3, Bool.and_true] at t3
        by_cases hz : (parse_data_run m stream offset attr_len chunk).chunk.cur_lcn = 0
        · have := hb.1.2 hz
          rw [t3] at this
          exact absurd this (by decide)
        · have := hb.2.2 hz
          rw [t2] at this
          exact absurd this (by decide)

/-! ### The LCN delta -/

theorem rd8_lt (m : Mem) (a : Nat) : rd8 m a < 256 := Nat.mod_lt _ (by norm_num)

theorem le_unsigned_succ_top (m : Mem) (n : Nat) :
    ∀ a, le_unsigned m a (n + 1) = le_unsigned m a n + 256 ^ n * rd8 m (a + n) := by
  induction n with
  | zero => intro a; simp [le_unsigned]
  | succ n ih =>
    intro a
    rw [le_unsigned, ih (a + 1), le_unsigned]
    have : a + 1 + n = a + (n + 1) := by omega
    rw [this]
    ring

/-- One round of `res = (res << 8) | byte` on a 64-bit pattern is
`res * 256 + byte` modulo `2 ^ 64`. -/
theorem shift_or_byte (res b : Nat) (hb : b < 256) :
    ((res <<< 8) % 2 ^ 64) ||| b ≡ res * 256 + b [MOD 2 ^ 64] := by
  have h1 : (res <<< 8) % 2 ^ 64 = 2 ^ 8 * (res % 2 ^ 56) := by
    rw [Nat.shiftLeft_eq, Nat.mul_comm res (2 ^ 8)]
    have : (2 : Nat) ^ 64 = 2 ^ 8 * 2 ^ 56 := by norm_num
    rw [this, Nat.mul_mod_mul_left]
  rw [h1, ← Nat.mul_add_lt_is_or (by simpa using hb) (res % 2 ^ 56)]
  have h2 : 2 ^ 8 * (res % 2 ^ 56) ≡ res * 256 [MOD 2 ^ 64] := by
    rw [← h1, Nat.shiftLeft_eq]
    exact Nat.mod_modEq _ _
  exact h2.add_right b

/-- The loop that reads the LCN delta, started on the last of `count` bytes with the
pattern `res`, yields `res * 256 ^ count` plus the unsigned little-endian value
of those bytes, modulo `2 ^ 64`. -/
theorem lcn_loop_modEq (m : Mem) (count : Nat) :
    ∀ a res, lcn_loop m count (a + count) res ≡
      res * 256 ^ count + le_unsigned m (a + 1) count [MOD 2 ^ 64] := by
  induction count with
  | zero => intro a res; simp [lcn_loop, le_unsigned, Nat.ModEq]
  | succ c ih =>
    intro a res
    have hstep : lcn_loop m (c + 1) (a + (c + 1)) res =
        lcn_loop m c (a + c) (((res <<< 8) % 2 ^ 64) ||| rd8 m (a + (c + 1))) := by
      rw [lcn_loop]
      rfl
    rw [hstep, le_unsigned_succ_top]
    have h1 := ih a (((res <<< 8) % 2 ^ 64) ||| rd8 m (a + (c + 1)))
    have h2 := shift_or_byte res (rd8 m (a + (c + 1))) (rd8_lt m _)
    have h3 := (h2.mul_right (256 ^ c)).add_right (le_unsigned m (a + 1) c)
    refine h1.trans (h3.trans ?_)
    have : a + 1 + c = a + (c + 1) := by omega
    rw [this]
    have e : (res * 256 + rd8 m (a + (c + 1))) * 256 ^ c + le_unsigned m (a + 1) c =
        res * 256 ^ (c + 1) + (le_unsigned m (a + 1) c + 256 ^ c * rd8 m (a + (c + 1))) := by
      ring
    rw [e]

theorem sign_bit_test (x : Nat) (hx : x < 256) : x &&& 0x80 ≠ 0 ↔ 128 ≤ x := by
  have e : (0x80 : Nat) = 2 ^ 7 := by norm_num
  rw [e, land_two_pow_ne_zero, Nat.testBit_to_div_mod]
  simp only [decide_eq_true_eq]
  norm_num
  omega

theorem run_header_ne_zero_of_l (m : Mem) (stream offset : Nat)
    (hl : 1 ≤ run_l m stream offset) : run_header m stream offset ≠ 0 := by
  intro h0
  unfold run_l at hl
  rw [h0] at hl
  simp at hl

/-- The accumulation `chunk->cur_lcn += res` of a run step, as an integer identity:
the new pattern is the old one plus the signed value of the `l` delta bytes,
modulo `2 ^ 64`. -/
theorem lcn_accumulate (m : Mem) (a l cur : Nat) :
    (((cur + lcn_loop m l (a + l)
        (if rd8 m (a + l) &&& 0x80 ≠ 0 then 2 ^ 64 - 1 else 0)) % 2 ^ 64 : Nat) : Int) =
      ((cur : Int) + le_signed m (a + 1) l) % 2 ^ 64 := by
  have hloop := lcn_loop_modEq m l a (if rd8 m (a + l) &&& 0x80 ≠ 0 then 2 ^ 64 - 1 else 0)
  have hz := (Int.natCast_modEq_iff).mpr hloop
  have haddr : a + 1 + l - 1 = a + l := by omega
  have hgoal : ((cur : Int) + (lcn_loop m l (a + l)
      (if rd8 m (a + l) &&& 0x80 ≠ 0 then 2 ^ 64 - 1 else 0) : Nat)) ≡
      (cur : Int) + le_signed m (a + 1) l [ZMOD 2 ^ 64] := by
    apply Int.ModEq.add_left
    have hz1 : ((lcn_loop m l (a + l)
        (if rd8 m (a + l) &&& 0x80 ≠ 0 then 2 ^ 64 - 1 else 0) : Nat) : Int) ≡
        (((if rd8 m (a + l) &&& 0x80 ≠ 0 then 2 ^ 64 - 1 else 0) * 256 ^ l
          + le_unsigned m (a + 1) l : Nat) : Int) [ZMOD 2 ^ 64] := by
      simpa using hz
    refine hz1.trans ?_
    unfold le_signed
    rw [haddr]
    by_cases hs : rd8 m (a + l) &&& 0x80 ≠ 0
    · have h128 : 128 ≤ rd8 m (a + l) := (sign_bit_test _ (rd8_lt m _)).mp hs
      rw [if_pos hs, if_pos h128]
      rw [Int.modEq_iff_dvd]
      refine ⟨-(256 ^ l : Int), ?_⟩
      have e : (((2 ^ 64 - 1) * 256 ^ l + le_unsigned m (a + 1) l : Nat) : Int) =
          (2 ^ 64 - 1) * 256 ^ l + (le_unsigned m (a + 1) l : Int) := by
        push_cast
        norm_num
      rw [e]
      have e2 : (2 : Int) ^ (8 * l) = 256 ^ l := by
        rw [pow_mul]; norm_num
      rw [e2]
      ring
    · have h128 : ¬ 128 ≤ rd8 m (a + l) := fun h =>
        hs ((sign_bit_test _ (rd8_lt m _)).mpr h)
      rw [if_neg hs, if_neg h128]
      simp
  have := hgoal.eq
  rw [Int.natCast_mod]
  push_cast
  exact this

/-- C4.  For every header byte with `v ≤ 8` and `l` in 1..8 at a position that is
not past the end, one call of `parse_data_run` adds to `cur_lcn`, modulo
`2 ^ 64`, the two's-complement little-endian value of the `l` bytes that follow
the `v` length bytes (sign taken from bit 7 of the last of them); and on the
stream `21 18 34 56 00` started with `cur_lcn = 0` the call leaves
`cur_lcn = 0x5634`. -/
theorem parse_data_run_adds_signed_delta (m : Mem) (stream offset attr_len : Nat)
    (chunk : mapping_chunk) (hpos : stream + offset ≤ attr_len)
    (hv : run_v m stream offset ≤ 8) (hl1 : 1 ≤ run_l m stream offset)
    (hl8 : run_l m stream offset ≤ 8) :
    (parse_data_run m stream offset attr_len chunk).ret = 0 ∧
    (((parse_data_run m stream offset attr_len chunk).chunk.cur_lcn : Nat) : Int) =
      ((chunk.cur_lcn : Int) +
        le_signed m (stream + offset + run_v m stream offset + 1) (run_l m stream offset))
        % 2 ^ 64 ∧
    (parse_data_run (memOfList 4096 runlistE2) 4096 0 4101 (seed_chunk 0)).chunk.cur_lcn
      = 0x5634 := by
  have hend : ¬ run_at_end m stream offset attr_len := by
    intro h
    rcases h with h | h
    · omega
    · exact run_header_ne_zero_of_l m stream offset hl1 h
  have hok : ¬ (8 < run_v m stream offset ∨ 8 < run_l m stream offset) := by
    intro h
    rcases h with h | h <;> omega
  refine ⟨?_, ?_, by decide⟩
  · rw [parse_data_run_step m stream offset attr_len chunk hend hok]
  · rw [parse_data_run_step m stream offset attr_len chunk hend hok]
    exact lcn_accumulate m (stream + offset + run_v m stream offset)
      (run_l m stream offset) chunk.cur_lcn

/-- C4 at the first run of `runlistE2`. -/
theorem parse_data_run_adds_signed_delta_witness :
    (4096 + 0 ≤ 4101 ∧ run_v (memOfList 4096 runlistE2) 4096 0 ≤ 8 ∧
      1 ≤ run_l (memOfList 4096 runlistE2) 4096 0 ∧
      run_l (memOfList 4096 runlistE2) 4096 0 ≤ 8) ∧
    ((parse_data_run (memOfList 4096 runlistE2) 4096 0 4101 (seed_chunk 0)).ret = 0 ∧
    (((parse_data_run (memOfList 4096 runlistE2) 4096 0 4101 (seed_chunk 0)).chunk.cur_lcn
        : Nat) : Int) =
      (((seed_chunk 0).cur_lcn : Int) +
        le_signed (memOfList 4096 runlistE2)
          (4096 + 0 + run_v (memOfList 4096 runlistE2) 4096 0 + 1)
          (run_l (memOfList 4096 runlistE2) 4096 0)) % 2 ^ 64 ∧
    (parse_data_run (memOfList 4096 runlistE2) 4096 0 4101 (seed_chunk 0)).chunk.cur_lcn
      = 0x5634) :=
  ⟨⟨by decide, by decide, by decide, by decide⟩,
   parse_data_run_adds_signed_delta (memOfList 4096 runlistE2) 4096 0 4101 (seed_chunk 0)
    (by decide) (by decide) (by decide) (by decide)⟩

/-! ## Facts about `attr_lookup` -/

/-- The walk over a list of `k` attributes that ends in the `END` sentinel returns,
with fuel above `k`, the first attribute of the requested type. -/
theorem attr_walk_find (m : Mem) (type : Nat) (k : Nat) :
    ∀ (fuel start : Nat),
      (∀ a ∈ attr_addrs m k start, ATTR_RECORD_type m a ≠ NTFS_AT_END) →
      ATTR_RECORD_type m (attr_nth m k start) = NTFS_AT_END → k < fuel →
      attr_walk m type fuel start =
        some ((attr_addrs m k start).find? (fun a => decide (ATTR_RECORD_type m a = type))) := by
  induction k with
  | zero =>
    intro fuel start _ hend hfuel
    obtain ⟨f, rfl⟩ : ∃ f, fuel = f + 1 := ⟨fuel - 1, by omega⟩
    have hend1 : ATTR_RECORD_type m start = NTFS_AT_END := hend
    simp [attr_walk, attr_addrs, hend1]
  | succ k ih =>
    intro fuel start hne hend hfuel
    obtain ⟨f, rfl⟩ : ∃ f, fuel = f + 1 := ⟨fuel - 1, by omega⟩
    have hstart : ATTR_RECORD_type m start ≠ NTFS_AT_END :=
      hne start (by simp [attr_addrs])
    have hrest : ∀ a ∈ attr_addrs m k (start + ATTR_RECORD_len m start),
        ATTR_RECORD_type m a ≠ NTFS_AT_END := fun a ha =>
      hne a (by simp [attr_addrs, ha])
    have hend1 : ATTR_RECORD_type m (attr_nth m k (start + ATTR_RECORD_len m start))
        = NTFS_AT_END := hend
    rw [attr_walk, if_neg hstart, attr_addrs, List.find?_cons]
    by_cases ht : ATTR_RECORD_type m start = type
    · simp [ht]
    · rw [if_neg ht, ih f _ hrest hend1 (by omega)]
      simp [ht]

/-- C8.  For every MFT record whose attribute list, starting at `attrs_offset`,
consists of `k` attributes (none of type `END`, each of positive `len`) followed
by the `END` sentinel, and every requested type other than `END`: with fuel
above `k`, `attr_lookup` returns the first attribute of the list whose type is
the requested one, and returns the null pointer exactly when no attribute of the
list has that type.  When the requested type is `END` or the record pointer is
null, it returns the null pointer without walking (whatever the fuel and the
memory). -/
theorem attr_lookup_first_match (m : Mem) (mrec type k fuel : Nat)
    (htype : type ≠ NTFS_AT_END)
    (hwf : ∀ a ∈ attr_addrs m k (mrec + MFT_RECORD_attrs_offset m mrec),
      ATTR_RECORD_type m a ≠ NTFS_AT_END ∧ 0 < ATTR_RECORD_len m a)
    (hend : ATTR_RECORD_type m (attr_nth m k (mrec + MFT_RECORD_attrs_offset m mrec))
      = NTFS_AT_END)
    (hfuel : k < fuel) :
    attr_lookup fuel m type (some mrec) =
      some ((attr_addrs m k (mrec + MFT_RECORD_attrs_offset m mrec)).find?
        (fun a => decide (ATTR_RECORD_type m a = type))) ∧
    (attr_lookup fuel m type (some mrec) = some none ↔
      ∀ a ∈ attr_addrs m k (mrec + MFT_RECORD_attrs_offset m mrec),
        ATTR_RECORD_type m a ≠ type) ∧
    (∀ (fuel1 : Nat) (m1 : Mem) (mrec1 : Option Nat),
      attr_lookup fuel1 m1 NTFS_AT_END mrec1 = some none) ∧
    (∀ (fuel1 : Nat) (m1 : Mem) (type1 : Nat),
      attr_lookup fuel1 m1 type1 none = some none) := by
  have hmain : attr_lookup fuel m type (some mrec) =
      some ((attr_addrs m k (mrec + MFT_RECORD_attrs_offset m mrec)).find?
        (fun a => decide (ATTR_RECORD_type m a = type))) := by
    simp only [attr_lookup, if_neg htype]
    exact attr_walk_find m type k fuel _ (fun a ha => (hwf a ha).1) hend hfuel
  refine ⟨hmain, ?_, ?_, ?_⟩
  · rw [hmain]
    simp [List.find?_eq_none]
  · intro fuel1 m1 mrec1
    cases mrec1 <;> simp [attr_lookup]
  · intro fuel1 m1 type1
    simp [attr_lookup]

/-- C8 at `twoAttrRecord`: the lookup of type `0x30` returns the second attribute,
at `4096 + 0x38 + 0x18`. -/
theorem attr_lookup_first_match_witness :
    ((0x30 : Nat) ≠ NTFS_AT_END ∧
      (∀ a ∈ attr_addrs (memOfList 4096 twoAttrRecord) 2
          (4096 + MFT_RECORD_attrs_offset (memOfList 4096 twoAttrRecord) 4096),
        ATTR_RECORD_type (memOfList 4096 twoAttrRecord) a ≠ NTFS_AT_END ∧
        0 < ATTR_RECORD_len (memOfList 4096 twoAttrRecord) a) ∧
      ATTR_RECORD_type (memOfList 4096 twoAttrRecord)
        (attr_nth (memOfList 4096 twoAttrRecord) 2
          (4096 + MFT_RECORD_attrs_offset (memOfList 4096 twoAttrRecord) 4096))
        = NTFS_AT_END ∧ 2 < 3) ∧
    attr_lookup 3 (memOfList 4096 twoAttrRecord) 0x30 (some 4096) = some (some 4176) :=
  ⟨⟨by decide, by decide, by decide, by decide⟩,
   (attr_lookup_first_match (memOfList 4096 twoAttrRecord) 4096 0x30 2 3
    (by decide) (by decide) (by decide) (by decide)).1.trans (by decide)⟩

/-! ## Facts about `ntfs_match_longname` -/

/-- The first loop of the matcher on a name without zero code units: it runs through
all `len` code units when every one of them matches, and leaves through
`goto out` otherwise. -/
theorem match_loop_nonzero (uni : Nat → Nat → Nat) (m : Mem) (len : Nat) :
    ∀ (mt s : Nat), (∀ i, i < len → rd16 m (mt + 2 * i) ≠ 0) →
      ((∀ i, i < len → (rd16 m (mt + 2 * i) = uni 0 (rd8 m (s + i)) ∨
          rd16 m (mt + 2 * i) = uni 1 (rd8 m (s + i)))) →
        match_loop uni m len mt s = some (0, mt + 2 * len, s + len)) ∧
      (¬ (∀ i, i < len → (rd16 m (mt + 2 * i) = uni 0 (rd8 m (s + i)) ∨
          rd16 m (mt + 2 * i) = uni 1 (rd8 m (s + i)))) →
        match_loop uni m len mt s = none) := by
  induction len with
  | zero =>
    intro mt s _
    refine ⟨fun _ => by simp [match_loop], fun h => absurd (fun i hi => by omega) h⟩
  | succ len ih =>
    intro mt s hnz
    have hcp : rd16 m mt ≠ 0 := by simpa using hnz 0 (by omega)
    have hnz1 : ∀ i, i < len → rd16 m (mt + 2 + 2 * i) ≠ 0 := by
      intro i hi
      have := hnz (i + 1) (by omega)
      have e : mt + 2 * (i + 1) = mt + 2 + 2 * i := by ring
      rwa [e] at this
    obtain ⟨ih1, ih2⟩ := ih (mt + 2) (s + 1) hnz1
    have shift : (∀ i, i < len → (rd16 m (mt + 2 + 2 * i) = uni 0 (rd8 m (s + 1 + i)) ∨
          rd16 m (mt + 2 + 2 * i) = uni 1 (rd8 m (s + 1 + i)))) ↔
        (∀ i, i < len → (rd16 m (mt + 2 * (i + 1)) = uni 0 (rd8 m (s + (i + 1))) ∨
          rd16 m (mt + 2 * (i + 1)) = uni 1 (rd8 m (s + (i + 1))))) := by
      constructor
      · intro h i hi
        have := h i hi
        have e1 : mt + 2 * (i + 1) = mt + 2 + 2 * i := by ring
        have e2 : s + (i + 1) = s + 1 + i := by ring
        rwa [e1, e2]
      · intro h i hi
        have := h i hi
        have e1 : mt + 2 * (i + 1) = mt + 2 + 2 * i := by ring
        have e2 : s + (i + 1) = s + 1 + i := by ring
        rwa [e1, e2] at this
    constructor
    · intro hall
      have h0 := hall 0 (by omega)
      simp only [Nat.mul_zero, Nat.add_zero] at h0
      have hcond : ¬ (rd16 m mt ≠ uni 0 (rd8 m s) ∧ rd16 m mt ≠ uni 1 (rd8 m s)) := by
        intro hc
        rcases h0 with h0 | h0
        · exact hc.1 h0
        · exact hc.2 h0
      have hrest := ih1 (shift.mpr (fun i hi => hall (i + 1) (by omega)))
      rw [match_loop]
      simp only [if_neg hcp, if_neg hcond, hrest]
      have e1 : mt + 2 + 2 * len = mt + 2 * (len + 1) := by ring
      have e2 : s + 1 + len = s + (len + 1) := by ring
      rw [e1, e2]
    · intro hnot
      rw [match_loop]
      simp only [if_neg hcp]
      by_cases hcond : rd16 m mt ≠ uni 0 (rd8 m s) ∧ rd16 m mt ≠ uni 1 (rd8 m s)
      · simp only [if_pos hcond]
      · simp only [if_neg hcond]
        apply ih2
        intro hrest
        apply hnot
        intro i hi
        cases i with
        | zero =>
          simp only [Nat.mul_zero, Nat.add_zero]
          by_contra hc
          exact hcond ⟨fun h => hc (Or.inl h), fun h => hc (Or.inr h)⟩
        | succ i => exact shift.mp hrest i (by omega)

/-- The matcher on a stored name without zero code units, under tables that map
byte 0 to code unit 0: it accepts exactly the strings of the stored length whose
every byte maps to the stored code unit through one of the two tables. -/
theorem match_longname_nonzero (uni : Nat → Nat → Nat) (m : Mem) (str attr : Nat)
    (hnz : ∀ i, i < stored_name_len m attr → stored_name_unit m attr i ≠ 0)
    (h0 : uni 0 0 = 0) (h1 : uni 1 0 = 0) :
    ntfs_match_longname uni m str (some attr) = true ↔
      (str_length m str (stored_name_len m attr) ∧
        ∀ i, i < stored_name_len m attr →
          (stored_name_unit m attr i = uni 0 (rd8 m (str + i)) ∨
           stored_name_unit m attr i = uni 1 (rd8 m (str + i)))) := by
  obtain ⟨l1, l2⟩ := match_loop_nonzero uni m (stored_name_len m attr)
    (FILE_NAME_ATTR_file_name (attr + ATTR_RECORD_value_offset m attr)) str hnz
  by_cases hall : ∀ i, i < stored_name_len m attr →
      (stored_name_unit m attr i = uni 0 (rd8 m (str + i)) ∨
       stored_name_unit m attr i = uni 1 (rd8 m (str + i)))
  · have hloop := l1 hall
    have hnonzero : ∀ i, i < stored_name_len m attr → rd8 m (str + i) ≠ 0 := by
      intro i hi hz
      have := hall i hi
      rw [hz, h0, h1] at this
      exact hnz i hi (by rcases this with h | h <;> exact h)
    have hres : ntfs_match_longname uni m str (some attr) =
        (if rd8 m (str + stored_name_len m attr) ≠ 0 then false else true) := by
      simp only [ntfs_match_longname]
      have hloop1 : match_loop uni m
          (FILE_NAME_ATTR_file_name_len m (attr + ATTR_RECORD_value_offset m attr))
          (FILE_NAME_ATTR_file_name (attr + ATTR_RECORD_value_offset m attr)) str =
          some (0, FILE_NAME_ATTR_file_name (attr + ATTR_RECORD_value_offset m attr)
            + 2 * stored_name_len m attr, str + stored_name_len m attr) := hloop
      rw [hloop1]
      simp only [pad_loop]
    rw [hres]
    constructor
    · intro h
      refine ⟨⟨hnonzero, ?_⟩, hall⟩
      by_contra hz
      rw [if_pos hz] at h
      exact absurd h (by decide)
    · intro h
      rw [if_neg (by simpa using h.1.2)]
  · have hloop := l2 hall
    have hres : ntfs_match_longname uni m str (some attr) = false := by
      simp only [ntfs_match_longname]
      have hloop1 : match_loop uni m
          (FILE_NAME_ATTR_file_name_len m (attr + ATTR_RECORD_value_offset m attr))
          (FILE_NAME_ATTR_file_name (attr + ATTR_RECORD_value_offset m attr)) str =
          none := hloop
      rw [hloop1]
    rw [hres]
    constructor
    · intro h; exact absurd h (by decide)
    · intro h; exact absurd h.2 hall

theorem ascii_upper_of_lower (a b : Nat) (h : ascii_lower a = ascii_lower b) :
    ascii_upper a = ascii_upper b := by
  unfold ascii_lower at h
  unfold ascii_upper
  split_ifs at h ⊢ <;> omega

theorem ascii_uni_congr (a b row : Nat) (h : ascii_lower a = ascii_lower b) :
    ascii_uni row a = ascii_uni row b := by
  unfold ascii_uni
  split
  · exact h
  · exact ascii_upper_of_lower a b h

theorem str_length_unique (m : Mem) (str n k : Nat) (hn : str_length m str n)
    (hk : str_length m str k) : n = k := by
  rcases Nat.lt_trichotomy n k with h | h | h
  · exact absurd hn.2 (hk.1 n h)
  · exact h
  · exact absurd hk.2 (hn.1 k h)

/-- On two strings of length `n` that differ only in letter case, the first loop of
the matcher, started at the same position `j ≤ n` of both, either leaves through
`goto out` on both or ends on both with the same `len`, the same `match` and the
same position in the string. -/
theorem match_loop_case (m : Mem) (s1 s2 n : Nat) (h1 : str_length m s1 n)
    (h2 : str_length m s2 n)
    (hc : ∀ i, i < n → ascii_lower (rd8 m (s1 + i)) = ascii_lower (rd8 m (s2 + i)))
    (len : Nat) :
    ∀ (mt j : Nat), j ≤ n →
      (match_loop ascii_uni m len mt (s1 + j) = none ∧
        match_loop ascii_uni m len mt (s2 + j) = none) ∨
      ∃ len1 mt1 j1, j1 ≤ n ∧
        match_loop ascii_uni m len mt (s1 + j) = some (len1, mt1, s1 + j1) ∧
        match_loop ascii_uni m len mt (s2 + j) = some (len1, mt1, s2 + j1) := by
  induction len with
  | zero =>
    intro mt j hj
    exact Or.inr ⟨0, mt, j, hj, by simp [match_loop], by simp [match_loop]⟩
  | succ len ih =>
    intro mt j hj
    by_cases hcp : rd16 m mt = 0
    · refine Or.inr ⟨len, mt + 2, j, hj, ?_, ?_⟩ <;>
        · rw [match_loop]; simp only [if_pos hcp]
    · rcases Nat.lt_or_ge j n with hlt | hge
      · have hu0 := ascii_uni_congr _ _ 0 (hc j hlt)
        have hu1 := ascii_uni_congr _ _ 1 (hc j hlt)
        by_cases hcond : rd16 m mt ≠ ascii_uni 0 (rd8 m (s1 + j)) ∧
            rd16 m mt ≠ ascii_uni 1 (rd8 m (s1 + j))
        · left
          constructor
          · rw [match_loop]; simp only [if_neg hcp, if_pos hcond]
          · rw [match_loop]; rw [hu0, hu1] at hcond
            simp only [if_neg hcp, if_pos hcond]
        · have hrec := ih (mt + 2) (j + 1) hlt
          have e1 : s1 + (j + 1) = s1 + j + 1 := by ring
          have e2 : s2 + (j + 1) = s2 + j + 1 := by ring
          rw [e1, e2] at hrec
          have hcond2 : ¬ (rd16 m mt ≠ ascii_uni 0 (rd8 m (s2 + j)) ∧
              rd16 m mt ≠ ascii_uni 1 (rd8 m (s2 + j))) := by
            rw [← hu0, ← hu1]; exact hcond
          have r1 : match_loop ascii_uni m (len + 1) mt (s1 + j) =
              match_loop ascii_uni m len (mt + 2) (s1 + j + 1) := by
            rw [match_loop]; simp only [if_neg hcp, if_neg hcond]
          have r2 : match_loop ascii_uni m (len + 1) mt (s2 + j) =
              match_loop ascii_uni m len (mt + 2) (s2 + j + 1) := by
            rw [match_loop]; simp only [if_neg hcp, if_neg hcond2]
          rw [r1, r2]
          exact hrec
      · have hjn : j = n := by omega
        subst hjn
        have z1 : rd8 m (s1 + j) = 0 := h1.2
        have z2 : rd8 m (s2 + j) = 0 := h2.2
        have u0 : ascii_uni 0 0 = 0 := by decide
        have u1 : ascii_uni 1 0 = 0 := by decide
        left
        constructor
        · rw [match_loop]
          have hcond : rd16 m mt ≠ ascii_uni 0 (rd8 m (s1 + j)) ∧
              rd16 m mt ≠ ascii_uni 1 (rd8 m (s1 + j)) := by
            rw [z1, u0, u1]; exact ⟨hcp, hcp⟩
          simp only [if_neg hcp, if_pos hcond]
        · rw [match_loop]
          have hcond : rd16 m mt ≠ ascii_uni 0 (rd8 m (s2 + j)) ∧
              rd16 m mt ≠ ascii_uni 1 (rd8 m (s2 + j)) := by
            rw [z2, u0, u1]; exact ⟨hcp, hcp⟩
          simp only [if_neg hcp, if_pos hcond]

/-- Under the ASCII tables, two inputs that differ only in letter case get the same
answer from the matcher, whatever the stored name is. -/
theorem match_longname_case (m : Mem) (s1 s2 : Nat) (attr : Option Nat)
    (h : differ_only_in_case m s1 s2) :
    ntfs_match_longname ascii_uni m s1 attr = ntfs_match_longname ascii_uni m s2 attr := by
  cases attr with
  | none => rfl
  | some attr =>
    obtain ⟨n, h1, h2, hc⟩ := h
    have hl := match_loop_case m s1 s2 n h1 h2 hc
      (FILE_NAME_ATTR_file_name_len m (attr + ATTR_RECORD_value_offset m attr))
      (FILE_NAME_ATTR_file_name (attr + ATTR_RECORD_value_offset m attr)) 0 (Nat.zero_le n)
    simp only [Nat.add_zero] at hl
    simp only [ntfs_match_longname]
    rcases hl with ⟨e1, e2⟩ | ⟨len1, mt1, j1, hj1, e1, e2⟩
    · rw [e1, e2]
    · rw [e1, e2]
      have hz : rd8 m (s1 + j1) ≠ 0 ↔ rd8 m (s2 + j1) ≠ 0 := by
        rcases Nat.lt_or_ge j1 n with hlt | hge
        · exact ⟨fun _ => h2.1 j1 hlt, fun _ => h1.1 j1 hlt⟩
        · have : j1 = n := by omega
          subst this
          exact ⟨fun h => absurd h1.2 h, fun h => absurd h2.2 h⟩
      by_cases hz1 : rd8 m (s1 + j1) ≠ 0
      · simp only [if_pos hz1, if_pos (hz.mp hz1)]
      · simp only [if_neg hz1, if_neg (fun h => hz1 (hz.mpr h))]

/-- C9.  Given that the candidate's record and `FILE_NAME` attribute are found, that
none of the `n = file_name_len` stored code units is 0 and that both codepage
tables map byte 0 to code unit 0: `ntfs_match_longname` returns true if and only
if the input has exactly `n` bytes before its NUL and every stored code unit
equals `uni[0][c]` or `uni[1][c]` for the input byte `c` at the same position.
Consequently, under the ASCII tables, two inputs that differ only in letter case
get the same answer for every stored name. -/
theorem ntfs_match_longname_iff (uni : Nat → Nat → Nat) (m : Mem) (str attr : Nat)
    (hnz : ∀ i, i < stored_name_len m attr → stored_name_unit m attr i ≠ 0)
    (h0 : uni 0 0 = 0) (h1 : uni 1 0 = 0) :
    (ntfs_match_longname uni m str (some attr) = true ↔
      (str_length m str (stored_name_len m attr) ∧
        ∀ i, i < stored_name_len m attr →
          (stored_name_unit m attr i = uni 0 (rd8 m (str + i)) ∨
           stored_name_unit m attr i = uni 1 (rd8 m (str + i))))) ∧
    (∀ (m1 : Mem) (s1 s2 : Nat) (attr1 : Option Nat), differ_only_in_case m1 s1 s2 →
      ntfs_match_longname ascii_uni m1 s1 attr1 =
        ntfs_match_longname ascii_uni m1 s2 attr1) :=
  ⟨match_longname_nonzero uni m str attr hnz h0 h1,
   fun m1 s1 s2 attr1 h => match_longname_case m1 s1 s2 attr1 h⟩

/-- C9 at the stored name `abC` and the input `ABc`, which match. -/
theorem ntfs_match_longname_iff_witness :
    ((∀ i, i < stored_name_len (memOfList 4096 mixedCaseName) 4096 →
        stored_name_unit (memOfList 4096 mixedCaseName) 4096 i ≠ 0) ∧
      ascii_uni 0 0 = 0 ∧ ascii_uni 1 0 = 0) ∧
    ntfs_match_longname ascii_uni (memOfList 4096 mixedCaseName) 4192 (some 4096) = true ∧
    (ntfs_match_longname ascii_uni (memOfList 4096 mixedCaseName) 4192 (some 4096) = true ↔
      (str_length (memOfList 4096 mixedCaseName) 4192
          (stored_name_len (memOfList 4096 mixedCaseName) 4096) ∧
        ∀ i, i < stored_name_len (memOfList 4096 mixedCaseName) 4096 →
          (stored_name_unit (memOfList 4096 mixedCaseName) 4096 i =
              ascii_uni 0 (rd8 (memOfList 4096 mixedCaseName) (4192 + i)) ∨
           stored_name_unit (memOfList 4096 mixedCaseName) 4096 i =
              ascii_uni 1 (rd8 (memOfList 4096 mixedCaseName) (4192 + i))))) :=
  ⟨⟨by decide, by decide, by decide⟩, by decide,
   (ntfs_match_longname_iff ascii_uni (memOfList 4096 mixedCaseName) 4192 4096
    (by decide) (by decide) (by decide)).1⟩

/-- C10 (counterexample).  The stored name has `file_name_len = 3` and the code units
`a`, 0, `0xFFFF`; the input `a` has length 1, which differs from 3, and
`ntfs_match_longname` returns true under the ASCII tables. -/
theorem ntfs_match_longname_accepts_padded_name :
    stored_name_len (memOfList 4096 paddedName) 4096 = 3 ∧
    rd8 (memOfList 4096 paddedName) 4192 ≠ 0 ∧
    rd8 (memOfList 4096 paddedName) (4192 + 1) = 0 ∧
    ntfs_match_longname ascii_uni (memOfList 4096 paddedName) 4192 (some 4096) = true := by
  decide

/-- C10 (amended).  For every stored `FILE_NAME` none of whose `file_name_len` code
units is 0, under the ASCII tables, and every input string whose length differs
from `file_name_len`, `ntfs_match_longname` returns false. -/
theorem ntfs_match_longname_length_mismatch (m : Mem) (str attr k : Nat)
    (hnz : ∀ i, i < stored_name_len m attr → stored_name_unit m attr i ≠ 0)
    (hk : str_length m str k) (hne : k ≠ stored_name_len m attr) :
    ntfs_match_longname ascii_uni m str (some attr) = false := by
  by_contra h
  have ht : ntfs_match_longname ascii_uni m str (some attr) = true := by
    simpa using h
  have := (match_longname_nonzero ascii_uni m str attr hnz (by decide) (by decide)).mp ht
  exact hne (str_length_unique m str _ _ hk this.1)

/-- The amended C10 at the stored name `abC` and the input `AB`. -/
theorem ntfs_match_longname_length_mismatch_witness :
    ((∀ i, i < stored_name_len (memOfList 4096 shortInputName) 4096 →
        stored_name_unit (memOfList 4096 shortInputName) 4096 i ≠ 0) ∧
      str_length (memOfList 4096 shortInputName) 4192 2 ∧
      2 ≠ stored_name_len (memOfList 4096 shortInputName) 4096) ∧
    ntfs_match_longname ascii_uni (memOfList 4096 shortInputName) 4192 (some 4096)
      = false :=
  ⟨⟨by decide, ⟨by decide, by decide⟩, by decide⟩,
   ntfs_match_longname_length_mismatch (memOfList 4096 shortInputName) 4192 4096 2
    (by decide) ⟨by decide, by decide⟩ (by decide)⟩

/-! ### Chaining of the emitted chunks -/

theorem flags_end_has_end (f : Nat) :
    ((f &&& (0xFFFFFFFF - MAP_MASK)) ||| MAP_END) &&& MAP_END ≠ 0 := by
  have e : MAP_END = 2 ^ 1 := by decide
  rw [e, land_two_pow_ne_zero, Nat.testBit_or, ← e]
  have : Nat.testBit MAP_END 1 = true := by decide
  rw [this, Bool.or_true]

/-- Every chunk that the decoder emits starts where the chunk handed to that call
ended: the emitted chunks form a chain under `cur_vcn = next_vcn` of the one
before, and the first emitted chunk starts at the `next_vcn` of the chunk the
decoding was started with. -/
theorem decode_chunks_chain (m : Mem) (stream attr_len : Nat) (fuel : Nat) :
    ∀ (offset : Nat) (chunk : mapping_chunk),
      List.Chain (fun a b => b.cur_vcn = a.next_vcn) chunk
        (decode_chunks m stream attr_len fuel offset chunk) := by
  induction fuel with
  | zero => intro offset chunk; simp [decode_chunks]
  | succ fuel ih =>
    intro offset chunk
    rw [decode_chunks]
    split
    · exact List.Chain.nil
    · rename_i hcont
      have hret : (parse_data_run m stream offset attr_len chunk).ret = 0 := by
        by_contra h; exact hcont (Or.inl h)
      have hflag : ¬ (parse_data_run m stream offset attr_len chunk).chunk.flags
          &&& MAP_END ≠ 0 := fun h => hcont (Or.inr h)
      have hend : ¬ run_at_end m stream offset attr_len := by
        intro h
        rw [parse_data_run_at_end m stream offset attr_len chunk h] at hflag
        exact hflag (flags_end_has_end chunk.flags)
      have hok : ¬ (8 < run_v m stream offset ∨ 8 < run_l m stream offset) := by
        intro hbad
        rw [parse_data_run_corrupt m stream offset attr_len chunk hend hbad] at hret
        exact absurd hret (by decide)
      refine List.Chain.cons ?_ (ih _ _)
      rw [parse_data_run_step m stream offset attr_len chunk hend hok]

/-! ## Facts about `get_inode_mode` -/

/-- The classification of `get_inode_mode` depends on one test only: the record is a
regular file exactly when no bit of `file_attrs` other than `ARCHIVE` is set. -/
theorem mode_of_file_attrs_reg_iff (fa : Nat) :
    mode_of_file_attrs fa = dirent_type.DT_REG ↔
      fa &&& (0xFFFFFFFF - NTFS_FILE_ATTR_ARCHIVE) = 0 := by
  have hmask : 0xFFFFFFFF - (NTFS_FILE_ATTR_ARCHIVE |||
      NTFS_FILE_ATTR_DUP_FILE_NAME_INDEX_PRESENT) =
      (0xFFFFFFFF - NTFS_FILE_ATTR_ARCHIVE) &&&
        (0xFFFFFFFF - (NTFS_FILE_ATTR_ARCHIVE |||
          NTFS_FILE_ATTR_DUP_FILE_NAME_INDEX_PRESENT)) := by decide
  have hdir : fa &&& (0xFFFFFFFF - NTFS_FILE_ATTR_ARCHIVE) = 0 →
      fa &&& (0xFFFFFFFF - (NTFS_FILE_ATTR_ARCHIVE |||
        NTFS_FILE_ATTR_DUP_FILE_NAME_INDEX_PRESENT)) = 0 := by
    intro h
    rw [hmask, ← Nat.land_assoc, h]
    exact Nat.zero_and _
  unfold mode_of_file_attrs
  simp only
  by_cases hf : fa &&& (0xFFFFFFFF - NTFS_FILE_ATTR_ARCHIVE) = 0
  · have hd := hdir hf
    simp only [hf, hd]
    by_cases hr : fa &&& (0xFFFFFFFF - (NTFS_FILE_ATTR_READONLY ||| NTFS_FILE_ATTR_HIDDEN |||
        NTFS_FILE_ATTR_SYSTEM ||| NTFS_FILE_ATTR_DUP_FILE_NAME_INDEX_PRESENT)) = 0
    · simp [hr]
    · simp [hr]
  · simp [hf]

theorem rd32_lt (m : Mem) (a : Nat) : rd32 m a < 2 ^ 32 := by
  unfold rd32 rd16
  have h0 := rd8_lt m a
  have h1 := rd8_lt m (a + 1)
  have h2 := rd8_lt m (a + 2)
  have h3 := rd8_lt m (a + 2 + 1)
  norm_num
  omega

/-- A 32-bit value has no bit set other than `ARCHIVE` exactly when it is 0 or
`ARCHIVE`. -/
theorem only_archive_iff (fa : Nat) (hfa : fa < 2 ^ 32) :
    fa &&& (0xFFFFFFFF - NTFS_FILE_ATTR_ARCHIVE) = 0 ↔
      (fa = 0 ∨ fa = NTFS_FILE_ATTR_ARCHIVE) := by
  constructor
  · intro h
    have e1 : fa = fa &&& (2 ^ 32 - 1) :=
      (Nat.and_pow_two_sub_one_of_lt_two_pow hfa).symm
    have e2 : (2 ^ 32 - 1 : Nat) =
        (0xFFFFFFFF - NTFS_FILE_ATTR_ARCHIVE) ||| 2 ^ 5 := by decide
    have e3 : fa = fa &&& 2 ^ 5 := by
      conv_lhs => rw [e1, e2, Nat.and_or_distrib_left, h, Nat.zero_or]
    by_cases hb : fa.testBit 5 = true
    · right
      rw [e3]
      apply Nat.eq_of_testBit_eq
      intro i
      rw [Nat.testBit_and]
      have : NTFS_FILE_ATTR_ARCHIVE = 2 ^ 5 := by decide
      rw [this, Nat.testBit_two_pow]
      by_cases hi : 5 = i
      · subst hi; simp [hb]
      · simp [hi]
    · left
      rw [e3]
      by_contra hne
      exact hb ((land_two_pow_ne_zero fa 5).mp hne)
  · intro h
    rcases h with h | h <;> subst h <;> decide

/-- C11 (counterexample).  The record `modeRecord 0x10000000` has a `FILE_NAME`
attribute whose `file_attrs` is the single bit `DUP_FILE_NAME_INDEX_PRESENT`:
once that bit is cleared no bit other than `ARCHIVE` is left, yet
`get_inode_mode` returns `DT_DIR`. -/
theorem get_inode_mode_counts_index_present :
    attr_lookup 2 (memOfList 4096 (modeRecord 0x10000000)) NTFS_AT_FILENAME (some 4096)
      = some (some (4096 + 0x38)) ∧
    FILE_NAME_ATTR_file_attrs (memOfList 4096 (modeRecord 0x10000000))
      (4096 + 0x38 + 0x18) = NTFS_FILE_ATTR_DUP_FILE_NAME_INDEX_PRESENT ∧
    (NTFS_FILE_ATTR_DUP_FILE_NAME_INDEX_PRESENT &&&
        (0xFFFFFFFF - NTFS_FILE_ATTR_DUP_FILE_NAME_INDEX_PRESENT)) &&&
      (0xFFFFFFFF - NTFS_FILE_ATTR_ARCHIVE) = 0 ∧
    get_inode_mode 2 (memOfList 4096 (modeRecord 0x10000000)) 4096
      = some dirent_type.DT_DIR := by
  decide

/-- C11 (amended).  For every MFT record in which the lookup finds a `FILE_NAME`
attribute, `get_inode_mode` returns `DT_DIR` if and only if `file_attrs` has some
bit set other than `ARCHIVE` (the bit `DUP_FILE_NAME_INDEX_PRESENT` counts like
any other), and `DT_REG` otherwise, that is when `file_attrs` is 0 or `ARCHIVE`;
and for every record it returns `DT_UNKNOWN` exactly when the lookup finds no
`FILE_NAME` attribute. -/
theorem get_inode_mode_dir_iff (fuel : Nat) (m : Mem) (mrec attr : Nat)
    (hattr : attr_lookup fuel m NTFS_AT_FILENAME (some mrec) = some (some attr)) :
    (get_inode_mode fuel m mrec = some dirent_type.DT_DIR ↔
      FILE_NAME_ATTR_file_attrs m (attr + ATTR_RECORD_value_offset m attr) &&&
        (0xFFFFFFFF - NTFS_FILE_ATTR_ARCHIVE) ≠ 0) ∧
    (get_inode_mode fuel m mrec = some dirent_type.DT_REG ↔
      (FILE_NAME_ATTR_file_attrs m (attr + ATTR_RECORD_value_offset m attr) = 0 ∨
       FILE_NAME_ATTR_file_attrs m (attr + ATTR_RECORD_value_offset m attr) =
        NTFS_FILE_ATTR_ARCHIVE)) ∧
    (get_inode_mode fuel m mrec = some dirent_type.DT_DIR ∨
      get_inode_mode fuel m mrec = some dirent_type.DT_REG) ∧
    (∀ (fuel1 : Nat) (m1 : Mem) (mrec1 : Nat),
      get_inode_mode fuel1 m1 mrec1 = some dirent_type.DT_UNKNOWN ↔
        attr_lookup fuel1 m1 NTFS_AT_FILENAME (some mrec1) = some none) := by
  have hval : get_inode_mode fuel m mrec = some (mode_of_file_attrs
      (FILE_NAME_ATTR_file_attrs m (attr + ATTR_RECORD_value_offset m attr))) := by
    simp only [get_inode_mode, hattr]
  have hreg := mode_of_file_attrs_reg_iff
    (FILE_NAME_ATTR_file_attrs m (attr + ATTR_RECORD_value_offset m attr))
  have honly := only_archive_iff
    (FILE_NAME_ATTR_file_attrs m (attr + ATTR_RECORD_value_offset m attr))
    (rd32_lt m _)
  have hcases : ∀ fa, mode_of_file_attrs fa = dirent_type.DT_REG ∨
      mode_of_file_attrs fa = dirent_type.DT_DIR := by
    intro fa
    unfold mode_of_file_attrs
    simp only
    split <;> simp
  refine ⟨?_, ?_, ?_, ?_⟩
  · rw [hval, Option.some.injEq]
    constructor
    · intro hd hz
      have := hreg.mpr hz
      rw [hd] at this
      exact absurd this (by decide)
    · intro hnz
      rcases hcases (FILE_NAME_ATTR_file_attrs m (attr + ATTR_RECORD_value_offset m attr))
        with h | h
      · exact absurd (hreg.mp h) hnz
      · exact h
  · rw [hval, Option.some.injEq, hreg, honly]
  · rw [hval]
    rcases hcases (FILE_NAME_ATTR_file_attrs m (attr + ATTR_RECORD_value_offset m attr))
      with h | h
    · right; rw [h]
    · left; rw [h]
  · intro fuel1 m1 mrec1
    unfold get_inode_mode
    have hcases1 := hcases
    cases hl : attr_lookup fuel1 m1 NTFS_AT_FILENAME (some mrec1) with
    | none => simp
    | some r =>
      cases r with
      | none => simp
      | some a =>
        simp only [Option.some.injEq]
        constructor
        · intro h
          rcases hcases1 (FILE_NAME_ATTR_file_attrs m1 (a + ATTR_RECORD_value_offset m1 a))
            with h1 | h1 <;> rw [h1] at h <;> exact absurd h (by decide)
        · intro h; exact absurd h (by simp)

/-- The amended C11 at `modeRecord 0x20`, a record whose `file_attrs` is `ARCHIVE`. -/
theorem get_inode_mode_dir_iff_witness :
    attr_lookup 2 (memOfList 4096 (modeRecord 0x20)) NTFS_AT_FILENAME (some 4096)
      = some (some (4096 + 0x38)) ∧
    get_inode_mode 2 (memOfList 4096 (modeRecord 0x20)) 4096 = some dirent_type.DT_REG ∧
    (get_inode_mode 2 (memOfList 4096 (modeRecord 0x20)) 4096 = some dirent_type.DT_REG ↔
      (FILE_NAME_ATTR_file_attrs (memOfList 4096 (modeRecord 0x20))
          (4096 + 0x38 + ATTR_RECORD_value_offset (memOfList 4096 (modeRecord 0x20))
            (4096 + 0x38)) = 0 ∨
       FILE_NAME_ATTR_file_attrs (memOfList 4096 (modeRecord 0x20))
          (4096 + 0x38 + ATTR_RECORD_value_offset (memOfList 4096 (modeRecord 0x20))
            (4096 + 0x38)) = NTFS_FILE_ATTR_ARCHIVE)) :=
  ⟨by decide, by decide,
   (get_inode_mode_dir_iff 2 (memOfList 4096 (modeRecord 0x20)) 4096 (4096 + 0x38)
    (by decide)).2.1⟩

/-! ## Facts about `ntfs_getfssec` -/

set_option maxRecDepth 100000 in
/-- C12 (the code departs from the claim).  The record `residentRecord value512` has a
resident `$DATA` of 512 bytes whose last two bytes are `01 00`, and its update
sequence number is `0x0001`.  A read into the buffer at address 8192 returns 512,
but the word at offset 510 of the buffer is then `0x0100`, not the word `0x0001`
of the resident value.  With the 17-byte value of example E4 the read returns 17
and the buffer starts with those 17 bytes. -/
theorem ntfs_getfssec_fixes_up_the_copy :
    attr_lookup 2 (memOfList 4096 (residentRecord value512)) NTFS_AT_DATA (some 4096)
      = some (some (4096 + 0x38)) ∧
    rd16 (memOfList 4096 (residentRecord value512)) (4096 + 0x38 + 0x18 + 510) = 0x0001 ∧
    (ntfs_getfssec 2 fs512 (memOfList 4096 (residentRecord value512)) 8192 0 512 512
        (some 4096)).map (fun r => (r.1, rd16 r.2 (8192 + 510))) = some (512, 0x0100) ∧
    (ntfs_getfssec 2 fs512 (memOfList 4096 (residentRecord value17)) 8192 0 17 17
        (some 4096)).map (fun r => (r.1, bytes_at r.2 8192 17)) = some (17, value17) := by
  decide

/-! ## Facts about `ntfs_readdir` -/

set_option maxRecDepth 100000 in
/-- C13 (the code departs from the claim).  The record `dirRecord` is a directory with
MFT number 5 and the name `.`; the first entry of its index root is the file with
MFT number 40 and the name `a`, and the entry after it is the `END` sentinel.
`ntfs_readdir` on it returns 0 with `d_ino = 5` and the name `.`, the number and
name of the directory's own MFT record, and a second call returns the same. -/
theorem ntfs_readdir_reports_the_directory_itself :
    attr_lookup 3 (memOfList 4096 dirRecord) NTFS_AT_INDEX_ROOT (some 4096)
      = some (some 4246) ∧
    INDEX_HEADER_entries_offset (memOfList 4096 dirRecord)
      (INDEX_ROOT_index (4246 + 0x18)) = 0x10 ∧
    INDEX_ENTRY_indexed_file (memOfList 4096 dirRecord)
      (INDEX_ROOT_index (4246 + 0x18) + 0x10) = 40 ∧
    INDEX_ENTRY_flags (memOfList 4096 dirRecord)
      (INDEX_ROOT_index (4246 + 0x18) + 0x10) = 0 ∧
    bytes_at (memOfList 4096 dirRecord)
      (FILE_NAME_ATTR_file_name (INDEX_ENTRY_key (INDEX_ROOT_index (4246 + 0x18) + 0x10)))
      2 = [0x61, 0x00] ∧
    (ntfs_readdir 8 ascii_uni (memOfList 4096 dirRecord) unicache0 5 0 19
        (some 4096)).map (fun r => (r.ret, r.dirent)) =
      some (0, some { d_ino := 5, d_off := 0, d_reclen := 21,
                      d_type := dirent_type.DT_DIR, d_name := [0x2E, 0x00] }) ∧
    ((ntfs_readdir 8 ascii_uni (memOfList 4096 dirRecord) unicache0 5 0 19
        (some 4096)).bind (fun r1 =>
      ntfs_readdir 8 ascii_uni (memOfList 4096 dirRecord) r1.unicache 5 0 19
        (some 4096))).map (fun r => (r.ret, r.dirent)) =
      some (0, some { d_ino := 5, d_off := 0, d_reclen := 21,
                      d_type := dirent_type.DT_DIR, d_name := [0x2E, 0x00] }) := by
  decide

/-! ## Facts about `ntfs_next_extent` -/

/-- C14 (the code departs from the claim).  With 512-byte sectors and 4096-byte blocks
(`block_shift - sector_shift = 3`), the MFT at block 4 and a resident inode of 17
bytes with `here = 0`, `ntfs_next_extent` at offset 0 succeeds and sets
`next_extent.len = 1`, but `next_extent.pstart = 4`, the block number itself,
not `(4 + 0) * 2 ^ 3 = 32`: the shift count it uses is
`block_shift >> sector_shift = 0`. -/
theorem ntfs_next_extent_resident_pstart_in_blocks :
    fs512.block_shift - fs512.sector_shift = 3 ∧
    fs512.block_shift >>> fs512.sector_shift = 0 ∧
    ntfs_next_extent fs512 sbi4096 inode17 0 =
      (0, { inode17 with next_extent_pstart := 4, next_extent_len := 1 }) ∧
    (sbi4096.mft_block + inode17.here) * 2 ^ (fs512.block_shift - fs512.sector_shift)
      = 32 := by
  decide

/-- C15 (counterexample).  With clusters of 4096 bytes (8 sectors) and a file of 17
bytes, the cluster index of the byte offset 8 is `8 / 4096 = 0`, which is below
the file's cluster count 1, yet `ntfs_next_extent` with `lstart = 8` reports
end-of-file: it divides `lstart` by the 8 sectors of a cluster. -/
theorem ntfs_next_extent_counts_sectors :
    8 / 2 ^ sbi4096.clust_byte_shift = 0 ∧
    (inode17.size + 2 ^ sbi4096.clust_byte_shift - 1) / 2 ^ sbi4096.clust_byte_shift = 1 ∧
    ntfs_next_extent fs512 sbi4096 inode17 8 = (-1, inode17) := by
  decide

/-- C15 (amended).  For every inode and every `lstart`, provided the cluster size
`2 ^ clust_byte_shift` and `size + 2 ^ clust_byte_shift` fit 32 bits:
`ntfs_next_extent` reports end-of-file, leaving the inode (and so `next_extent`)
unchanged, if and only if `lstart` divided by the number of sectors of a cluster,
`2 ^ clust_shift`, is at least the file's cluster count
`ceil(size / 2 ^ clust_byte_shift)`; otherwise it reports success. -/
theorem ntfs_next_extent_eof_iff (fs : FsInfo) (sbi : ntfs_sb_info) (ino : inode)
    (lstart : Nat) (hcb : sbi.clust_byte_shift < 32)
    (hsize : ino.size + 2 ^ sbi.clust_byte_shift ≤ 2 ^ 32) :
    ((ntfs_next_extent fs sbi ino lstart).1 = -1 ↔
      (ino.size + 2 ^ sbi.clust_byte_shift - 1) / 2 ^ sbi.clust_byte_shift ≤
        lstart / 2 ^ sbi.clust_shift) ∧
    ((ntfs_next_extent fs sbi ino lstart).1 = -1 →
      (ntfs_next_extent fs sbi ino lstart).2 = ino) ∧
    ((ntfs_next_extent fs sbi ino lstart).1 = -1 ∨
      (ntfs_next_extent fs sbi ino lstart).1 = 0) := by
  have hpos : 0 < 2 ^ sbi.clust_byte_shift := pow_pos (by norm_num) _
  have hcbytes : (1 <<< sbi.clust_byte_shift) % 2 ^ 32 = 2 ^ sbi.clust_byte_shift := by
    rw [Nat.shiftLeft_eq, Nat.one_mul]
    exact Nat.mod_eq_of_lt (Nat.pow_lt_pow_right (by norm_num) hcb)
  have htc : ((ino.size + (1 <<< sbi.clust_byte_shift) % 2 ^ 32 + (2 ^ 32 - 1)) % 2 ^ 32)
      >>> sbi.clust_byte_shift =
      (ino.size + 2 ^ sbi.clust_byte_shift - 1) / 2 ^ sbi.clust_byte_shift := by
    rw [hcbytes, Nat.shiftRight_eq_div_pow]
    have e : (ino.size + 2 ^ sbi.clust_byte_shift + (2 ^ 32 - 1)) % 2 ^ 32 =
        ino.size + 2 ^ sbi.clust_byte_shift - 1 := by
      generalize 2 ^ sbi.clust_byte_shift = P at hpos hsize ⊢
      norm_num at hsize ⊢
      omega
    rw [e]
  have hmc : lstart >>> sbi.clust_shift = lstart / 2 ^ sbi.clust_shift :=
    Nat.shiftRight_eq_div_pow _ _
  unfold ntfs_next_extent
  simp only [htc, hmc]
  by_cases h : (ino.size + 2 ^ sbi.clust_byte_shift - 1) / 2 ^ sbi.clust_byte_shift ≤
      lstart / 2 ^ sbi.clust_shift
  · have h1 : lstart / 2 ^ sbi.clust_shift ≥
        (ino.size + 2 ^ sbi.clust_byte_shift - 1) / 2 ^ sbi.clust_byte_shift := h
    rw [if_pos h1]
    exact ⟨⟨fun _ => h, fun _ => rfl⟩, fun _ => rfl, Or.inl rfl⟩
  · have h1 : ¬ lstart / 2 ^ sbi.clust_shift ≥
        (ino.size + 2 ^ sbi.clust_byte_shift - 1) / 2 ^ sbi.clust_byte_shift := h
    rw [if_neg h1]
    exact ⟨⟨fun h0 => absurd (show (0 : Int) = -1 from h0) (by decide),
      fun h0 => absurd h0 h⟩, fun h0 => absurd (show (0 : Int) = -1 from h0) (by decide),
      Or.inr rfl⟩

/-- The amended C15 at the 17-byte inode, with `lstart = 8`, one cluster in. -/
theorem ntfs_next_extent_eof_iff_witness :
    (sbi4096.clust_byte_shift < 32 ∧
      inode17.size + 2 ^ sbi4096.clust_byte_shift ≤ 2 ^ 32) ∧
    (ntfs_next_extent fs512 sbi4096 inode17 8).1 = -1 ∧
    ((ntfs_next_extent fs512 sbi4096 inode17 8).1 = -1 ↔
      (inode17.size + 2 ^ sbi4096.clust_byte_shift - 1) / 2 ^ sbi4096.clust_byte_shift ≤
        8 / 2 ^ sbi4096.clust_shift) :=
  ⟨⟨by decide, by decide⟩, by decide,
   (ntfs_next_extent_eof_iff fs512 sbi4096 inode17 8 (by decide) (by decide)).1⟩

/-! ## Facts about `ntfs_fs_init` -/

theorem ilog2_aux_two_pow (fuel : Nat) : ∀ j, j ≤ fuel → ilog2_aux fuel (2 ^ j) = j := by
  induction fuel with
  | zero => intro j hj; simp [ilog2_aux]; omega
  | succ fuel ih =>
    intro j hj
    cases j with
    | zero => simp [ilog2_aux]
    | succ j =>
      have h2 : 2 ≤ 2 ^ (j + 1) := by
        calc 2 = 2 ^ 1 := by norm_num
          _ ≤ 2 ^ (j + 1) := Nat.pow_le_pow_right (by norm_num) (by omega)
      have hdiv : 2 ^ (j + 1) / 2 = 2 ^ j := by
        rw [pow_succ]; exact Nat.mul_div_cancel _ (by norm_num)
      rw [ilog2_aux, if_pos h2, hdiv, ih j (by omega)]

theorem ilog2_model_two_pow (j : Nat) (hj : j ≤ 7) : ilog2_model (2 ^ j) = j := by
  unfold ilog2_model
  have hlt : 2 ^ j < 2 ^ 32 := Nat.pow_lt_pow_right (by norm_num) (by omega)
  rw [Nat.mod_eq_of_lt hlt]
  exact ilog2_aux_two_pow 32 j (by omega)

theorem one_shl_pattern (n : Nat) (hn : n ≤ 31) : (1 <<< n) % 2 ^ 32 = 2 ^ n := by
  rw [Nat.shiftLeft_eq, Nat.one_mul]
  exact Nat.mod_eq_of_lt (Nat.pow_lt_pow_right (by norm_num) (by omega))

/-- What `ntfs_fs_init` computes on an accepted boot sector whose `sec_per_clust` is
`2 ^ j` and whose `clust_per_mft_record`, made non-negative and cut to a
`uint8_t`, is `c`. -/
theorem ntfs_fs_init_accepted (fs : FsInfo) (ss : Nat) (ntfs : ntfs_bpb) (j c : Nat)
    (hcheck : ntfs_check_sb_fields ntfs = true) (hspc : ntfs.sec_per_clust = 2 ^ j)
    (hj : j ≤ 7)
    (hc : (if ntfs.clust_per_mft_record < 0 then -ntfs.clust_per_mft_record
        else ntfs.clust_per_mft_record).toNat % 256 = c) :
    (ntfs_fs_init fs ss ntfs).ret = ((max (j + ss) c : Nat) : Int) ∧
    (ntfs_fs_init fs ss ntfs).fs.block_shift = max (j + ss) c ∧
    (ntfs_fs_init fs ss ntfs).fs.sector_shift = ss ∧
    (ntfs_fs_init fs ss ntfs).fs.block_size = (1 <<< max (j + ss) c) % 2 ^ 32 ∧
    (ntfs_fs_init fs ss ntfs).fs.sector_size = (1 <<< ss) % 2 ^ 32 ∧
    (ntfs_fs_init fs ss ntfs).cache_shift = some (max (j + ss) c) ∧
    ∃ sbi, (ntfs_fs_init fs ss ntfs).sbi = some sbi ∧
      sbi.clust_shift = j ∧
      sbi.mft_record_size = (1 <<< c) % 2 ^ 32 ∧
      sbi.mft_block = ((((ntfs.mft_lclust <<< j) % 2 ^ 64) <<< ss) % 2 ^ 64)
        >>> max (j + ss) c := by
  have hlog : ilog2_model ntfs.sec_per_clust = j := by
    rw [hspc]; exact ilog2_model_two_pow j hj
  have hne : ¬ (ntfs_check_sb_fields ntfs = false) := by simp [hcheck]
  have hmax : (if j + ss < c then c else j + ss) = max (j + ss) c := by
    split
    · rw [Nat.max_eq_right (by omega)]
    · rw [Nat.max_eq_left (by omega)]
  unfold ntfs_fs_init
  rw [if_neg hne]
  simp only [hlog, hc, hmax, true_and]
  exact ⟨_, rfl, rfl, rfl, rfl⟩

/-- C16.  For every boot sector that passes the sanity check, with
`sec_per_clust = 2 ^ j` and `clust_per_mft_record = -k` for `1 ≤ k ≤ 31`:
`ntfs_fs_init` returns the block shift `max (j + sector_shift) k`, hands it to
`cache_init`, and publishes a superblock with `mft_record_size = 2 ^ k` and
`mft_block = ((mft_lclust << j) << sector_shift) >> block_shift` (64-bit shifts).
The block size `2 ^ block_shift` is at least the MFT record size and a multiple
of the sector size `2 ^ sector_shift`; when the block shift is at most 31 these
are the values of the fields `block_size` and `sector_size`. -/
theorem ntfs_fs_init_negative_record_size (fs : FsInfo) (ss : Nat) (ntfs : ntfs_bpb)
    (j k : Nat) (hcheck : ntfs_check_sb_fields ntfs = true)
    (hspc : ntfs.sec_per_clust = 2 ^ j) (hj : j ≤ 7) (hk1 : 1 ≤ k) (hk31 : k ≤ 31)
    (hcpmr : ntfs.clust_per_mft_record = -(k : Int)) :
    (ntfs_fs_init fs ss ntfs).ret = ((max (j + ss) k : Nat) : Int) ∧
    (ntfs_fs_init fs ss ntfs).fs.block_shift = max (j + ss) k ∧
    (ntfs_fs_init fs ss ntfs).cache_shift = some (max (j + ss) k) ∧
    (∃ sbi, (ntfs_fs_init fs ss ntfs).sbi = some sbi ∧
      sbi.mft_record_size = 2 ^ k ∧
      sbi.mft_block = ((((ntfs.mft_lclust <<< j) % 2 ^ 64) <<< ss) % 2 ^ 64)
        >>> max (j + ss) k ∧
      sbi.mft_record_size ≤ 2 ^ (ntfs_fs_init fs ss ntfs).fs.block_shift) ∧
    2 ^ ss ∣ 2 ^ (ntfs_fs_init fs ss ntfs).fs.block_shift ∧
    (max (j + ss) k ≤ 31 →
      (ntfs_fs_init fs ss ntfs).fs.block_size =
        2 ^ (ntfs_fs_init fs ss ntfs).fs.block_shift ∧
      (ntfs_fs_init fs ss ntfs).fs.sector_size = 2 ^ ss) := by
  have hc : (if ntfs.clust_per_mft_record < 0 then -ntfs.clust_per_mft_record
      else ntfs.clust_per_mft_record).toNat % 256 = k := by
    have hneg : ntfs.clust_per_mft_record < 0 := by rw [hcpmr]; omega
    rw [if_pos hneg, hcpmr, neg_neg, Int.toNat_natCast]
    exact Nat.mod_eq_of_lt (by omega)
  obtain ⟨h1, h2, _, h4, h5, h6, sbi, hs, _, hrs, hmb⟩ :=
    ntfs_fs_init_accepted fs ss ntfs j k hcheck hspc hj hc
  have hrs2 : sbi.mft_record_size = 2 ^ k := by rw [hrs]; exact one_shl_pattern k hk31
  refine ⟨h1, h2, h6, ⟨sbi, hs, hrs2, hmb, ?_⟩, ?_, ?_⟩
  · rw [hrs2, h2]
    exact Nat.pow_le_pow_right (by norm_num) (Nat.le_max_right _ _)
  · rw [h2]
    exact pow_dvd_pow 2 (le_trans (Nat.le_add_left ss j) (Nat.le_max_left _ _))
  · intro hle
    rw [h4, h5, h2]
    exact ⟨one_shl_pattern _ hle,
      one_shl_pattern ss (le_trans (le_trans (Nat.le_add_left ss j) (Nat.le_max_left _ _)) hle)⟩

/-- C16 at example E1 of the specification: `sec_per_clust = 8`, 512-byte sectors and
`clust_per_mft_record = -10` give block shift 12 and 1024-byte MFT records. -/
theorem ntfs_fs_init_negative_record_size_witness :
    (ntfs_check_sb_fields (bootSector 8 (-10)) = true ∧
      (bootSector 8 (-10)).sec_per_clust = 2 ^ 3 ∧ 3 ≤ 7 ∧ 1 ≤ 10 ∧ 10 ≤ 31 ∧
      (bootSector 8 (-10)).clust_per_mft_record = -((10 : Nat) : Int)) ∧
    (ntfs_fs_init fs0 9 (bootSector 8 (-10))).ret = 12 ∧
    (ntfs_fs_init fs0 9 (bootSector 8 (-10))).sbi.map (fun s => s.mft_record_size)
      = some 1024 ∧
    (ntfs_fs_init fs0 9 (bootSector 8 (-10))).ret = ((max (3 + 9) 10 : Nat) : Int) :=
  ⟨⟨by decide, by decide, by decide, by decide, by decide, by decide⟩, by decide,
   by decide,
   (ntfs_fs_init_negative_record_size fs0 9 (bootSector 8 (-10)) 3 10 (by decide)
    (by decide) (by decide) (by decide) (by decide) (by decide)).1⟩

/-- C17 (the code departs from the claim).  The boot sector `bootSector 1 2` is
accepted and has `sec_per_clust = 1` and `clust_per_mft_record = 2`; with 512-byte
sectors an MFT record of 2 clusters has `2 * 1 * 512 = 1024` bytes, but
`ntfs_fs_init` sets `mft_record_size = 4` (it shifts 1 left by the value) and
returns the block shift 9, below `log2 1024 = 10`. -/
theorem ntfs_fs_init_positive_record_size :
    ntfs_check_sb_fields (bootSector 1 2) = true ∧
    (bootSector 1 2).clust_per_mft_record = 2 ∧
    (bootSector 1 2).sec_per_clust = 1 ∧
    (ntfs_fs_init fs0 9 (bootSector 1 2)).fs.sector_size = 512 ∧
    (ntfs_fs_init fs0 9 (bootSector 1 2)).sbi.map (fun s => s.mft_record_size) = some 4 ∧
    (ntfs_fs_init fs0 9 (bootSector 1 2)).ret = 9 ∧
    2 * 1 * 512 = 1024 := by
  decide

/-- C18.  `ntfs_fs_init` returns -1 if and only if the reserved-sector count or one
of the zero fields of the boot sector is not zero, or its OEM identifier is none
of `"NTFS    "`, `"MSWIN4.0"`, `"MSWIN4.1"`.  When it returns -1 it leaves the
geometry of `fs` as it was, publishes no superblock and does not call
`cache_init`; every other boot sector is accepted: the block shift is returned,
a superblock is published and the cache is initialised with the block shift. -/
theorem ntfs_fs_init_fails_iff (fs : FsInfo) (ss : Nat) (ntfs : ntfs_bpb) :
    ((ntfs_fs_init fs ss ntfs).ret = -1 ↔
      (ntfs.res_sectors ≠ 0 ∨ ntfs.zero_0.getD 0 0 ≠ 0 ∨ ntfs.zero_0.getD 1 0 ≠ 0 ∨
        ntfs.zero_0.getD 2 0 ≠ 0 ∨ ntfs.zero_1 ≠ 0 ∨ ntfs.zero_2 ≠ 0 ∨ ntfs.zero_3 ≠ 0 ∨
        (ntfs.oem_name.take 8 ≠ oem_NTFS ∧ ntfs.oem_name.take 8 ≠ oem_MSWIN40 ∧
          ntfs.oem_name.take 8 ≠ oem_MSWIN41))) ∧
    ((ntfs_fs_init fs ss ntfs).ret = -1 →
      (ntfs_fs_init fs ss ntfs).fs = fs ∧ (ntfs_fs_init fs ss ntfs).sbi = none ∧
      (ntfs_fs_init fs ss ntfs).cache_shift = none) ∧
    ((ntfs_fs_init fs ss ntfs).ret ≠ -1 →
      (ntfs_fs_init fs ss ntfs).ret = ((ntfs_fs_init fs ss ntfs).fs.block_shift : Int) ∧
      (ntfs_fs_init fs ss ntfs).sbi ≠ none ∧
      (ntfs_fs_init fs ss ntfs).cache_shift =
        some (ntfs_fs_init fs ss ntfs).fs.block_shift) := by
  have hcheck : ntfs_check_sb_fields ntfs = false ↔
      (ntfs.res_sectors ≠ 0 ∨ ntfs.zero_0.getD 0 0 ≠ 0 ∨ ntfs.zero_0.getD 1 0 ≠ 0 ∨
        ntfs.zero_0.getD 2 0 ≠ 0 ∨ ntfs.zero_1 ≠ 0 ∨ ntfs.zero_2 ≠ 0 ∨ ntfs.zero_3 ≠ 0 ∨
        (ntfs.oem_name.take 8 ≠ oem_NTFS ∧ ntfs.oem_name.take 8 ≠ oem_MSWIN40 ∧
          ntfs.oem_name.take 8 ≠ oem_MSWIN41)) := by
    unfold ntfs_check_sb_fields ntfs_check_zero_fields
    simp only [Bool.and_eq_false_iff, decide_eq_false_iff_not, Bool.or_eq_false_iff]
    tauto
  by_cases hc : ntfs_check_sb_fields ntfs = false
  · have hr : ntfs_fs_init fs ss ntfs =
        { ret := -1, fs := fs, sbi := none, cache_shift := none } := by
      unfold ntfs_fs_init; rw [if_pos hc]
    rw [hr]
    exact ⟨⟨fun _ => hcheck.mp hc, fun _ => rfl⟩, fun _ => ⟨rfl, rfl, rfl⟩,
      fun h => absurd rfl h⟩
  · have hnn : ∀ n : Nat, (n : Int) ≠ -1 := fun n => by omega
    have hret : (ntfs_fs_init fs ss ntfs).ret =
        ((ntfs_fs_init fs ss ntfs).fs.block_shift : Int) := by
      unfold ntfs_fs_init; rw [if_neg hc]
    have hsbi : (ntfs_fs_init fs ss ntfs).sbi ≠ none := by
      unfold ntfs_fs_init; rw [if_neg hc]; simp
    have hcache : (ntfs_fs_init fs ss ntfs).cache_shift =
        some (ntfs_fs_init fs ss ntfs).fs.block_shift := by
      unfold ntfs_fs_init; rw [if_neg hc]
    have hne : (ntfs_fs_init fs ss ntfs).ret ≠ -1 := by rw [hret]; exact hnn _
    exact ⟨⟨fun h => absurd h hne, fun h => absurd (hcheck.mpr h) hc⟩,
      fun h => absurd h hne, fun _ => ⟨hret, hsbi, hcache⟩⟩

/-! ## Facts about the index descent -/

/-- C20 (the code departs from the claim).  The runlists `21 18 34 56 00` and
`21 18 00 10 00` decode to one allocated chunk each, at the LCNs `0x5634` and
`0x1000`.  With 8 sectors of 512 bytes per cluster and blocks of 4096 bytes the
formula gives the blocks `0x5634` and `0x1000` for VCN 0, but the descent fetches
the block `0x24de8` for both chunks: it overwrites `cur_lcn` with the constant
`0x24de8` before it computes the block. -/
theorem index_lookup_descent_ignores_decoded_lcn :
    decode_runlist 5 (memOfList 4096 runlistE2) 4096 4101 0 =
      [{ cur_vcn := 0, vcn_len := 1, next_vcn := 0x18, lcn_len := 2, cur_lcn := 0x5634,
         flags := MAP_START ||| MAP_ALLOCATED }] ∧
    decode_runlist 5 (memOfList 4096 runlistLcn1000) 4096 4101 0 =
      [{ cur_vcn := 0, vcn_len := 1, next_vcn := 0x18, lcn_len := 2, cur_lcn := 0x1000,
         flags := MAP_START ||| MAP_ALLOCATED }] ∧
    index_block fs512 sbi4096 0x5634 0 = 0x5634 ∧
    index_block fs512 sbi4096 0x1000 0 = 0x1000 ∧
    (decode_runlist 5 (memOfList 4096 runlistE2) 4096 4101 0).map
      (descend_chunk fs512 sbi4096) = [[0x24de8]] ∧
    (decode_runlist 5 (memOfList 4096 runlistLcn1000) 4096 4101 0).map
      (descend_chunk fs512 sbi4096) = [[0x24de8]] := by
  decide

/-- C21 (the code departs from the claim).  The runlist `21 18 34 56 00` decodes to
the allocated chunk `[0, 0x18)` of 24 VCNs, for which the descent fetches one
block only; the runlist `22 01 00 34 56 00` decodes to the allocated chunk
`[0, 1)` of one VCN, for which the descent fetches two blocks.  The number of
rounds of the fetch loop is `chunk.vcn_len`, the number of bytes of the length
field (1 and 2 here), not `next_vcn - cur_vcn`. -/
theorem index_lookup_descent_counts_length_bytes :
    decode_runlist 5 (memOfList 4096 runlistE2) 4096 4101 0 =
      [{ cur_vcn := 0, vcn_len := 1, next_vcn := 0x18, lcn_len := 2, cur_lcn := 0x5634,
         flags := MAP_START ||| MAP_ALLOCATED }] ∧
    (decode_runlist 5 (memOfList 4096 runlistE2) 4096 4101 0).map
      (fun c => (c.next_vcn - c.cur_vcn, (descend_chunk fs512 sbi4096 c).length))
      = [(24, 1)] ∧
    decode_runlist 5 (memOfList 4096 runlistWide) 4096 4102 0 =
      [{ cur_vcn := 0, vcn_len := 2, next_vcn := 1, lcn_len := 2, cur_lcn := 0x5634,
         flags := MAP_START ||| MAP_ALLOCATED }] ∧
    (decode_runlist 5 (memOfList 4096 runlistWide) 4096 4102 0).map
      (fun c => (c.next_vcn - c.cur_vcn, (descend_chunk fs512 sbi4096 c).length))
      = [(1, 2)] := by
  decide

/-- C25 (the code departs from the claim).  On the runlist `21 18 34 56 01 85 00` the
second step reads a header with `v = 1` and `l = 0` whose length byte `0x85` has
bit 7 set; it is entered with `cur_lcn = 0x5634` and leaves `cur_lcn = 0x5633`. -/
theorem parse_data_run_zero_width_moves_cur_lcn :
    (parse_data_run (memOfList 4096 runlistHole85) 4096 0 4103 (seed_chunk 0)).offset = 4 ∧
    (parse_data_run (memOfList 4096 runlistHole85) 4096 0 4103 (seed_chunk 0)).chunk.cur_lcn
      = 0x5634 ∧
    run_v (memOfList 4096 runlistHole85) 4096 4 = 1 ∧
    run_l (memOfList 4096 runlistHole85) 4096 4 = 0 ∧
    (parse_data_run (memOfList 4096 runlistHole85) 4096 4 4103
      (parse_data_run (memOfList 4096 runlistHole85) 4096 0 4103 (seed_chunk 0)).chunk).ret
      = 0 ∧
    (parse_data_run (memOfList 4096 runlistHole85) 4096 4 4103
      (parse_data_run (memOfList 4096 runlistHole85) 4096 0 4103
        (seed_chunk 0)).chunk).chunk.cur_lcn = 0x5633 := by
  decide

/-! ## Walks that do not check their advance -/

/-- The attribute walk never returns when it stands on an attribute that is neither
the sentinel nor of the requested type and whose `len` is 0. -/
theorem attr_walk_stuck (m : Mem) (type attr : Nat)
    (hend : ATTR_RECORD_type m attr ≠ NTFS_AT_END) (htype : ATTR_RECORD_type m attr ≠ type)
    (hlen : ATTR_RECORD_len m attr = 0) : ∀ fuel, attr_walk m type fuel attr = none := by
  intro fuel
  induction fuel with
  | zero => rfl
  | succ fuel ih => rw [attr_walk, if_neg hend, if_neg htype, hlen, Nat.add_zero, ih]

set_option maxRecDepth 100000 in
/-- C24 (the code departs from the claim).  In `zeroLenAttrRecord` the first attribute
has type `0x10` and `len = 0`: the lookup of type `0x30` returns for no amount of
fuel, that is, the walk never ends.  In `overlongAttrRecord` the first attribute
has `len = 0x1000` while the record has 1024 allocated bytes: the lookup follows
the length and returns the attribute it finds `0x1038` bytes after the start of
the record, beyond its allocated bytes. -/
theorem attr_lookup_does_not_check_len (fuel : Nat) :
    ATTR_RECORD_type (memOfList 4096 zeroLenAttrRecord) (4096 + 0x38) = 0x10 ∧
    ATTR_RECORD_len (memOfList 4096 zeroLenAttrRecord) (4096 + 0x38) = 0 ∧
    attr_lookup fuel (memOfList 4096 zeroLenAttrRecord) NTFS_AT_FILENAME (some 4096)
      = none ∧
    MFT_RECORD_bytes_allocated (memOfList 4096 overlongAttrRecord) 4096 = 0x400 ∧
    ATTR_RECORD_len (memOfList 4096 overlongAttrRecord) (4096 + 0x38) = 0x1000 ∧
    attr_lookup 3 (memOfList 4096 overlongAttrRecord) NTFS_AT_FILENAME (some 4096)
      = some (some (4096 + 0x1038)) := by
  refine ⟨by decide, by decide, ?_, by decide, by decide, by decide⟩
  have hoff : MFT_RECORD_attrs_offset (memOfList 4096 zeroLenAttrRecord) 4096 = 0x38 := by
    decide
  have hne : NTFS_AT_FILENAME ≠ NTFS_AT_END := by decide
  simp only [attr_lookup, if_neg hne, hoff]
  exact attr_walk_stuck _ _ _ (by decide) (by decide) (by decide) fuel

/-- The entry walk never returns when it stands on an entry that passes the bounds
checks, has no `END` flag, does not match, and whose `len` is 0. -/
theorem index_walk_stuck (m : Mem) (matcher : Nat → Bool) (lower index ie : Nat)
    (hbounds : ¬ (ie < lower ∨
        ie + sizeof_INDEX_ENTRY_HEADER > index + INDEX_HEADER_index_len m index ∨
        ie + INDEX_ENTRY_len m ie > index + INDEX_HEADER_index_len m index))
    (hflags : ¬ (INDEX_ENTRY_flags m ie &&& INDEX_ENTRY_END ≠ 0))
    (hmatch : ¬ (matcher (INDEX_ENTRY_indexed_file m ie % 2 ^ 32) = true))
    (hlen : INDEX_ENTRY_len m ie = 0) :
    ∀ fuel, index_walk m matcher lower index fuel ie = none := by
  intro fuel
  induction fuel with
  | zero => rfl
  | succ fuel ih =>
    rw [index_walk, if_neg hbounds, if_neg hflags, if_neg hmatch, hlen, Nat.add_zero, ih]

set_option maxRecDepth 100000 in
/-- C22 (the code departs from the claim).  In `zeroLenDirRecord` the index root
(found at `4246`, its index header at `4286`, `index_len = 0x74`) starts its entry
list with an entry for the file 40 that lies within `index_len`, has no `END`
flag and has `len = 0`.  With a name that matches no entry, the walk from that
entry returns for no amount of fuel: the entry position never increases and no
corrupt-index failure is reported. -/
theorem index_walk_does_not_reject_zero_len (fuel : Nat) :
    attr_lookup 3 (memOfList 4096 zeroLenDirRecord) NTFS_AT_INDEX_ROOT (some 4096)
      = some (some 4246) ∧
    INDEX_ROOT_index (4246 + ATTR_RECORD_value_offset (memOfList 4096 zeroLenDirRecord) 4246)
      = 4286 ∧
    4286 + INDEX_HEADER_entries_offset (memOfList 4096 zeroLenDirRecord) 4286 = 4302 ∧
    INDEX_HEADER_index_len (memOfList 4096 zeroLenDirRecord) 4286 = 0x74 ∧
    INDEX_ENTRY_len (memOfList 4096 zeroLenDirRecord) 4302 = 0 ∧
    INDEX_ENTRY_flags (memOfList 4096 zeroLenDirRecord) 4302 = 0 ∧
    INDEX_ENTRY_indexed_file (memOfList 4096 zeroLenDirRecord) 4302 = 40 ∧
    index_walk (memOfList 4096 zeroLenDirRecord) (fun _ => false) 4096 4286 fuel 4302
      = none := by
  refine ⟨by decide, by decide, by decide, by decide, by decide, by decide, by decide, ?_⟩
  exact index_walk_stuck _ _ _ _ _ (by decide) (by decide) (by decide) (by decide) fuel

/-- The loop of `mft_record_lookup` never returns from a state in which the fixups
leave the memory as it is, the record at `offset` is not the requested one, its
`bytes_allocated` is 0 and `offset` is below the block size. -/
theorem mft_loop_stuck (fixfuel : Nat) (fs : FsInfo) (sbi : ntfs_sb_info)
    (get_cache : Nat → Option Nat) (data file : Nat) (st : MftState)
    (hfix : fixups_copyback fixfuel fs st.mem (data + st.offset) data sbi.mft_record_size
      = some (0, st.mem))
    (hno : MFT_RECORD_mft_record_no st.mem (data + st.offset) ≠ file)
    (hzero : MFT_RECORD_bytes_allocated st.mem (data + st.offset) = 0)
    (hlt : ¬ (st.offset ≥ fs.block_size)) :
    ∀ fuel, mft_loop fixfuel fs sbi get_cache data file fuel st = none := by
  intro fuel
  induction fuel with
  | zero => rfl
  | succ fuel ih =>
    rw [mft_loop, hfix]
    simp only [ne_eq, not_true_eq_false, if_false, if_neg hno, hzero, Nat.add_zero,
      if_neg hlt]
    exact ih

set_option maxRecDepth 100000 in
/-- C23 (the code departs from the claim).  Block 0 of the MFT starts with the record
number 5, and record number 7 is asked for.  When `bytes_allocated` of record 5
is 0, the lookup returns for no amount of fuel: it examines the same record
again and again.  When `bytes_allocated` is `0xC00`, three times the block size,
the lookup moves to the next block with the offset `0x800`, outside the staging
buffer of `0x400` bytes, and returns that offset because the memory found there
holds the requested number. -/
theorem mft_record_lookup_does_not_check_advance (fuel : Nat) :
    MFT_RECORD_mft_record_no (lookupMem 0) 16384 = 5 ∧
    MFT_RECORD_bytes_allocated (lookupMem 0) 16384 = 0 ∧
    mft_record_lookup fuel 5 fs1024 sbi1024 twoBlockCache (lookupMem 0) 8192 7 0 = none ∧
    MFT_RECORD_bytes_allocated (lookupMem 0xC00) 16384 = 0xC00 ∧
    (mft_record_lookup 5 5 fs1024 sbi1024 twoBlockCache (lookupMem 0xC00) 8192 7 0).map
      (fun r => (r.1, r.2.block)) = some (0x800, 1) ∧
    fs1024.block_size = 0x400 := by
  refine ⟨by decide, by decide, ?_, by decide, by decide, by decide⟩
  have hfetch : mft_fetch fs1024 sbi1024 twoBlockCache 8192
      { mem := lookupMem 0, offset := 0, block := 0 } =
      some { mem := memmove (lookupMem 0) 8192 16384 1024, offset := 0, block := 0 } := by
    rfl
  rw [mft_record_lookup, hfetch]
  exact mft_loop_stuck 5 fs1024 sbi1024 twoBlockCache 8192 7
    { mem := memmove (lookupMem 0) 8192 16384 1024, offset := 0, block := 0 }
    (by rfl) (by decide) (by decide) (by decide) fuel


/-! ## `index_inode_setup` -/

set_option maxRecDepth 100000 in
/-- C26, the claim as stated fails.  On a volume with 512-byte clusters read with
1024-byte blocks (the geometry that `ntfs_fs_init` computes for one sector per
cluster and 1 KiB MFT records), the directory `dirRecord` with an index block
size of 4096 gets `vcn_size = 512`, the cluster size, which is the smaller of
cluster size and block size. -/
theorem index_inode_setup_vcn_size_is_not_the_larger :
    (index_inode_setup 10 5 fs1024 sbi1024 oneBlockCache (memOfList 16384 dirRecord)
        8192 5 inode0).map (fun r => (r.1, r.2.mode, r.2.block_size, r.2.vcn_size)) =
      some (0, dirent_type.DT_DIR, 4096, 512) ∧
    sbi1024.clust_size = 512 ∧ fs1024.block_size = 1024 ∧
    max sbi1024.clust_size fs1024.block_size = 1024 ∧
    (ntfs_fs_init fs0 9 (bootSector 1 (-10))).fs.block_size = fs1024.block_size ∧
    (ntfs_fs_init fs0 9 (bootSector 1 (-10))).sbi.map (fun s => s.clust_size) =
      some sbi1024.clust_size := by
  decide

/-- C26 (amended).  When `index_inode_setup` returns 0 and leaves a directory inode,
`vcn_size` is the cluster size of the volume if the cluster size is at most the
index block size recorded in the inode, and the block size of the reader
otherwise; in the latter case `vcn_size_shift` is the block shift of the
reader, so that `vcn_size = 2 ^ vcn_size_shift` when the block size is
`2 ^ block_shift`. -/
theorem index_inode_setup_vcn_size (fuel fixfuel : Nat) (fs : FsInfo) (sbi : ntfs_sb_info)
    (get_cache : Nat → Option Nat) (m : Mem) (data mft_no : Nat) (ino ino' : ntfs_inode)
    (h : index_inode_setup fuel fixfuel fs sbi get_cache m data mft_no ino = some (0, ino'))
    (hdir : ino'.mode = dirent_type.DT_DIR) :
    (sbi.clust_size ≤ ino'.block_size → ino'.vcn_size = sbi.clust_size) ∧
    (ino'.block_size < sbi.clust_size →
      ino'.vcn_size = fs.block_size ∧ ino'.vcn_size_shift = fs.block_shift ∧
      (fs.block_size = 2 ^ fs.block_shift → ino'.vcn_size = 2 ^ ino'.vcn_size_shift)) := by
  unfold index_inode_setup at h
  repeat' (first | split at h | (dsimp only at h; split at h))
  all_goals first
    | (exfalso; simp at h; done)
    | skip
  all_goals (simp only [Option.some.injEq, Prod.mk.injEq, true_and] at h; subst h;
             dsimp only at hdir ⊢)
  all_goals first
    | contradiction
    | (refine ⟨fun hle => ?_, fun hlt => ?_⟩
       · first | rfl | (exfalso; omega)
       · first | exact ⟨rfl, rfl, fun hp => hp⟩ | (exfalso; omega))

set_option maxRecDepth 100000 in
/-- The amended C26 at the directory `dirRecord` on a volume with 8192-byte clusters
read with 8192-byte blocks: the index block size 4096 is below the cluster size,
and `vcn_size` is the block size `8192 = 2 ^ 13`. -/
theorem index_inode_setup_vcn_size_witness :
    index_inode_setup 10 5 fs8192 sbi8192 oneBlockCache (memOfList 16384 dirRecord)
        8192 5 inode0 = some (0, dirInode8192) ∧
    dirInode8192.mode = dirent_type.DT_DIR ∧
    dirInode8192.block_size < sbi8192.clust_size ∧
    fs8192.block_size = 2 ^ fs8192.block_shift ∧
    ((sbi8192.clust_size ≤ dirInode8192.block_size →
        dirInode8192.vcn_size = sbi8192.clust_size) ∧
      (dirInode8192.block_size < sbi8192.clust_size →
        dirInode8192.vcn_size = fs8192.block_size ∧
        dirInode8192.vcn_size_shift = fs8192.block_shift ∧
        (fs8192.block_size = 2 ^ fs8192.block_shift →
          dirInode8192.vcn_size = 2 ^ dirInode8192.vcn_size_shift))) :=
  ⟨by decide, by decide, by decide, by decide,
    index_inode_setup_vcn_size 10 5 fs8192 sbi8192 oneBlockCache
      (memOfList 16384 dirRecord) 8192 5 inode0 dirInode8192 (by decide) (by decide)⟩

end NTFS

namespace ADV

open NTFS

/-! ## Facts about `syslinux_setadv` -/

set_option maxRecDepth 1000000 in
/-- C19 (the code departs from the claim).  After a reset and the calls
`syslinux_setadv(1, 248, a)` and `syslinux_setadv(2, 248, b)`, both of which
return 0, the data area is a well-formed tag list of two items that fills the
area to its end.  The call `syslinux_setadv(1, 0, NULL)` then returns 0 and
leaves a tag list with two items of tag 2: the item of tag 1 is gone, but the
item of tag 2, present once before the call, is present twice after it. -/
theorem syslinux_setadv_duplicates_last_item :
    fillTwoItems.map (fun r => (r.1, adv_list r.2 4096)) =
      some (0, [(1, List.replicate 248 0xAA), (2, List.replicate 248 0xBB)]) ∧
    2 + 248 + (2 + 248) = ADV_LEN ∧
    (fillTwoItems.bind (fun r => syslinux_setadv 10 r.2 4096 8192 1 0 0)).map
        (fun r => (r.1, adv_list r.2 4096)) =
      some (0, [(2, List.replicate 248 0xBB), (2, List.replicate 248 0xBB)]) := by
  decide


/-! ## Termination of the scan loop -/

/-- The scan loop never ends from a state whose current item carries the tag, is
shorter than the remaining area, and whose deletion leaves the memory as it
is. -/
theorem setadv_scan_stuck (tag : Int) (st : ScanState) (hleft : st.left ≥ 2)
    (hend : rd8 st.mem st.p ≠ ADV_END) (htag : (rd8 st.mem st.p : Int) = tag)
    (hlen : ¬ (rd8 st.mem (st.p + 1) + 2 ≥ st.left))
    (hsame : memmove st.mem st.p (st.p + (rd8 st.mem (st.p + 1) + 2))
      (st.left - (rd8 st.mem (st.p + 1) + 2)) = st.mem) :
    ∀ fuel, setadv_scan tag fuel st = none := by
  intro fuel
  induction fuel with
  | zero => rfl
  | succ fuel ih =>
    rw [setadv_scan]
    simp only [if_pos hleft, if_neg hend, if_pos htag, if_neg hlen, hsame]
    exact ih

/-- Deleting the first item of the working copy of `zeroLenItems` leaves the working
copy as it is. -/
theorem zeroLenItems_delete (a : Nat) :
    memmove (memmove zeroLenItems 8192 4104 500) 8192 8194 498 a =
      memmove zeroLenItems 8192 4104 500 a := by
  simp only [memmove, zeroLenItems]
  split_ifs <;> first | rfl | omega

set_option maxRecDepth 20000 in
/-- C27 (the code departs from the claim).  The data area of the auxiliary data
vector holds 250 items of tag 5 and length 0.  Then `syslinux_setadv(5, 0, NULL)`
returns for no amount of fuel: each round of the scan loop deletes the first
item by moving the 498 bytes behind it two bytes down, which leaves the 500 bytes
and the remaining length as they were. -/
theorem syslinux_setadv_scan_does_not_terminate (fuel : Nat) :
    (adv_list zeroLenItems 4096).length = 250 ∧
    (∀ it ∈ adv_list zeroLenItems 4096, it = (5, [])) ∧
    syslinux_setadv fuel zeroLenItems 4096 8192 5 0 0 = none := by
  refine ⟨by decide, by decide, ?_⟩
  have h0 : rd8 (memmove zeroLenItems 8192 (4096 + 2 * 4) ADV_LEN) 8192 = 5 := by decide
  have h1 : rd8 (memmove zeroLenItems 8192 (4096 + 2 * 4) ADV_LEN) (8192 + 1) = 0 := by
    decide
  have hscan : setadv_scan 5 fuel
      { mem := memmove zeroLenItems 8192 (4096 + 2 * 4) ADV_LEN, p := 8192,
        left := ADV_LEN } = none := by
    apply setadv_scan_stuck
    · decide
    · show rd8 _ 8192 ≠ ADV_END
      rw [h0]; decide
    · show ((rd8 _ 8192 : Nat) : Int) = 5
      rw [h0]; rfl
    · show ¬ (rd8 _ (8192 + 1) + 2 ≥ ADV_LEN)
      rw [h1]; decide
    · show memmove _ 8192 (8192 + (rd8 _ (8192 + 1) + 2)) (ADV_LEN - (rd8 _ (8192 + 1) + 2))
        = _
      rw [h1]
      funext a
      exact zeroLenItems_delete a
  rw [syslinux_setadv, if_neg (by decide), if_neg (by decide)]
  simp only [hscan]


/-! ## Consistency of the two copies -/

/-- A byte read after a byte store. -/
theorem rd8_wr8 (m : Mem) (a v x : Nat) :
    rd8 (wr8 m a v) x = if x = a then v % 256 else rd8 m x := by
  unfold rd8 wr8
  split_ifs
  · exact Nat.mod_mod _ _
  · rfl

/-- A byte read after `set_32`. -/
theorem rd8_set_32 (m : Mem) (p v x : Nat) :
    rd8 (set_32 m p v) x =
      if x = p then v % 256
      else if x = p + 1 then v / 256 % 256
      else if x = p + 2 then v / 65536 % 256
      else if x = p + 3 then v / 65536 / 256 % 256
      else rd8 m x := by
  unfold set_32 wr16
  simp only [rd8_wr8]
  split_ifs <;> first | rfl | omega

/-- A byte read after `memcpy`. -/
theorem rd8_memmove (m : Mem) (d s n x : Nat) :
    rd8 (memmove m d s n) x = if d ≤ x ∧ x < d + n then rd8 m (s + (x - d)) else rd8 m x := by
  unfold rd8 memmove
  split_ifs <;> rfl

/-- A word is determined by its four bytes. -/
theorem get_32_congr (m m' : Mem) (a b : Nat)
    (h : ∀ k, k < 4 → rd8 m (a + k) = rd8 m' (b + k)) : get_32 m a = get_32 m' b := by
  have h0 := h 0 (by norm_num)
  have h1 := h 1 (by norm_num)
  have h2 := h 2 (by norm_num)
  have h3 := h 3 (by norm_num)
  simp only [Nat.add_zero] at h0
  unfold get_32 rd32 rd16
  rw [h0, h1, h2, show a + 2 + 1 = a + 3 from rfl, show b + 2 + 1 = b + 3 from rfl, h3]

/-- The word read back after `set_32` is the value stored, as a `uint32_t`. -/
theorem get_32_set_32 (m : Mem) (p v : Nat) : get_32 (set_32 m p v) p = v % 2 ^ 32 := by
  unfold get_32 rd32 rd16
  simp only [rd8_set_32]
  have e1 : ¬ (p + 1 = p) := by omega
  have e2 : ¬ (p + 2 = p) := by omega
  have e3 : ¬ (p + 2 = p + 1) := by omega
  have e4 : ¬ (p + 2 + 1 = p) := by omega
  have e5 : ¬ (p + 2 + 1 = p + 1) := by omega
  have e6 : ¬ (p + 2 + 1 = p + 2) := by omega
  have e7 : p + 2 + 1 = p + 3 := rfl
  simp only [if_true, if_neg e1, if_neg e2, if_neg e3, if_neg e4, if_neg e5, if_neg e6,
    if_pos e7]
  norm_num
  omega

/-- A word away from the word stored by `set_32` is unchanged. -/
theorem get_32_set_32_other (m : Mem) (p v a : Nat) (h : a + 4 ≤ p ∨ p + 4 ≤ a) :
    get_32 (set_32 m p v) a = get_32 m a := by
  apply get_32_congr
  intro k hk
  rw [rd8_set_32]
  split_ifs <;> first | rfl | omega

/-- The sum of words is determined by the bytes it covers. -/
theorem word_sum_congr (m m' : Mem) (n : Nat) :
    ∀ q q', (∀ k, k < 4 * n → rd8 m (q + k) = rd8 m' (q' + k)) →
      word_sum m q n = word_sum m' q' n := by
  induction n with
  | zero => intro q q' _; rfl
  | succ n ih =>
    intro q q' h
    rw [word_sum, word_sum]
    congr 1
    · exact get_32_congr m m' q q' (fun k hk => h k (by omega))
    · apply ih
      intro k hk
      have := h (4 + k) (by omega)
      rw [show q + 4 + k = q + (4 + k) by omega, show q' + 4 + k = q' + (4 + k) by omega]
      exact this

/-- The loop of `adv_consistent` adds up the words that are left. -/
theorem consistent_csum_eq (m : Mem) (p : Nat) (fuel : Nat) :
    ∀ i c n, i + 4 * n = 508 → n ≤ fuel → c < 2 ^ 32 →
      consistent_csum m p fuel i c = (c + word_sum m (p + i) n) % 2 ^ 32 := by
  induction fuel with
  | zero =>
    intro i c n hi hn hc
    have : n = 0 := by omega
    subst this
    simp only [consistent_csum, word_sum, Nat.add_zero]
    exact (Nat.mod_eq_of_lt hc).symm
  | succ fuel ih =>
    intro i c n hi hn hc
    cases n with
    | zero =>
      have hi' : ¬ (i < ADV_SIZE - 4) := by simp only [ADV_SIZE]; omega
      rw [consistent_csum, if_neg hi']
      simp only [word_sum, Nat.add_zero]
      exact (Nat.mod_eq_of_lt hc).symm
    | succ n =>
      have hi' : i < ADV_SIZE - 4 := by simp only [ADV_SIZE]; omega
      rw [consistent_csum, if_pos hi',
        ih (i + 4) _ n (by omega) (by omega) (Nat.mod_lt _ (by norm_num)), word_sum,
        show p + (i + 4) = p + i + 4 by omega, Nat.mod_add_mod, Nat.add_assoc]

/-- The loop of `cleanup_adv` leaves a checksum below `2 ^ 32`. -/
theorem cleanup_csum_lt (m : Mem) (p : Nat) (fuel : Nat) :
    ∀ i c, c < 2 ^ 32 → cleanup_csum m p fuel i c < 2 ^ 32 := by
  induction fuel with
  | zero => intro i c hc; exact hc
  | succ fuel ih =>
    intro i c hc
    rw [cleanup_csum]
    split_ifs
    · exact ih _ _ (Nat.mod_lt _ (by norm_num))
    · exact hc

/-- The loop of `cleanup_adv` subtracts the words that are left: adding them back gives
the checksum it started from. -/
theorem cleanup_csum_add (m : Mem) (p : Nat) (fuel : Nat) :
    ∀ i c n, i + 4 * n = 508 → n ≤ fuel → c < 2 ^ 32 →
      (cleanup_csum m p fuel i c + word_sum m (p + i) n) % 2 ^ 32 = c := by
  induction fuel with
  | zero =>
    intro i c n hi hn hc
    have : n = 0 := by omega
    subst this
    simp only [cleanup_csum, word_sum, Nat.add_zero]
    exact Nat.mod_eq_of_lt hc
  | succ fuel ih =>
    intro i c n hi hn hc
    cases n with
    | zero =>
      have hi' : ¬ (i < ADV_SIZE - 4) := by simp only [ADV_SIZE]; omega
      rw [cleanup_csum, if_neg hi']
      simp only [word_sum, Nat.add_zero]
      exact Nat.mod_eq_of_lt hc
    | succ n =>
      have hi' : i < ADV_SIZE - 4 := by simp only [ADV_SIZE]; omega
      have hw : get_32 m (p + i) < 2 ^ 32 := rd32_lt m (p + i)
      have h := ih (i + 4) ((c + (2 ^ 32 - get_32 m (p + i))) % 2 ^ 32) n (by omega)
        (by omega) (Nat.mod_lt _ (by norm_num))
      rw [cleanup_csum, if_pos hi', word_sum]
      rw [show p + (i + 4) = p + i + 4 by omega] at h
      generalize cleanup_csum m p fuel (i + 4)
        ((c + (2 ^ 32 - get_32 m (p + i))) % 2 ^ 32) = r at h ⊢
      generalize word_sum m (p + i + 4) n = s at h ⊢
      generalize get_32 m (p + i) = w at h hw ⊢
      norm_num at h hw hc ⊢
      omega

/-- The function `adv_consistent` decides consistency as the specification words
it. -/
theorem adv_consistent_iff (m : Mem) (p : Nat) : adv_consistent m p = true ↔ adv_ok m p := by
  have hs := consistent_csum_eq m p ADV_SIZE 4 0 126 (by norm_num) (by simp [ADV_SIZE])
    (by norm_num)
  have hp : p + ADV_SIZE - 4 = p + 508 := by simp only [ADV_SIZE]; omega
  unfold adv_consistent adv_ok
  rw [hs, hp, Nat.zero_add]
  by_cases h1 : get_32 m p = ADV_MAGIC1
  · by_cases h3 : get_32 m (p + 508) = ADV_MAGIC3
    · simp [h1, h3]
    · simp [h1, h3]
  · simp [h1]

/-- Consistency of a copy depends on its 512 bytes only. -/
theorem adv_ok_congr (m m' : Mem) (p p' : Nat)
    (h : ∀ k, k < 512 → rd8 m (p + k) = rd8 m' (p' + k)) : adv_ok m p ↔ adv_ok m' p' := by
  have h1 : get_32 m p = get_32 m' p' :=
    get_32_congr m m' p p' (fun k hk => h k (by omega))
  have h2 : get_32 m (p + 508) = get_32 m' (p' + 508) :=
    get_32_congr m m' _ _ (fun k hk => by
      rw [Nat.add_assoc, Nat.add_assoc]; exact h (508 + k) (by omega))
  have h3 : word_sum m (p + 4) 126 = word_sum m' (p' + 4) 126 :=
    word_sum_congr m m' 126 _ _ (fun k hk => by
      rw [Nat.add_assoc, Nat.add_assoc]; exact h (4 + k) (by omega))
  unfold adv_ok
  rw [h1, h2, h3]

/-- The bytes of the first copy after `cleanup_adv` are those before its final
`memcpy`. -/
theorem cleanup_adv_first (m : Mem) (p k : Nat) (hk : k < 512) :
    rd8 (cleanup_adv m p) (p + k) =
      rd8 (set_32 (set_32 (set_32 m p ADV_MAGIC1) (p + 4)
        (cleanup_csum (set_32 m p ADV_MAGIC1) p ADV_SIZE 8 ADV_MAGIC2))
        (p + ADV_SIZE - 4) ADV_MAGIC3) (p + k) := by
  unfold cleanup_adv
  simp only []
  rw [rd8_memmove, if_neg (by simp only [ADV_SIZE]; omega)]

/-- The bytes of the second copy after `cleanup_adv` are those of the first. -/
theorem cleanup_adv_second (m : Mem) (p k : Nat) (hk : k < 512) :
    rd8 (cleanup_adv m p) (p + ADV_SIZE + k) = rd8 (cleanup_adv m p) (p + k) := by
  rw [cleanup_adv_first m p k hk]
  unfold cleanup_adv
  simp only []
  rw [rd8_memmove, if_pos (by simp only [ADV_SIZE]; omega),
    show p + ADV_SIZE + k - (p + ADV_SIZE) = k by omega]

/-- After `cleanup_adv` the first copy is consistent. -/
theorem cleanup_adv_ok_first (m : Mem) (p : Nat) : adv_ok (cleanup_adv m p) p := by
  have hc := cleanup_csum_lt (set_32 m p ADV_MAGIC1) p ADV_SIZE 8 ADV_MAGIC2 (by decide)
  have ha := cleanup_csum_add (set_32 m p ADV_MAGIC1) p ADV_SIZE 8 ADV_MAGIC2 125
    (by norm_num) (by simp [ADV_SIZE]) (by decide)
  rw [adv_ok_congr _ _ p p (fun k hk => cleanup_adv_first m p k hk)]
  have hp : p + ADV_SIZE - 4 = p + 508 := by simp only [ADV_SIZE]; omega
  rw [hp]
  generalize cleanup_csum (set_32 m p ADV_MAGIC1) p ADV_SIZE 8 ADV_MAGIC2 = csum at hc ha ⊢
  refine ⟨?_, ?_, ?_⟩
  · rw [get_32_set_32_other _ _ _ _ (by omega), get_32_set_32_other _ _ _ _ (by omega),
      get_32_set_32]
    decide
  · rw [get_32_set_32]
    decide
  · rw [word_sum, get_32_set_32_other _ _ _ _ (by omega), get_32_set_32,
      Nat.mod_eq_of_lt hc, show p + 4 + 4 = p + 8 by omega]
    rw [word_sum_congr _ (set_32 m p ADV_MAGIC1) 125 (p + 8) (p + 8) (fun k hk => by
      rw [rd8_set_32, rd8_set_32]
      split_ifs <;> first | rfl | omega)]
    exact ha

/-- After `cleanup_adv` the two copies hold the same bytes and both are
consistent. -/
theorem cleanup_adv_spec (m : Mem) (p : Nat) :
    copies_identical (cleanup_adv m p) p ∧ adv_ok (cleanup_adv m p) p ∧
    adv_ok (cleanup_adv m p) (p + ADV_SIZE) := by
  refine ⟨fun k hk => (cleanup_adv_second m p k hk).symm, cleanup_adv_ok_first m p, ?_⟩
  rw [adv_ok_congr _ (cleanup_adv m p) (p + ADV_SIZE) p
    (fun k hk => cleanup_adv_second m p k hk)]
  exact cleanup_adv_ok_first m p

/-- A `memcpy` repeated with the same arguments changes nothing when the source lies
below the destination. -/
theorem memmove_again (m : Mem) (d s n : Nat) (h : s + n ≤ d) :
    memmove (memmove m d s n) d s n = memmove m d s n := by
  funext a
  simp only [memmove]
  split_ifs <;> first | rfl | omega

/-- The `memcpy` of `syslinux_validate_adv` leaves a buffer as `cleanup_adv` made
it. -/
theorem cleanup_adv_copy_again (m : Mem) (p : Nat) :
    memmove (cleanup_adv m p) (p + ADV_SIZE) p ADV_SIZE = cleanup_adv m p := by
  unfold cleanup_adv
  exact memmove_again _ _ _ _ (Nat.le_refl _)

/-- After `syslinux_validate_adv` the two copies hold the same bytes and both are
consistent, for every buffer. -/
theorem validate_spec (m : Mem) (p : Nat) :
    copies_identical (syslinux_validate_adv m p).2 p ∧
    adv_ok (syslinux_validate_adv m p).2 p ∧
    adv_ok (syslinux_validate_adv m p).2 (p + ADV_SIZE) := by
  unfold syslinux_validate_adv
  simp only [Nat.zero_mul, Nat.add_zero, Nat.one_mul]
  split_ifs with h0 h1
  · rw [adv_consistent_iff] at h0
    have e1 : ∀ k, k < 512 → rd8 (memmove m (p + ADV_SIZE) p ADV_SIZE) (p + k) = rd8 m (p + k) := by
      intro k hk
      rw [rd8_memmove, if_neg (by simp only [ADV_SIZE]; omega)]
    have e2 : ∀ k, k < 512 →
        rd8 (memmove m (p + ADV_SIZE) p ADV_SIZE) (p + ADV_SIZE + k) = rd8 m (p + k) := by
      intro k hk
      rw [rd8_memmove, if_pos (by simp only [ADV_SIZE]; omega),
        show p + ADV_SIZE + k - (p + ADV_SIZE) = k by omega]
    refine ⟨fun k hk => ?_, ?_, ?_⟩
    · rw [e1 k hk, e2 k hk]
    · rw [adv_ok_congr _ m p p e1]; exact h0
    · rw [adv_ok_congr _ m (p + ADV_SIZE) p e2]; exact h0
  · rw [adv_consistent_iff] at h1
    have e1 : ∀ k, k < 512 →
        rd8 (memmove m p (p + ADV_SIZE) ADV_SIZE) (p + k) = rd8 m (p + ADV_SIZE + k) := by
      intro k hk
      rw [rd8_memmove, if_pos (by simp only [ADV_SIZE]; omega),
        show p + k - p = k by omega]
    have e2 : ∀ k, k < 512 →
        rd8 (memmove m p (p + ADV_SIZE) ADV_SIZE) (p + ADV_SIZE + k) =
          rd8 m (p + ADV_SIZE + k) := by
      intro k hk
      rw [rd8_memmove, if_neg (by simp only [ADV_SIZE]; omega)]
    refine ⟨fun k hk => ?_, ?_, ?_⟩
    · rw [e1 k hk, e2 k hk]
    · rw [adv_ok_congr _ m p (p + ADV_SIZE) e1]; exact h1
    · rw [adv_ok_congr _ m (p + ADV_SIZE) (p + ADV_SIZE) e2]; exact h1
  · exact cleanup_adv_spec _ p

/-- A call of `syslinux_setadv` that returns 0 ends with `cleanup_adv`. -/
theorem setadv_ends_with_cleanup (fuel : Nat) (m : Mem) (adv advtmp : Nat) (tag : Int)
    (size data : Nat) (r : Int × Mem)
    (h : syslinux_setadv fuel m adv advtmp tag size data = some r) (h0 : r.1 = 0) :
    ∃ m3, r.2 = cleanup_adv m3 adv := by
  unfold syslinux_setadv at h
  repeat' (first | split at h | (dsimp only at h; split at h))
  all_goals first
    | (exfalso; simp at h; done)
    | skip
  all_goals (simp only [Option.some.injEq] at h; subst h)
  all_goals first
    | (exfalso; simp at h0; done)
    | exact ⟨_, rfl⟩

/-- On a buffer that `cleanup_adv` has left, `syslinux_validate_adv` returns 0 and
changes nothing. -/
theorem validate_after_cleanup (m : Mem) (p : Nat) :
    syslinux_validate_adv (cleanup_adv m p) p = (0, cleanup_adv m p) := by
  have h : adv_consistent (cleanup_adv m p) (p + 0 * ADV_SIZE) = true := by
    rw [Nat.zero_mul, Nat.add_zero, adv_consistent_iff]
    exact cleanup_adv_ok_first m p
  rw [syslinux_validate_adv, if_pos h, cleanup_adv_copy_again]

/-- The function `syslinux_validate_adv` returns `-1` exactly when neither copy is
consistent. -/
theorem validate_ret (m : Mem) (p : Nat) :
    (syslinux_validate_adv m p).1 = -1 ↔
      adv_consistent m p = false ∧ adv_consistent m (p + ADV_SIZE) = false := by
  unfold syslinux_validate_adv
  simp only [Nat.zero_mul, Nat.add_zero, Nat.one_mul]
  split_ifs with h0 h1
  · simp [h0]
  · simp [h0, h1]
  · simp [h0, h1]

/-- C28.  For every buffer of two copies: `adv_consistent` holds of a copy exactly when
its head word is `ADV_MAGIC1`, its tail word is `ADV_MAGIC3` and the words from
offset 4 up to the tail sum to `ADV_MAGIC2` modulo `2 ^ 32`; after `cleanup_adv`,
after `syslinux_reset_adv` and after every call of `syslinux_setadv` that
returns 0, the two copies hold the same bytes and each is consistent;
`syslinux_validate_adv` on the buffer that `cleanup_adv` leaves returns 0 and
leaves the memory as it is; and on an arbitrary buffer `syslinux_validate_adv`
leaves two identical consistent copies and returns `-1` exactly when neither
copy was consistent on entry. -/
theorem adv_copies_identical_and_consistent (m : Mem) (advbuf : Nat) :
    (∀ p, adv_consistent m p = true ↔ adv_ok m p) ∧
    (copies_identical (cleanup_adv m advbuf) advbuf ∧
      adv_consistent (cleanup_adv m advbuf) advbuf = true ∧
      adv_consistent (cleanup_adv m advbuf) (advbuf + ADV_SIZE) = true) ∧
    (copies_identical (syslinux_reset_adv m advbuf) advbuf ∧
      adv_consistent (syslinux_reset_adv m advbuf) advbuf = true ∧
      adv_consistent (syslinux_reset_adv m advbuf) (advbuf + ADV_SIZE) = true) ∧
    (∀ fuel advtmp tag size data r,
      syslinux_setadv fuel m advbuf advtmp tag size data = some r → r.1 = 0 →
        copies_identical r.2 advbuf ∧ adv_consistent r.2 advbuf = true ∧
        adv_consistent r.2 (advbuf + ADV_SIZE) = true) ∧
    syslinux_validate_adv (cleanup_adv m advbuf) advbuf = (0, cleanup_adv m advbuf) ∧
    (copies_identical (syslinux_validate_adv m advbuf).2 advbuf ∧
      adv_consistent (syslinux_validate_adv m advbuf).2 advbuf = true ∧
      adv_consistent (syslinux_validate_adv m advbuf).2 (advbuf + ADV_SIZE) = true) ∧
    ((syslinux_validate_adv m advbuf).1 = -1 ↔
      adv_consistent m advbuf = false ∧ adv_consistent m (advbuf + ADV_SIZE) = false) := by
  have hc : ∀ m3 : Mem, copies_identical (cleanup_adv m3 advbuf) advbuf ∧
      adv_consistent (cleanup_adv m3 advbuf) advbuf = true ∧
      adv_consistent (cleanup_adv m3 advbuf) (advbuf + ADV_SIZE) = true := by
    intro m3
    rw [adv_consistent_iff, adv_consistent_iff]
    exact cleanup_adv_spec m3 advbuf
  refine ⟨fun p => adv_consistent_iff m p, hc m, hc _, ?_, validate_after_cleanup m advbuf,
    ?_, validate_ret m advbuf⟩
  · intro fuel advtmp tag size data r h h0
    obtain ⟨m3, hm⟩ := setadv_ends_with_cleanup fuel m advbuf advtmp tag size data r h h0
    rw [hm]
    exact hc m3
  · rw [adv_consistent_iff, adv_consistent_iff]
    exact validate_spec m advbuf

set_option maxRecDepth 100000 in
/-- C28 at a concrete buffer: the vector at address 4096 is reset and
`syslinux_setadv(1, 248, a)` is called on it, with `a` 248 bytes `0xAA`; the call
returns 0 and leaves two identical consistent copies. -/
theorem adv_copies_identical_and_consistent_witness :
    ∃ r, syslinux_setadv 10 (syslinux_reset_adv twoData 4096) 4096 8192 1 248 16384 = some r ∧
      r.1 = 0 ∧ copies_identical r.2 4096 ∧ adv_consistent r.2 4096 = true ∧
      adv_consistent r.2 (4096 + ADV_SIZE) = true := by
  have hm : (syslinux_setadv 10 (syslinux_reset_adv twoData 4096) 4096 8192 1 248
      16384).map (fun r => r.1) = some 0 := by decide
  obtain ⟨r, hr, h0⟩ := Option.map_eq_some'.mp hm
  exact ⟨r, hr, h0,
    (adv_copies_identical_and_consistent (syslinux_reset_adv twoData 4096) 4096).2.2.2.1
      10 8192 1 248 16384 r hr h0⟩

end ADV
